import Mathlib

/-!
# sailfish-browser: the web container and its collaborators

A shallow embedding of `src/src/declarativewebcontainer.cpp` (class
`DeclarativeWebContainer`) together with the collaborators it drives.

Conventions of the embedding.

* Every member function of the container is a Lean function on the container
  state, a long one being cut into named blocks; a function that can dereference
  a null `QPointer` returns `Option`, and `none` stands for that null dereference.
* A function that blocks is cut at the blocking call: `createGLContext` is the
  part up to `m_windowExposed.wait`, `createGLContextResume` the part after it.
  The code that runs under `m_exposedMutex` is one step.
* A command sent to a collaborator (tab model, page pool, live page, database
  manager, setting manager, GL) and every signal emitted by the container is
  appended to the `log` of the state, in program order. Getters are not logged.
* Slots are entry points of their own: a signal emitted by a collaborator is
  delivered by the host event loop as a later operation (`Op`), it is not run
  inside the function whose call made the collaborator emit it.
* `DeclarativeTabModel` and `WebPages` are classes of the repository whose
  sources are not part of `src/`; their state and operations are modelled from
  the specification (TabStore and LivePagePool there).
* Values read from singletons outside the container (engine runtime, download
  manager, settings, first-use state, window exposure) are the fields of `Env`.
* Geometry (`qreal` heights, orientation values, touch coordinates) is left out.
-/

namespace SailfishBrowser

/-! ## Tabs and the tab model -/

/-- Value class `Tab` as the container and the tab-model test use it: `tabId()`,
`url()`/`setUrl()`, `title()` and the three history links. -/
structure Tab where
  tabId : Int
  url : String
  title : String
  currentLink : Int
  previousLink : Int
  nextLink : Int
  deriving DecidableEq, Repr

/-- Default-constructed `Tab`: the invalid tab, whose `tabId` is 0. -/
def Tab.invalid : Tab := ⟨0, "", "", 0, 0, 0⟩

/-- Validity test `Tab::isValid()`, used by the test helpers `currentTabId`/`currentTabUrl`. -/
def Tab.isValid (t : Tab) : Bool := decide (0 < t.tabId)

/-- Setter `Tab::setUrl`. -/
def Tab.setUrl (t : Tab) (url : String) : Tab := { t with url := url }

/-- Setter `Tab::setTabId`. -/
def Tab.setTabId (t : Tab) (tabId : Int) : Tab := { t with tabId := tabId }

/-- Modelled from the spec: HistoryRecord (link) of section 3, one navigation step of a tab. -/
structure HistoryRecord where
  linkId : Int
  tabId : Int
  url : String
  title : String
  parentLinkId : Int
  deriving DecidableEq, Repr

/-- Notifications of the tab model. `activeTabChanged(int,int,bool)`, `loadedChanged()`,
`tabClosed(int)` and `newTabRequested(QString,QString,int)` are the signals the container
connects to in `setTabModel`; `countChanged()` is the one it emits on the model. -/
inductive ModelSignal where
  | countChanged
  | activeTabChanged (oldTabId newTabId : Int) (loadRequested : Bool)
  | loadedChanged
  | tabClosed (tabId : Int)
  | newTabRequested (url title : String) (parentId : Int)
  deriving DecidableEq, Repr

/-- Modelled from the spec: the state of `DeclarativeTabModel` (TabStore of section 3 and
4.2, whose source `declarativetabmodel.cpp` is absent): the ordered tabs, the active tab id,
the id the next tab gets, the history records with the id the next record gets, the loaded
flag, the `waitingForNewTab` flag read by `onDownloadStarted`, and the notifications fired
so far. -/
structure DeclarativeTabModel where
  tabs : List Tab
  activeTabId : Int
  nextTabId : Int
  links : List HistoryRecord
  nextLinkId : Int
  loaded : Bool
  waitingForNewTab : Bool
  fired : List ModelSignal
  deriving DecidableEq, Repr

/-- True when `url` starts with `scheme`. -/
def hasScheme (scheme url : String) : Bool := scheme.toList.isPrefixOf url.toList

/-- Modelled from the spec: the scheme prefixes of section 4.1 whose action is a side effect
rather than a page view: telephone, SMS, mail composition, geographic coordinates. -/
def nonNavigableSchemes : List String := ["tel:", "sms:", "mailto:", "geo:"]

/-- Modelled from the spec: the URL validity filter of section 4.1; a URL is navigable
unless it is recognised by one of the non-navigable scheme prefixes. -/
def navigable (url : String) : Bool := !(nonNavigableSchemes.any (fun s => hasScheme s url))

/-- The blank-page sentinel an empty URL is normalised to (`"about:blank"` in `load`). -/
def blankPage : String := "about:blank"

/-- Normalisation of an empty URL, the first statement of `DeclarativeWebContainer::load`
and the no-op validation of `newTab` in the spec. -/
def normalizeUrl (url : String) : String := if url.isEmpty then blankPage else url

namespace DeclarativeTabModel

/-- Modelled from the spec: a store that has no tabs and is not yet loaded; tab ids and
link ids are positive and handed out from 1. -/
def empty : DeclarativeTabModel :=
  { tabs := [], activeTabId := 0, nextTabId := 1, links := [], nextLinkId := 1,
    loaded := false, waitingForNewTab := false, fired := [] }

/-- Modelled from the spec: `count()`. -/
def count (m : DeclarativeTabModel) : Nat := m.tabs.length

/-- Modelled from the spec: `activeTab()`, the tab whose id is `activeTabId`, the invalid
tab when there is none. -/
def activeTab (m : DeclarativeTabModel) : Tab :=
  (m.tabs.find? (fun t => t.tabId == m.activeTabId)).getD Tab.invalid

/-- Modelled from the spec: `contains(tabId)`. -/
def contains (m : DeclarativeTabModel) (tabId : Int) : Bool :=
  m.tabs.any (fun t => t.tabId == tabId)

/-- Modelled from the spec: `findTabIndex(tabId)`, the position of the tab, -1 when absent. -/
def findTabIndex (m : DeclarativeTabModel) (tabId : Int) : Int :=
  match m.tabs.findIdx? (fun t => t.tabId == tabId) with
  | some i => (i : Int)
  | none => -1

/-- Notification helper: append one fired signal. -/
def fire (m : DeclarativeTabModel) (s : ModelSignal) : DeclarativeTabModel :=
  { m with fired := m.fired ++ [s] }

/-- The notifications fired by a call that took the store from `m` to `m1`, in order. -/
def firedBy (m m1 : DeclarativeTabModel) : List ModelSignal := m1.fired.drop m.fired.length

/-- Modelled from the spec: creation of a tab, shared by `newTab` and `addTab` (4.2 with the
URL validity filter of 4.1). A non-navigable URL creates no tab and no record and fires
nothing. Otherwise the next tab id is allocated, a history record is written for the URL,
the tab is appended and made active, and the tab-count and active-tab-changed notifications
fire. -/
def createTab (m : DeclarativeTabModel) (url title : String) (loadRequested : Bool) :
    DeclarativeTabModel :=
  if navigable url then
    { m with
      tabs := m.tabs ++ [⟨m.nextTabId, url, title, m.nextLinkId, 0, 0⟩]
      activeTabId := m.nextTabId
      nextTabId := m.nextTabId + 1
      links := m.links ++ [⟨m.nextLinkId, m.nextTabId, url, title, 0⟩]
      nextLinkId := m.nextLinkId + 1
      fired := m.fired ++
        [ModelSignal.countChanged,
         ModelSignal.activeTabChanged m.activeTabId m.nextTabId loadRequested] }
  else m

/-- Modelled from the spec: `newTab(url, title)`; an empty URL is normalised to the
blank-page sentinel. The new tab is to be loaded, so the notification asks for a load. -/
def newTab (m : DeclarativeTabModel) (url title : String) : DeclarativeTabModel :=
  createTab m (normalizeUrl url) title true

/-- Modelled from the spec: `addTab(url, title)`, like `newTab` but for link-initiated
navigation (the page is already loading the URL); the URL validity filter applies
identically. The tab takes the URL as it is given: `tst_declarativetabmodel::validTabs`
compares `activeTab().url()` with the URL passed to `addTab`. -/
def addTab (m : DeclarativeTabModel) (url title : String) : DeclarativeTabModel :=
  createTab m url title false

/-- Rewrite the tab with the given id, leaving every other tab as it is. -/
def mapTab (m : DeclarativeTabModel) (tabId : Int) (f : Tab → Tab) : DeclarativeTabModel :=
  { m with tabs := m.tabs.map (fun t => if t.tabId == tabId then f t else t) }

/-- Modelled from the spec: `updateUrl(tabId, isActiveTab, url, isInitialLoad)` of 4.2 with
`HistoryChain.append` of 4.1. A non-navigable URL and an unknown tab change nothing. An
initial load of a tab that never had a record only books the URL. Otherwise a new record
whose parent is the tab's current link becomes the current link, the old current link
becomes the previous link and the next link is cleared. The title is reset to empty. -/
def updateUrl (m : DeclarativeTabModel) (tabId : Int) (_isActiveTab : Bool) (url : String)
    (isInitialLoad : Bool) : DeclarativeTabModel :=
  if navigable url then
    match m.tabs.find? (fun t => t.tabId == tabId) with
    | none => m
    | some t =>
      if isInitialLoad && t.currentLink == 0 then
        mapTab m tabId (fun x => { x with url := url, title := "" })
      else
        { mapTab m tabId (fun x =>
            { x with url := url, title := "", currentLink := m.nextLinkId,
                     previousLink := x.currentLink, nextLink := 0 }) with
          links := m.links ++ [⟨m.nextLinkId, tabId, url, "", t.currentLink⟩]
          nextLinkId := m.nextLinkId + 1 }
  else m

/-- Modelled from the spec: `updateTitle(tabId, isActiveTab, url, title)`; only a tab that
still shows `url` takes the title (stale-write guard), together with its current record. -/
def updateTitle (m : DeclarativeTabModel) (tabId : Int) (_isActiveTab : Bool)
    (url title : String) : DeclarativeTabModel :=
  match m.tabs.find? (fun t => t.tabId == tabId) with
  | none => m
  | some t =>
    if t.url == url then
      { mapTab m tabId (fun x => { x with title := title }) with
        links := m.links.map (fun r =>
          if r.linkId == t.currentLink && r.tabId == tabId then { r with title := title }
          else r) }
    else m

/-- Modelled from the spec: `activateTab` addressed by tab id (`activateTabById`, called by
`closeWindow`): the tab becomes active and active-tab-changed fires; nothing happens when
the tab is unknown or already active. -/
def activateTabById (m : DeclarativeTabModel) (tabId : Int) : DeclarativeTabModel :=
  if m.contains tabId && tabId != m.activeTabId then
    fire { m with activeTabId := tabId }
      (ModelSignal.activeTabChanged m.activeTabId tabId true)
  else m

/-- Modelled from the spec: `activateTab(index, loadRequested)`. -/
def activateTab (m : DeclarativeTabModel) (index : Nat) (loadRequested : Bool) :
    DeclarativeTabModel :=
  match m.tabs.get? index with
  | none => m
  | some t =>
    if t.tabId != m.activeTabId then
      fire { m with activeTabId := t.tabId }
        (ModelSignal.activeTabChanged m.activeTabId t.tabId loadRequested)
    else m

/-- Modelled from the spec: removal of the tab at `index` (4.2). When the tab was active,
activation moves to the tab immediately preceding it, or to the first tab of the new list
when none precedes, and active-tab-changed fires; when the last tab is removed the active
tab id becomes 0 and only count-changed fires. The closed tab is announced by
`tabClosed`, the signal the container connects to `releasePage`. -/
def removeAt (m : DeclarativeTabModel) (index : Nat) (wasActive : Bool) :
    DeclarativeTabModel :=
  match m.tabs.get? index with
  | none => m
  | some t =>
    let rest := m.tabs.eraseIdx index
    let m1 := fire { m with tabs := rest } (ModelSignal.tabClosed t.tabId)
    let m2 :=
      if wasActive then
        match rest.get? (index - 1) with
        | some n =>
          fire { m1 with activeTabId := n.tabId }
            (ModelSignal.activeTabChanged m.activeTabId n.tabId true)
        | none => { m1 with activeTabId := 0 }
      else m1
    fire m2 ModelSignal.countChanged

/-- Modelled from the spec: `remove(index)`. -/
def remove (m : DeclarativeTabModel) (index : Nat) : DeclarativeTabModel :=
  match m.tabs.get? index with
  | none => m
  | some t => removeAt m index (t.tabId == m.activeTabId)

/-- Modelled from the spec: `removeTabById(tabId, wasActive)`. -/
def removeTabById (m : DeclarativeTabModel) (tabId : Int) (wasActive : Bool) :
    DeclarativeTabModel :=
  match m.tabs.findIdx? (fun t => t.tabId == tabId) with
  | none => m
  | some i => removeAt m i wasActive

/-- Modelled from the spec: `closeActiveTab()`, which is `removeTabById(activeTabId, true)`. -/
def closeActiveTab (m : DeclarativeTabModel) : DeclarativeTabModel :=
  removeTabById m m.activeTabId true

/-- Modelled from the spec: `clear()`: all tabs removed, no active tab, one count-changed. -/
def clear (m : DeclarativeTabModel) : DeclarativeTabModel :=
  fire { m with tabs := [], activeTabId := 0 } ModelSignal.countChanged

/-- Modelled from the spec: the history record with the given link id, as the persistence
collaborator holds it. -/
def linkRecord (m : DeclarativeTabModel) (linkId : Int) : Option HistoryRecord :=
  m.links.find? (fun r => r.linkId == linkId)

/-- Modelled from the spec: the forward chain pointer of a record of a tab, the link id of
the record the tab navigated to from it, 0 when there is none. A record keeps its
`parentLinkId` for good and an append truncates the forward history (4.1), so of the
records of the tab written with this parent only the most recent one is on the chain. -/
def forwardLink (m : DeclarativeTabModel) (tabId linkId : Int) : Int :=
  match m.links.reverse.find? (fun r => r.tabId == tabId && r.parentLinkId == linkId) with
  | some r => r.linkId
  | none => 0

/-- Modelled from the spec: the traversal step shared by `goBack` and `goForward` of 4.1
(`DBManager::goBack(tabId)` and `goForward(tabId)`, whose source is absent): the record at
`linkId` becomes the current link of the tab, the tab shows the URL and title of that
record, and the previous and next links are recomputed from the chain pointers of that
record. The update of the active tab is announced by active-tab-changed
(`forwardBackwardNavigation` waits for one per traversal); no load is requested, the page
navigates by itself. An unknown record changes nothing. -/
def traverse (m : DeclarativeTabModel) (tabId linkId : Int) : DeclarativeTabModel :=
  match m.linkRecord linkId with
  | none => m
  | some r =>
    let m1 := mapTab m tabId (fun x =>
      { x with url := r.url, title := r.title, currentLink := r.linkId,
               previousLink := r.parentLinkId, nextLink := m.forwardLink tabId r.linkId })
    if tabId == m.activeTabId then
      fire m1 (ModelSignal.activeTabChanged tabId tabId false)
    else m1

/-- Modelled from the spec: `goBack(tab)` of 4.1; without a previous link the operation is
a no-op and no notification fires (`NavigationError::NoHistory`, 7). -/
def goBack (m : DeclarativeTabModel) (tabId : Int) : DeclarativeTabModel :=
  match m.tabs.find? (fun t => t.tabId == tabId) with
  | none => m
  | some t => if t.previousLink != 0 then traverse m tabId t.previousLink else m

/-- Modelled from the spec: `goForward(tab)` of 4.1, symmetric to `goBack`. -/
def goForward (m : DeclarativeTabModel) (tabId : Int) : DeclarativeTabModel :=
  match m.tabs.find? (fun t => t.tabId == tabId) with
  | none => m
  | some t => if t.nextLink != 0 then traverse m tabId t.nextLink else m

/-- Modelled from the spec: the invariant of 3 that ties a tab to its persisted chain
("`currentLink` always identifies the most recently visited record", "`previousLink` /
`nextLink` are valid only if the corresponding adjacent record exists in the persisted
chain"): the tab has a current record and shows its URL and title, its previous link is
the parent of that record and its next link the forward pointer of that record, and a
previous link, when there is one, is a record whose forward pointer is the current
link. -/
def onChain (m : DeclarativeTabModel) (t : Tab) : Bool :=
  t.currentLink != 0 &&
  (match m.linkRecord t.currentLink with
   | some r => r.url == t.url && r.title == t.title && r.parentLinkId == t.previousLink
   | none => false) &&
  m.forwardLink t.tabId t.currentLink == t.nextLink &&
  (t.previousLink == 0 ||
    ((m.linkRecord t.previousLink).isSome &&
      m.forwardLink t.tabId t.previousLink == t.currentLink))

/-- The back history of a tab behind one of its links: the record of the link belongs to
the tab, and either it has no parent or its parent has it as forward pointer and has a back
history of its own. -/
inductive BackChain (m : DeclarativeTabModel) (tabId : Int) : Int → Prop where
  | first {l : Int} {r : HistoryRecord} :
      m.linkRecord l = some r → r.tabId = tabId → r.parentLinkId = 0 → BackChain m tabId l
  | step {l : Int} {r : HistoryRecord} :
      m.linkRecord l = some r → r.tabId = tabId → r.parentLinkId ≠ 0 →
      m.forwardLink tabId r.parentLinkId = l → BackChain m tabId r.parentLinkId →
      BackChain m tabId l

/-- Modelled from the spec: the invariants of the data model (3). Tab ids are handed out
monotonically and are unique; link ids are positive, handed out monotonically and unique,
and a record is younger than the record it was navigated from; every tab has a current
record, shows its URL and title, has its parent as previous link and its forward pointer
as next link, and has a back history behind it. -/
structure WellFormed (m : DeclarativeTabModel) : Prop where
  tabIds : ∀ t ∈ m.tabs, t.tabId < m.nextTabId
  uniqueTabs : (m.tabs.map (fun t => t.tabId)).Nodup
  nextLink : 0 < m.nextLinkId
  linkIds : ∀ r ∈ m.links, 0 < r.linkId ∧ r.linkId < m.nextLinkId ∧ r.parentLinkId < r.linkId
  uniqueLinks : (m.links.map (fun r => r.linkId)).Nodup
  chains : ∀ t ∈ m.tabs,
    t.currentLink ≠ 0 ∧
    (∃ r, m.linkRecord t.currentLink = some r ∧ r.url = t.url ∧ r.title = t.title ∧
      r.parentLinkId = t.previousLink) ∧
    m.forwardLink t.tabId t.currentLink = t.nextLink ∧
    BackChain m t.tabId t.currentLink

/-- Helper `tst_declarativetabmodel::canGoBack`: `activeTab().previousLink() > 0`. -/
def canGoBack (m : DeclarativeTabModel) : Bool := decide (0 < m.activeTab.previousLink)

/-- Helper `tst_declarativetabmodel::canGoForward`: `activeTab().nextLink() > 0`. -/
def canGoForward (m : DeclarativeTabModel) : Bool := decide (0 < m.activeTab.nextLink)

/-- Helper `tst_declarativetabmodel::currentTabId`: the id of the active tab when it is
valid (`Tab::isValid`, a positive tab id), 0 otherwise. -/
def currentTabId (m : DeclarativeTabModel) : Int :=
  if 0 < m.activeTab.tabId then m.activeTab.tabId else 0

/-- Example store: three of the tabs of the tests, added in order, the first one activated
again (the state in which the tests `remove` and `closeActiveTab` start). -/
def threeTabsModel : DeclarativeTabModel :=
  (((empty.addTab "http://sailfishos.org" "SailfishOS.org").addTab
      "file:///opt/tests/sailfish-browser/manual/testpage.html" "Test Page").addTab
      "http://www.jolla.com" "Jolla -- we are unlike!").activateTab 0 true

/-- Example store: one tab that navigated to three pages in turn, as the tests do with
`addTab` followed by `updateUrl(currentTabId(), true, url, false)`. -/
def navigatedModel : DeclarativeTabModel :=
  (((empty.addTab "http://www.foobar.com/page1" "").updateUrl 1 true
      "http://www.foobar.com/page2" false).updateUrl 1 true
      "http://www.foobar.com/page3" false)

/-- Example store: two tabs showing the same URL, the second one active, as at the end of
the test `updateTitle`. -/
def sameUrlModel : DeclarativeTabModel :=
  (empty.addTab "http://foobar" "").addTab "http://foobar" "FooBar Two"

/-- Modelled from the spec: `setUnloaded()`, back to the unloaded state. -/
def setUnloaded (m : DeclarativeTabModel) : DeclarativeTabModel := { m with loaded := false }

/-- Setter `setWaitingForNewTab`, used by `onDownloadStarted`. -/
def setWaitingForNewTab (m : DeclarativeTabModel) (waiting : Bool) : DeclarativeTabModel :=
  { m with waitingForNewTab := waiting }

end DeclarativeTabModel

/-! ## Live pages and the page pool -/

/-- Live page (`DeclarativeWebPage`, a live rendering session) as far as the container reads
it: the tab it is bound to, the parent tab that opened it, and the state the engine
reports. -/
structure WebPage where
  tabId : Int
  parentId : Int
  completed : Bool
  canGoBack : Bool
  canGoForward : Bool
  loading : Bool
  loadProgress : Int
  url : String
  title : String
  initialLoadHasHappened : Bool
  deriving DecidableEq, Repr

/-- A session just created for a tab: nothing loaded, not yet completed. -/
def WebPage.fresh (tabId parentId : Int) : WebPage :=
  ⟨tabId, parentId, false, false, false, false, 0, "", "", false⟩

/-- Modelled from the spec: the state of `WebPages` (LivePagePool of 3 and 4.3, whose source
`webpages.cpp` is absent): whether the pool has been given its page component, the
capacity, the tab whose session is the active one (0 for none), and the resident sessions,
least recently activated first. -/
structure WebPages where
  initialized : Bool
  maxLivePages : Int
  activeTabId : Int
  pages : List WebPage
  deriving DecidableEq, Repr

namespace WebPages

/-- A pool without sessions. -/
def empty (capacity : Int) : WebPages :=
  { initialized := false, maxLivePages := capacity, activeTabId := 0, pages := [] }

/-- Resident session of a tab, if any. -/
def find (p : WebPages) (tabId : Int) : Option WebPage :=
  p.pages.find? (fun s => s.tabId == tabId)

/-- Modelled from the spec: `alive(tabId)`, true iff a resident session exists. -/
def alive (p : WebPages) (tabId : Int) : Bool := (p.find tabId).isSome

/-- Modelled from the spec: `parentTabId(tabId)`, 0 if no parent is recorded. -/
def parentTabId (p : WebPages) (tabId : Int) : Int :=
  match p.find tabId with
  | some s => s.parentId
  | none => 0

/-- Call `WebPages::initialize(container, component)`, after which `activatePage` reads
`initialized()`. The class is absent from the sources and the spec has no such operation;
the effect is taken from the call site: the pool counts as initialized once it has been
handed a page component. (Lean reserves the word `initialize`, hence the name.) -/
def initializePool (p : WebPages) (component : Bool) : WebPages :=
  if p.initialized then p else { p with initialized := component }

/-- Modelled from the spec: a session is pinned while its script parent or one of its
script children is live too (4.3). -/
def pinned (p : WebPages) (s : WebPage) : Bool :=
  (s.parentId != 0 && p.alive s.parentId) || p.pages.any (fun c => c.parentId == s.tabId)

/-- Modelled from the spec: the eviction choice of 4.3, the least recently activated
session that is neither the active one nor pinned. -/
def evictionCandidate (p : WebPages) : Option WebPage :=
  p.pages.find? (fun s => s.tabId != p.activeTabId && !p.pinned s)

/-- Drop the session of a tab. -/
def drop (p : WebPages) (tabId : Int) : WebPages :=
  { p with pages := p.pages.filter (fun s => s.tabId != tabId) }

/-- Modelled from the spec: `acquire(tabId, parentTabId)` of 4.3 (`WebPages::page(tab,
parentId)` in `activatePage`). A resident session is returned as it is (not newly
activated). Otherwise a session is created, after evicting the eviction candidate when the
pool is at capacity; with no candidate the pool is exhausted and hands out nothing. The
session handed out becomes the active, most recently activated one. The result is the new
pool, the tab id of the session handed out, and the `activated` flag. -/
def page (p : WebPages) (tab : Tab) (parentId : Int) : WebPages × Option Int × Bool :=
  match p.find tab.tabId with
  | some s =>
    ({ p with activeTabId := tab.tabId, pages := (p.drop tab.tabId).pages ++ [s] },
      some tab.tabId, false)
  | none =>
    if (p.pages.length : Int) < p.maxLivePages then
      ({ p with activeTabId := tab.tabId, pages := p.pages ++ [WebPage.fresh tab.tabId parentId] },
        some tab.tabId, true)
    else
      match p.evictionCandidate with
      | some v =>
        ({ p with activeTabId := tab.tabId,
                  pages := (p.drop v.tabId).pages ++ [WebPage.fresh tab.tabId parentId] },
          some tab.tabId, true)
      | none => (p, none, false)

/-- Modelled from the spec: `release(tabId, virtualize)`; in both modes the session is
discarded, the tab record is not the pool's business. -/
def release (p : WebPages) (tabId : Int) (_virtualize : Bool) : WebPages :=
  { p.drop tabId with activeTabId := if p.activeTabId == tabId then 0 else p.activeTabId }

/-- Eviction pass: evict least recently activated sessions other than the active one until
the size is within the capacity or nothing can be evicted. -/
def evictDown (p : WebPages) : Nat → WebPages
  | 0 => p
  | fuel + 1 =>
    if (p.pages.length : Int) ≤ p.maxLivePages then p
    else
      match p.pages.find? (fun s => s.tabId != p.activeTabId) with
      | some v => evictDown (p.drop v.tabId) fuel
      | none => p

/-- Modelled from the spec: `setCapacity(n)` (`setMaxLivePages`), returning whether the
value changed together with the pool after the eviction pass. -/
def setMaxLivePages (p : WebPages) (n : Int) : Bool × WebPages :=
  (n != p.maxLivePages, evictDown { p with maxLivePages := n } p.pages.length)

/-- Example pool: capacity 2 and the sessions of tabs 1, 2 and then 3 acquired in turn, so
that tab 1 has been evicted and tab 3 is the active one (scenario 7 of the testable
properties). -/
def threeAcquired : WebPages :=
  ((((empty 2).page ⟨1, "http://sailfishos.org", "", 1, 0, 0⟩ 0).1.page
      ⟨2, "http://www.jolla.com", "", 2, 0, 0⟩ 0).1.page
      ⟨3, "http://foobar", "", 3, 0, 0⟩ 0).1

/-- Example pool: capacity 1 and the session of tab 1, the active one. -/
def oneAcquired : WebPages :=
  ((empty 1).page ⟨1, "http://sailfishos.org", "", 1, 0, 0⟩ 0).1

/-- Rewrite the session of a tab. -/
def mapPage (p : WebPages) (tabId : Int) (f : WebPage → WebPage) : WebPages :=
  { p with pages := p.pages.map (fun s => if s.tabId == tabId then f s else s) }

end WebPages

/-! ## The container -/

/-- Signals the container emits in `declarativewebcontainer.cpp`. -/
inductive Signal where
  | contentItemChanged
  | tabIdChanged
  | loadingChanged
  | focusObjectChanged
  | loadProgressChanged
  | tabModelChanged
  | completedChanged
  | foregroundChanged
  | maxLiveTabCountChanged
  | privateModeChanged
  | chromeWindowChanged
  | chromeExposed
  deriving DecidableEq, Repr

/-- Commands sent to the tab model `m_model`; `countChanged` is `emit m_model->countChanged()`. -/
inductive ModelCall where
  | disconnect
  | connect
  | newTab (url title : String)
  | addTab (url title : String)
  | updateUrl (tabId : Int) (activeTab : Bool) (url : String) (initialLoad : Bool)
  | updateTitle (tabId : Int) (activeTab : Bool) (url title : String)
  | activateTabById (tabId : Int)
  | removeTabById (tabId : Int) (activeTab : Bool)
  | clear
  | setUnloaded
  | setWaitingForNewTab (waiting : Bool)
  | countChanged
  deriving DecidableEq, Repr

/-- Commands sent to the page pool `m_webPages`. -/
inductive PoolCall where
  | setup
  | page (tabId parentId : Int)
  | release (tabId : Int) (virtualize : Bool)
  | setMaxLivePages (count : Int)
  | dumpPages
  deriving DecidableEq, Repr

/-- Commands sent to a live page; `urlChanged` is `emit m_webPage->urlChanged()`. -/
inductive PageCall where
  | disconnect
  | setWindow
  | loadTab (url : String) (force : Bool)
  | reload
  | goBack
  | goForward
  | forceChrome (enabled : Bool)
  | setChrome (enabled : Bool)
  | suspendView
  | urlChanged
  | setInitialLoadHasHappened
  | resetHeight (respectContentHeight : Bool)
  | updateContentOrientation
  | update
  | input
  | focus (focusIn : Bool)
  | sendVkbMetrics
  deriving DecidableEq, Repr

/-- Steps on the window surface and the exposure gate: the temporary context of the Expose
handler, `m_windowExposed.wakeAll()`, and the context of `createGLContext`. -/
inductive GLCall where
  | tempContextCreate
  | tempContextMakeCurrent
  | clear
  | tempSwapBuffers
  | tempDoneCurrent
  | wakeAll
  | contextCreate
  | contextMakeCurrent
  | openGLFunctionsSetup
  deriving DecidableEq, Repr

/-- Commands the container sends to its collaborators, and the signals it emits. A page
command carries the tab id of the page it is sent to. -/
inductive Event where
  | emitted (s : Signal)
  | model (call : ModelCall)
  | pool (call : PoolCall)
  | page (tabId : Int) (call : PageCall)
  | gl (call : GLCall)
  | dbGoBack (tabId : Int)
  | dbGoForward (tabId : Int)
  | settingsInitialized
  | settingsSetAutostartPrivateBrowsing (enabled : Bool)
  | reportContentOrientationChange
  | setWindowFlags (cover : Bool)
  | chromeWindowSetup
  | chromeDisconnectOrientation
  deriving DecidableEq, Repr

/-- Values the container reads from outside itself during a call: the `initialized()` flags
of `QMozContext` and `DownloadManager`, `clearHistoryRequested()` and the value returned by
`initialize()` of the setting manager, `firstUseDone()` and `homePage()` of
`DeclarativeWebUtils`, `isExposed()` of the window and of the chrome window, and whether the
temporary context provides ES2 functions. -/
structure Env where
  mozContextInitialized : Bool
  downloadManagerInitialized : Bool
  clearHistoryRequested : Bool
  settingManagerInitialize : Bool
  firstUseDone : Bool
  homePage : String
  windowExposed : Bool
  chromeWindowExposed : Bool
  glFunctions : Bool
  deriving DecidableEq, Repr

/-- Which of the two models owned by the container `m_model` points to. -/
inductive ModelRef where
  | persistent
  | privateBrowsing
  deriving DecidableEq, Repr

/-- Event types `eventFilter` distinguishes. -/
inductive QEventType where
  | Expose
  | Close
  | Show
  | Other
  deriving DecidableEq, Repr

/-- State of `DeclarativeWebContainer` (the members of `declarativewebcontainer.h` the code
branches on). `m_webPage` is the tab id of the live page pointed to, `m_model` says which
model is current, `m_context` and `m_webPageComponent` say whether the pointer is set,
`m_chromeWindow` is the identity of the chrome window. `hasExposedChrome` is the static
local of `eventFilter`. `exposedWaiters` counts the threads blocked in
`m_windowExposed.wait`, `exposedWoken` those woken by `wakeAll` that have not yet
continued. `log` is the trace of commands and signals. -/
structure DeclarativeWebContainer where
  m_webPage : Option Int
  m_chromeWindow : Option Nat
  m_context : Bool
  m_model : Option ModelRef
  m_webPageComponent : Bool
  m_webPages : Option WebPages
  m_persistentTabModel : DeclarativeTabModel
  m_privateTabModel : DeclarativeTabModel
  m_enabled : Bool
  m_foreground : Bool
  m_allowHiding : Bool
  m_tabId : Int
  m_initialUrl : String
  m_loading : Bool
  m_loadProgress : Int
  m_completed : Bool
  m_initialized : Bool
  m_privateMode : Bool
  m_hasBeenExposed : Bool
  hasExposedChrome : Bool
  exposedWaiters : Nat
  exposedWoken : Nat
  log : List Event
  deriving DecidableEq, Repr

namespace DeclarativeWebContainer

/-- Append one command or signal to the trace. -/
def record (c : DeclarativeWebContainer) (e : Event) : DeclarativeWebContainer :=
  { c with log := c.log ++ [e] }

/-- Statement `emit signal()`. -/
def emitSignal (c : DeclarativeWebContainer) (s : Signal) : DeclarativeWebContainer :=
  record c (Event.emitted s)

/-- The model `m_model` points to (`tabModel()`), `none` for a null pointer. -/
def tabModel (c : DeclarativeWebContainer) : Option DeclarativeTabModel :=
  match c.m_model with
  | none => none
  | some ModelRef.persistent => some c.m_persistentTabModel
  | some ModelRef.privateBrowsing => some c.m_privateTabModel

/-- Store the new state of the model `m_model` points to. -/
def putTabModel (c : DeclarativeWebContainer) (m : DeclarativeTabModel) :
    DeclarativeWebContainer :=
  match c.m_model with
  | none => c
  | some ModelRef.persistent => { c with m_persistentTabModel := m }
  | some ModelRef.privateBrowsing => { c with m_privateTabModel := m }

/-- A page of the pool addressed by its handle, `none` when the pool or the page is gone. -/
def pageOf (c : DeclarativeWebContainer) (handle : Option Int) : Option WebPage :=
  match handle, c.m_webPages with
  | some h, some p => p.find h
  | _, _ => none

/-- The live page `m_webPage` points to (`webPage()`); a `QPointer` whose page has been
destroyed reads as null. -/
def webPage (c : DeclarativeWebContainer) : Option WebPage := pageOf c c.m_webPage

/-- The value of the pointer `m_webPage` itself. -/
def webPagePtr (c : DeclarativeWebContainer) : Option Int :=
  if (webPage c).isSome then c.m_webPage else none

/-- Store the new state of the pool; `m_webPage` becomes null when its page is no longer
resident (`QPointer`). -/
def putWebPages (c : DeclarativeWebContainer) (p : WebPages) : DeclarativeWebContainer :=
  { c with
    m_webPages := some p
    m_webPage := match c.m_webPage with
      | some h => if p.alive h then some h else none
      | none => none }

/-- Getter `completed()`. -/
def completed (c : DeclarativeWebContainer) : Bool := c.m_completed

/-- Getter `foreground()`. -/
def foreground (c : DeclarativeWebContainer) : Bool := c.m_foreground

/-- Getter `privateMode()`. -/
def privateMode (c : DeclarativeWebContainer) : Bool := c.m_privateMode

/-- Getter `loadProgress()`. -/
def loadProgress (c : DeclarativeWebContainer) : Int := c.m_loadProgress

/-- Getter `tabId()`. -/
def tabId (c : DeclarativeWebContainer) : Int := c.m_tabId

/-- Getter `loading()`: the page's flag, without a page whether the model has tabs. -/
def loading (c : DeclarativeWebContainer) : Bool :=
  match webPage c with
  | some pg => pg.loading
  | none =>
    match tabModel c with
    | some m => decide (m.count ≠ 0)
    | none => false

/-- Getter `canGoForward()`. -/
def canGoForward (c : DeclarativeWebContainer) : Bool :=
  match webPage c with
  | some pg => pg.canGoForward
  | none => false

/-- Getter `canGoBack()`. -/
def canGoBack (c : DeclarativeWebContainer) : Bool :=
  match webPage c with
  | some pg => pg.canGoBack
  | none => false

/-- Getter `url()`. -/
def url (c : DeclarativeWebContainer) : String :=
  match webPage c with
  | some pg => pg.url
  | none => ""

/-- Getter `title()`. -/
def title (c : DeclarativeWebContainer) : String :=
  match webPage c with
  | some pg => pg.title
  | none => ""

/-- Test `isActiveTab(tabId)`. -/
def isActiveTab (c : DeclarativeWebContainer) (tabId : Int) : Bool :=
  match webPage c with
  | some pg => pg.tabId == tabId
  | none => false

/-- Getter `canInitialize()`: engine runtime and download manager initialized, a model set
and that model loaded. -/
def canInitialize (env : Env) (c : DeclarativeWebContainer) : Bool :=
  env.mozContextInitialized && env.downloadManagerInitialized &&
    (match tabModel c with
     | some m => m.loaded
     | none => false)

/-- Member `setLoadProgress(loadProgress)`. -/
def setLoadProgress (c : DeclarativeWebContainer) (loadProgress : Int) :
    DeclarativeWebContainer :=
  if c.m_loadProgress != loadProgress then
    emitSignal { c with m_loadProgress := loadProgress } Signal.loadProgressChanged
  else c

/-- Slot `updateContentOrientation(orientation)`. -/
def updateContentOrientation (c : DeclarativeWebContainer) : DeclarativeWebContainer :=
  let c1 := match webPage c with
    | some pg => record c (Event.page pg.tabId PageCall.updateContentOrientation)
    | none => c
  record c1 Event.reportContentOrientationChange

/-- Member `setWebPage(webPage)`. -/
def setWebPage (c : DeclarativeWebContainer) (page : Option Int) : DeclarativeWebContainer :=
  if webPagePtr c != page then
    let c1 := match webPage c with
      | some old => record c (Event.page old.tabId PageCall.disconnect)
      | none => c
    let c2 := { c1 with m_webPage := page }
    let c3 := match webPage c2 with
      | some pg =>
        let c21 := record c2 (Event.page pg.tabId PageCall.setWindow)
        let c22 := if c21.m_chromeWindow.isSome then updateContentOrientation c21 else c21
        { c22 with m_tabId := pg.tabId }
      | none => { c2 with m_tabId := 0 }
    let c4 := emitSignal (emitSignal (emitSignal (emitSignal c3 Signal.contentItemChanged)
      Signal.tabIdChanged) Signal.loadingChanged) Signal.focusObjectChanged
    setLoadProgress c4
      (match webPage c4 with
       | some pg => pg.loadProgress
       | none => 0)
  else c

/-- Member `setTabModel(model)`. The signal `countChanged` is emitted on the new model
(`emit m_model->countChanged()`), which dereferences `m_model`. -/
def setTabModel (c : DeclarativeWebContainer) (model : Option ModelRef) :
    Option DeclarativeWebContainer :=
  if c.m_model != model then
    let oldCount := match tabModel c with
      | some m => m.count
      | none => 0
    let c1 := match tabModel c with
      | some _ => record c (Event.model ModelCall.disconnect)
      | none => c
    let c2 := { c1 with m_model := model }
    let newCount := match tabModel c2 with
      | some m => m.count
      | none => 0
    let c3 := match tabModel c2 with
      | some _ => record c2 (Event.model ModelCall.connect)
      | none => c2
    let c4 := emitSignal c3 Signal.tabModelChanged
    if oldCount != newCount then
      match tabModel c4 with
      | some m =>
        some (record (putTabModel c4 (m.fire ModelSignal.countChanged))
          (Event.model ModelCall.countChanged))
      | none => none
    else some c4
  else some c

/-- Constructor `DeclarativeWebContainer(parent)`: the member initialisers, a new pool of
the given capacity, the two models, and `setTabModel` on the model of the start-up mode
(`autostartPrivateBrowsing()` of the setting manager). -/
def create (autostartPrivateBrowsing : Bool) (capacity : Int) : DeclarativeWebContainer :=
  let c0 : DeclarativeWebContainer :=
    { m_webPage := none, m_chromeWindow := none, m_context := false, m_model := none,
      m_webPageComponent := false, m_webPages := some (WebPages.empty capacity),
      m_persistentTabModel := DeclarativeTabModel.empty,
      m_privateTabModel := DeclarativeTabModel.empty,
      m_enabled := true, m_foreground := true, m_allowHiding := true, m_tabId := 0,
      m_initialUrl := "", m_loading := false, m_loadProgress := 0, m_completed := false,
      m_initialized := false, m_privateMode := autostartPrivateBrowsing,
      m_hasBeenExposed := false, hasExposedChrome := false, exposedWaiters := 0,
      exposedWoken := 0, log := [] }
  match setTabModel c0
      (some (if c0.privateMode then ModelRef.privateBrowsing else ModelRef.persistent)) with
  | some c => c
  | none => c0

/-- Slot `resetHeight(respectContentHeight)`. -/
def resetHeight (c : DeclarativeWebContainer) (respectContentHeight : Bool) :
    DeclarativeWebContainer :=
  match webPage c with
  | none => c
  | some pg => record c (Event.page pg.tabId (PageCall.resetHeight respectContentHeight))

/-- Member `setForeground(active)`. -/
def setForeground (c : DeclarativeWebContainer) (active : Bool) : DeclarativeWebContainer :=
  if c.m_foreground != active then
    let c1 := { c with m_foreground := active }
    let c2 := if !c1.m_foreground then resetHeight c1 true else c1
    emitSignal c2 Signal.foregroundChanged
  else c

/-- Getter `maxLiveTabCount()`. -/
def maxLiveTabCount (c : DeclarativeWebContainer) : Option Int :=
  match c.m_webPages with
  | some p => some p.maxLivePages
  | none => none

/-- Member `setMaxLiveTabCount(count)`. -/
def setMaxLiveTabCount (c : DeclarativeWebContainer) (count : Int) :
    Option DeclarativeWebContainer :=
  match c.m_webPages with
  | none => none
  | some p =>
    let r := p.setMaxLivePages count
    let c1 := record (putWebPages c r.2) (Event.pool (PoolCall.setMaxLivePages count))
    if r.1 then some (emitSignal c1 Signal.maxLiveTabCountChanged) else some c1

/-- Member `chromeWindow()`/`setChromeWindow(chromeWindow)`; the argument is the identity
of the `QQuickView` the object casts to, `none` when the cast fails. -/
def setChromeWindow (c : DeclarativeWebContainer) (quickView : Option Nat) :
    DeclarativeWebContainer :=
  if quickView.isSome && quickView != c.m_chromeWindow then
    let c1 := { c with m_chromeWindow := quickView }
    let c2 := updateContentOrientation (record c1 Event.chromeWindowSetup)
    emitSignal c2 Signal.chromeWindowChanged
  else c

/-- The page `m_webPage` points to when it is set and reports `completed()`. -/
def completedPage (c : DeclarativeWebContainer) : Option WebPage :=
  match webPage c with
  | some pg => if pg.completed then some pg else none
  | none => none

/-- Member `load(url, title, force)`. -/
def load (env : Env) (c : DeclarativeWebContainer) (url title : String) (force : Bool) :
    DeclarativeWebContainer :=
  let url := if url.isEmpty then "about:blank" else url
  match completedPage c with
  | some pg => record c (Event.page pg.tabId (PageCall.loadTab url force))
  | none =>
    if !canInitialize env c then { c with m_initialUrl := url }
    else
      match tabModel c with
      | some m =>
        if m.count == 0 then
          record (putTabModel c (m.newTab url title)) (Event.model (ModelCall.newTab url title))
        else c
      | none => c

/-- Member `activatePage(tab, force, parentId)`; the result is the returned flag and the
new state. `m_webPages` and, after `setWebPage`, `m_webPage` are dereferenced unguarded. -/
def activatePage (c : DeclarativeWebContainer) (tab : Tab) (force : Bool) (parentId : Int) :
    Option (Bool × DeclarativeWebContainer) :=
  match tabModel c with
  | none => some (false, c)
  | some m =>
    match c.m_webPages with
    | none => none
    | some p =>
      let p1 := p.initializePool c.m_webPageComponent
      let c1 := record (putWebPages c p1) (Event.pool PoolCall.setup)
      if (m.loaded || force) && decide (0 < tab.tabId) && p1.initialized then
        let r := p1.page tab parentId
        let c2 := record (putWebPages c1 r.1) (Event.pool (PoolCall.page tab.tabId parentId))
        let c3 := setWebPage c2 r.2.1
        match webPage c3 with
        | none => none
        | some pg =>
          some (r.2.2,
            record (record c3 (Event.page pg.tabId (PageCall.forceChrome false)))
              (Event.page pg.tabId (PageCall.setChrome true)))
      else some (false, c1)

/-- Member `loadTab(tab, force)`; `m_webPage` is dereferenced unguarded. -/
def loadTab (c : DeclarativeWebContainer) (tab : Tab) (force : Bool) :
    Option DeclarativeWebContainer :=
  match activatePage c tab true 0 with
  | none => none
  | some (activated, c1) =>
    if activated || force then
      match webPage c1 with
      | none => none
      | some pg => some (record c1 (Event.page pg.tabId (PageCall.loadTab tab.url force)))
    else some c1

/-- Member `reload(force)`; `m_model` is dereferenced unguarded. -/
def reload (c : DeclarativeWebContainer) (force : Bool) : Option DeclarativeWebContainer :=
  if 0 < c.m_tabId then
    match completedPage c with
    | some pg =>
      if force && pg.tabId == c.m_tabId then
        some (record c (Event.page pg.tabId PageCall.reload))
      else
        match tabModel c with
        | some m => loadTab c m.activeTab force
        | none => none
    | none =>
      match tabModel c with
      | some m => loadTab c m.activeTab force
      | none => none
  else some c

/-- Member `goForward()`. -/
def goForward (c : DeclarativeWebContainer) : DeclarativeWebContainer :=
  match webPage c with
  | some pg =>
    if pg.canGoForward then
      record (record c (Event.dbGoForward pg.tabId)) (Event.page pg.tabId PageCall.goForward)
    else c
  | none => c

/-- Member `goBack()`. -/
def goBack (c : DeclarativeWebContainer) : DeclarativeWebContainer :=
  match webPage c with
  | some pg =>
    if pg.canGoBack then
      record (record c (Event.dbGoBack pg.tabId)) (Event.page pg.tabId PageCall.goBack)
    else c
  | none => c

/-- Slot `setActiveTabData()`; `m_model` is dereferenced unguarded. -/
def setActiveTabData (c : DeclarativeWebContainer) : Option DeclarativeWebContainer :=
  match tabModel c with
  | none => none
  | some m =>
    if c.m_tabId != m.activeTab.tabId then
      some (emitSignal { c with m_tabId := m.activeTab.tabId } Signal.tabIdChanged)
    else some c

/-- Slot `onActiveTabChanged(oldTabId, activeTabId, loadActiveTab)`. -/
def onActiveTabChanged (c : DeclarativeWebContainer) (oldTabId activeTabId : Int)
    (loadActiveTab : Bool) : Option DeclarativeWebContainer :=
  if activeTabId ≤ 0 then some c
  else
    match setActiveTabData c with
    | none => none
    | some c1 =>
      if !loadActiveTab then some c1
      else if oldTabId != activeTabId then reload c1 false
      else some c1

/-- The load test of `initialize()`, on the model `m` as it is after the optional clear:
1) no tabs and first use done or an incoming URL: the initial URL or the home page goes to
a new tab; 2) the model has tabs: the initial URL or the active tab is loaded. -/
def initialLoad (env : Env) (c : DeclarativeWebContainer) (m : DeclarativeTabModel) :
    Option DeclarativeWebContainer :=
  let firstUseDone := env.firstUseDone
  if m.count == 0 && (firstUseDone || !c.m_initialUrl.isEmpty) then
    let url := if c.m_initialUrl.isEmpty then env.homePage else c.m_initialUrl
    let title := ""
    some (record (putTabModel c (m.newTab url title)) (Event.model (ModelCall.newTab url title)))
  else if 0 < m.count then
    let tab := m.activeTab
    let tab := if !c.m_initialUrl.isEmpty then tab.setUrl c.m_initialUrl else tab
    loadTab c tab true
  else some c

/-- The end of `initialize()`: `completed` is set and announced when it was not set,
`m_initialized` is set, and the orientation signal of the chrome window is disconnected. -/
def finishInitialize (c : DeclarativeWebContainer) : DeclarativeWebContainer :=
  let c1 := if !c.m_completed then
      emitSignal { c with m_completed := true } Signal.completedChanged
    else c
  record { c1 with m_initialized := true } Event.chromeDisconnectOrientation

/-- Slot `initialize()` (Lean reserves the word, hence the name), which activates the
first page: the guards, the clearing of the
tabs when clearing history was requested, the early return that sets the model unloaded
when data was cleared and the previous session had tabs, then the load test and the end. -/
def initializeContainer (env : Env) (c : DeclarativeWebContainer) :
    Option DeclarativeWebContainer :=
  if !canInitialize env c || c.m_initialized then some c
  else
    match tabModel c with
    | none => none
    | some m =>
      let clearTabs := env.clearHistoryRequested
      let oldCount := m.count
      let m1 := if clearTabs then m.clear else m
      let c1 := if clearTabs then
          record (putTabModel c m.clear) (Event.model ModelCall.clear)
        else c
      let c2 := record c1 Event.settingsInitialized
      if env.settingManagerInitialize && decide (0 < oldCount) && clearTabs then
        some (record (putTabModel c2 m1.setUnloaded) (Event.model ModelCall.setUnloaded))
      else
        match initialLoad env c2 m1 with
        | none => none
        | some c3 => some (finishInitialize c3)

/-- Member `updateMode()`. -/
def updateMode (c : DeclarativeWebContainer) : Option DeclarativeWebContainer :=
  match setTabModel c
      (some (if c.privateMode then ModelRef.privateBrowsing else ModelRef.persistent)) with
  | none => none
  | some c1 =>
    match setActiveTabData c1 with
    | none => none
    | some c2 =>
      match tabModel c2 with
      | none => none
      | some m =>
        if 0 < m.count then reload c2 false
        else some (emitSignal (setWebPage c2 none) Signal.contentItemChanged)

/-- Member `setPrivateMode(privateMode)`. -/
def setPrivateMode (c : DeclarativeWebContainer) (privateMode : Bool) :
    Option DeclarativeWebContainer :=
  if c.m_privateMode != privateMode then
    let c1 := record { c with m_privateMode := privateMode }
      (Event.settingsSetAutostartPrivateBrowsing privateMode)
    match updateMode c1 with
    | none => none
    | some c2 => some (emitSignal c2 Signal.privateModeChanged)
  else some c

/-- Member `alive(tabId)`. -/
def alive (c : DeclarativeWebContainer) (tabId : Int) : Option Bool :=
  match c.m_webPages with
  | some p => some (p.alive tabId)
  | none => none

/-- Member `dumpPages()`. -/
def dumpPages (c : DeclarativeWebContainer) : Option DeclarativeWebContainer :=
  match c.m_webPages with
  | some _ => some (record c (Event.pool PoolCall.dumpPages))
  | none => none

/-- The Expose branch of `eventFilter` taken on the first exposure, under
`m_exposedMutex`: the temporary context is created, made current, cleared and swapped,
then the exposed flag is set and all waiters are woken. -/
def exposeWindow (env : Env) (c : DeclarativeWebContainer) : DeclarativeWebContainer :=
  let c1 := record (record c (Event.gl GLCall.tempContextCreate))
    (Event.gl GLCall.tempContextMakeCurrent)
  let c2 := if env.glFunctions then record c1 (Event.gl GLCall.clear) else c1
  let c3 := record (record c2 (Event.gl GLCall.tempSwapBuffers)) (Event.gl GLCall.tempDoneCurrent)
  record
    { c3 with m_hasBeenExposed := true
              exposedWoken := c3.exposedWoken + c3.exposedWaiters
              exposedWaiters := 0 }
    (Event.gl GLCall.wakeAll)

/-- The end of `eventFilter`: `chromeExposed` is emitted once, on a Show event when both
the chrome window and the browser window are exposed. -/
def exposeChrome (env : Env) (c : DeclarativeWebContainer) (event : QEventType) :
    DeclarativeWebContainer :=
  if !c.hasExposedChrome && event == QEventType.Show && c.m_chromeWindow.isSome &&
      env.chromeWindowExposed && env.windowExposed then
    { emitSignal c Signal.chromeExposed with hasExposedChrome := true }
  else c

/-- Member `eventFilter(obj, event)`; the result is the returned flag (`true` stops the
event, otherwise the base class answers `false`) and the new state. -/
def eventFilter (env : Env) (c : DeclarativeWebContainer) (event : QEventType) :
    Bool × DeclarativeWebContainer :=
  if event == QEventType.Expose then
    if env.windowExposed && !c.m_hasBeenExposed then
      (false, exposeChrome env (exposeWindow env c) event)
    else if !env.windowExposed && !c.m_allowHiding then (true, c)
    else (false, exposeChrome env c event)
  else if event == QEventType.Close && (webPage c).isSome then
    match webPage c with
    | some pg =>
      (false, exposeChrome env (record c (Event.page pg.tabId PageCall.suspendView)) event)
    | none => (false, exposeChrome env c event)
  else (false, exposeChrome env c event)

/-- The event handlers `inputMethodEvent`, `keyPressEvent`, `keyReleaseEvent`,
`focusInEvent`, `focusOutEvent`, `timerEvent` and, given a rotation handler, `touchEvent`:
the event is forwarded to the page when there is one and the container is enabled. -/
def forwardEvent (c : DeclarativeWebContainer) : DeclarativeWebContainer :=
  match webPage c with
  | some pg => if c.m_enabled then record c (Event.page pg.tabId PageCall.input) else c
  | none => c

/-- Member `componentComplete()`. -/
def componentComplete (c : DeclarativeWebContainer) : DeclarativeWebContainer :=
  if c.m_initialized && !c.m_completed then
    emitSignal { c with m_completed := true } Signal.completedChanged
  else c

/-- Slot `updateWindowState(windowState)`; the argument says whether the state is at least
`Qt::WindowMaximized`. -/
def updateWindowState (c : DeclarativeWebContainer) (maximized : Bool) :
    DeclarativeWebContainer :=
  match webPage c with
  | some pg => if maximized then record c (Event.page pg.tabId PageCall.update) else c
  | none => c

/-- Slot `imeNotificationChanged(state, open, cause, focusChange, type)`. -/
def imeNotificationChanged (c : DeclarativeWebContainer) (state cause : Int) :
    DeclarativeWebContainer :=
  if state == 1 && cause == 3 then resetHeight c true else c

/-- The first statement of `onDownloadStarted()`: the waiting flag is reset, or, without
it, `urlChanged` is emitted on the page (`m_webPage` dereferenced unguarded). -/
def downloadStartedFirst (c : DeclarativeWebContainer) (m : DeclarativeTabModel) :
    Option DeclarativeWebContainer :=
  if m.waitingForNewTab then
    some (record (putTabModel c (m.setWaitingForNewTab false))
      (Event.model (ModelCall.setWaitingForNewTab false)))
  else
    match webPage c with
    | some pg => some (record c (Event.page pg.tabId PageCall.urlChanged))
    | none => none

/-- Slot `onDownloadStarted()`; `m_model` and `m_webPage` are dereferenced unguarded. -/
def onDownloadStarted (c : DeclarativeWebContainer) : Option DeclarativeWebContainer :=
  match tabModel c with
  | none => none
  | some m =>
    match downloadStartedFirst c m with
    | none => none
    | some c2 =>
      match tabModel c2 with
      | none => none
      | some m2 =>
        if m2.count == 0 then
          some (record (putTabModel c2 (m2.fire ModelSignal.countChanged))
            (Event.model ModelCall.countChanged))
        else some c2

/-- Slot `onNewTabRequested(url, title, parentId)`; `m_model` is dereferenced unguarded. -/
def onNewTabRequested (c : DeclarativeWebContainer) (url _title : String) (parentId : Int) :
    Option DeclarativeWebContainer :=
  match tabModel c with
  | none => none
  | some m =>
    let tab := Tab.invalid.setTabId m.nextTabId
    match activatePage c tab false parentId with
    | none => none
    | some (activated, c1) =>
      if activated then
        match webPage c1 with
        | some pg => some (record c1 (Event.page pg.tabId (PageCall.loadTab url false)))
        | none => none
      else some c1

/-- Member `parentTabId(tabId)`. -/
def parentTabId (c : DeclarativeWebContainer) (tabId : Int) : Int :=
  match c.m_webPages with
  | some p => p.parentTabId tabId
  | none => 0

/-- The test `!m_webPage || m_model->count() == 0` of `releasePage`; `m_model` is
dereferenced when a page is left. -/
def releasedLast (c : DeclarativeWebContainer) : Option Bool :=
  match webPage c with
  | none => some true
  | some _ =>
    match tabModel c with
    | some m => some (m.count == 0)
    | none => none

/-- The property changes of `releasePage` after the page was destroyed. -/
def clearActivePageData (c : DeclarativeWebContainer) : DeclarativeWebContainer :=
  let c1 := if c.m_tabId != 0 then emitSignal { c with m_tabId := 0 } Signal.tabIdChanged else c
  setLoadProgress (emitSignal (emitSignal c1 Signal.contentItemChanged) Signal.loadingChanged) 0

/-- Slot `releasePage(tabId, virtualize)`. -/
def releasePage (c : DeclarativeWebContainer) (tabId : Int) (virtualize : Bool) :
    Option DeclarativeWebContainer :=
  match c.m_webPages with
  | none => some c
  | some p =>
    let c1 := record (putWebPages c (p.release tabId virtualize))
      (Event.pool (PoolCall.release tabId virtualize))
    match releasedLast c1 with
    | none => none
    | some true => some (clearActivePageData c1)
    | some false => some c1

/-- Delivery of the model's `activeTabChanged` notifications. `setTabModel` connects the
signal to the slot `onActiveTabChanged` with the default connection, which is direct for
objects of one thread: the slot runs inside the model call that emits the signal, before
the caller goes on. -/
def deliverActiveTabChanged (c : DeclarativeWebContainer) :
    List ModelSignal → Option DeclarativeWebContainer
  | [] => some c
  | ModelSignal.activeTabChanged oldTabId newTabId loadRequested :: rest =>
    match onActiveTabChanged c oldTabId newTabId loadRequested with
    | some c1 => deliverActiveTabChanged c1 rest
    | none => none
  | _ :: rest => deliverActiveTabChanged c rest

/-- Slot `closeWindow()`; `sender` is the page whose signal runs the slot. The slot
`onActiveTabChanged` runs inside `activateTabById` when that call changes the active tab,
so `isActiveTab` is evaluated, and `m_model` dereferenced again, on the state that slot
leaves; the tab id of the sender is the one it had when the slot was entered.
`removeTabById` is the last statement: the slots its notifications run
(`releasePage`, `onActiveTabChanged`) come after everything `closeWindow` reads and are
operations of their own. -/
def closeWindow (c : DeclarativeWebContainer) (sender : Option Int) :
    Option DeclarativeWebContainer :=
  match pageOf c sender, tabModel c with
  | some pg, some m =>
    let parentPageTabId := parentTabId c pg.tabId
    if 0 < parentPageTabId then
      let m1 := m.activateTabById parentPageTabId
      let c1 := record (putTabModel c m1) (Event.model (ModelCall.activateTabById parentPageTabId))
      match deliverActiveTabChanged c1 (m.firedBy m1) with
      | none => none
      | some c2 =>
        match tabModel c2 with
        | none => none
        | some m2 =>
          let wasActive := isActiveTab c2 pg.tabId
          some (record (putTabModel c2 (m2.removeTabById pg.tabId wasActive))
            (Event.model (ModelCall.removeTabById pg.tabId wasActive)))
    else some c
  | _, _ => some c

/-- Slot `onPageUrlChanged()`; `sender` is the page whose signal runs the slot. -/
def onPageUrlChanged (c : DeclarativeWebContainer) (sender : Option Int) :
    DeclarativeWebContainer :=
  match pageOf c sender, tabModel c, c.m_webPages with
  | some pg, some m, some p =>
    let url := pg.url
    let tabId := pg.tabId
    let activeTab := isActiveTab c tabId
    let initialLoad := !pg.initialLoadHasHappened
    let c1 :=
      if !initialLoad || m.contains tabId then
        record (putTabModel c (m.updateUrl tabId activeTab url initialLoad))
          (Event.model (ModelCall.updateUrl tabId activeTab url initialLoad))
      else
        record (putTabModel c (m.addTab url "")) (Event.model (ModelCall.addTab url ""))
    record
      (putWebPages c1 (p.mapPage tabId (fun s => { s with initialLoadHasHappened := true })))
      (Event.page tabId PageCall.setInitialLoadHasHappened)
  | _, _, _ => c

/-- Slot `onPageTitleChanged()`; `sender` is the page whose signal runs the slot. -/
def onPageTitleChanged (c : DeclarativeWebContainer) (sender : Option Int) :
    DeclarativeWebContainer :=
  match pageOf c sender, tabModel c with
  | some pg, some m =>
    let activeTab := isActiveTab c pg.tabId
    record (putTabModel c (m.updateTitle pg.tabId activeTab pg.url pg.title))
      (Event.model (ModelCall.updateTitle pg.tabId activeTab pg.url pg.title))
  | _, _ => c

/-- Slot `updateLoadProgress()`. -/
def updateLoadProgress (c : DeclarativeWebContainer) : DeclarativeWebContainer :=
  match webPage c with
  | none => c
  | some pg =>
    if c.m_loadProgress == 0 && pg.loadProgress == 50 then c
    else if c.m_loadProgress < pg.loadProgress then setLoadProgress c pg.loadProgress
    else c

/-- Slot `updateLoading()`. -/
def updateLoading (c : DeclarativeWebContainer) : DeclarativeWebContainer :=
  let c1 := match webPage c with
    | some pg => if pg.loading then setLoadProgress c 0 else c
    | none => c
  emitSignal c1 Signal.loadingChanged

/-- Slot `updateWindowFlags()`. -/
def updateWindowFlags (c : DeclarativeWebContainer) : DeclarativeWebContainer :=
  match webPage c with
  | some _ => record c (Event.setWindowFlags (!c.m_foreground))
  | none => c

/-- Member `updatePageFocus(focus)`. -/
def updatePageFocus (c : DeclarativeWebContainer) (focus : Bool) : DeclarativeWebContainer :=
  match webPage c with
  | some pg => record c (Event.page pg.tabId (PageCall.focus focus))
  | none => c

/-- Slot `sendVkbOpenCompositionMetrics()`. -/
def sendVkbOpenCompositionMetrics (c : DeclarativeWebContainer) : DeclarativeWebContainer :=
  match webPage c with
  | some pg => record c (Event.page pg.tabId PageCall.sendVkbMetrics)
  | none => c

/-- The part of `createGLContext()` after the wait: create the context when there is none,
and make the context current. -/
def createGLContextBody (c : DeclarativeWebContainer) : DeclarativeWebContainer :=
  if !c.m_context then
    record (record (record { c with m_context := true } (Event.gl GLCall.contextCreate))
      (Event.gl GLCall.contextMakeCurrent)) (Event.gl GLCall.openGLFunctionsSetup)
  else record c (Event.gl GLCall.contextMakeCurrent)

/-- Slot `createGLContext()` entered by a thread: under `m_exposedMutex`, when the window
has not been exposed the thread blocks in `m_windowExposed.wait` (it becomes a waiter and
releases the mutex), otherwise it goes on to the context. -/
def createGLContext (c : DeclarativeWebContainer) : DeclarativeWebContainer :=
  if !c.m_hasBeenExposed then { c with exposedWaiters := c.exposedWaiters + 1 }
  else createGLContextBody c

/-- Continuation of `createGLContext()` for a thread woken by `wakeAll`: `wait` returns with
the mutex held and the thread goes on to the context. Without a woken thread nothing runs. -/
def createGLContextResume (c : DeclarativeWebContainer) : DeclarativeWebContainer :=
  if 0 < c.exposedWoken then createGLContextBody { c with exposedWoken := c.exposedWoken - 1 }
  else c

end DeclarativeWebContainer

/-! ## Operations and runs -/

/-- The entry points of the container: its public members, its slots, the writes of its
`MEMBER` properties, the two halves of `createGLContext`, and `collaborators`, a step of
the outside world that leaves the tab models and the page pool in any state (engine and
persistence events). -/
inductive Op where
  | setTabModel (model : Option ModelRef)
  | setForeground (active : Bool)
  | setMaxLiveTabCount (count : Int)
  | setPrivateMode (privateMode : Bool)
  | setLoadProgress (loadProgress : Int)
  | setChromeWindow (quickView : Option Nat)
  | setWebPageComponent (component : Bool)
  | setAllowHiding (allow : Bool)
  | setEnabled (enabled : Bool)
  | load (url title : String) (force : Bool)
  | reload (force : Bool)
  | goForward
  | goBack
  | activatePage (tab : Tab) (force : Bool) (parentId : Int)
  | updatePageFocus (focus : Bool)
  | dumpPages
  | eventFilter (event : QEventType)
  | forwardEvent
  | componentComplete
  | resetHeight (respectContentHeight : Bool)
  | updateContentOrientation
  | updateWindowState (maximized : Bool)
  | imeNotificationChanged (state cause : Int)
  | initializeContainer
  | onActiveTabChanged (oldTabId activeTabId : Int) (loadActiveTab : Bool)
  | onDownloadStarted
  | onNewTabRequested (url title : String) (parentId : Int)
  | releasePage (tabId : Int) (virtualize : Bool)
  | closeWindow (sender : Option Int)
  | onPageUrlChanged (sender : Option Int)
  | onPageTitleChanged (sender : Option Int)
  | updateLoadProgress
  | updateLoading
  | setActiveTabData
  | updateWindowFlags
  | sendVkbOpenCompositionMetrics
  | createGLContext
  | createGLContextResume
  | collaborators (persistent privateBrowsing : DeclarativeTabModel) (pool : WebPages)
  deriving Repr

namespace DeclarativeWebContainer

/-- One operation on the container; `none` is a null dereference. -/
def step (env : Env) (c : DeclarativeWebContainer) : Op → Option DeclarativeWebContainer
  | Op.setTabModel model => setTabModel c model
  | Op.setForeground active => some (setForeground c active)
  | Op.setMaxLiveTabCount count => setMaxLiveTabCount c count
  | Op.setPrivateMode privateMode => setPrivateMode c privateMode
  | Op.setLoadProgress loadProgress => some (setLoadProgress c loadProgress)
  | Op.setChromeWindow quickView => some (setChromeWindow c quickView)
  | Op.setWebPageComponent component => some { c with m_webPageComponent := component }
  | Op.setAllowHiding allow => some { c with m_allowHiding := allow }
  | Op.setEnabled enabled => some { c with m_enabled := enabled }
  | Op.load url title force => some (load env c url title force)
  | Op.reload force => reload c force
  | Op.goForward => some (goForward c)
  | Op.goBack => some (goBack c)
  | Op.activatePage tab force parentId =>
    match activatePage c tab force parentId with
    | some r => some r.2
    | none => none
  | Op.updatePageFocus focus => some (updatePageFocus c focus)
  | Op.dumpPages => dumpPages c
  | Op.eventFilter event => some (eventFilter env c event).2
  | Op.forwardEvent => some (forwardEvent c)
  | Op.componentComplete => some (componentComplete c)
  | Op.resetHeight respectContentHeight => some (resetHeight c respectContentHeight)
  | Op.updateContentOrientation => some (updateContentOrientation c)
  | Op.updateWindowState maximized => some (updateWindowState c maximized)
  | Op.imeNotificationChanged state cause => some (imeNotificationChanged c state cause)
  | Op.initializeContainer => initializeContainer env c
  | Op.onActiveTabChanged oldTabId activeTabId loadActiveTab =>
    onActiveTabChanged c oldTabId activeTabId loadActiveTab
  | Op.onDownloadStarted => onDownloadStarted c
  | Op.onNewTabRequested url title parentId => onNewTabRequested c url title parentId
  | Op.releasePage tabId virtualize => releasePage c tabId virtualize
  | Op.closeWindow sender => closeWindow c sender
  | Op.onPageUrlChanged sender => some (onPageUrlChanged c sender)
  | Op.onPageTitleChanged sender => some (onPageTitleChanged c sender)
  | Op.updateLoadProgress => some (updateLoadProgress c)
  | Op.updateLoading => some (updateLoading c)
  | Op.setActiveTabData => setActiveTabData c
  | Op.updateWindowFlags => some (updateWindowFlags c)
  | Op.sendVkbOpenCompositionMetrics => some (sendVkbOpenCompositionMetrics c)
  | Op.createGLContext => some (createGLContext c)
  | Op.createGLContextResume => some (createGLContextResume c)
  | Op.collaborators persistent privateBrowsing pool =>
    let c1 := { c with m_persistentTabModel := persistent, m_privateTabModel := privateBrowsing }
    match c1.m_webPages with
    | some _ => some (putWebPages c1 pool)
    | none => some c1

/-- A run: operations in order, each with the outside values it reads. -/
def run (c : DeclarativeWebContainer) : List (Env × Op) → Option DeclarativeWebContainer
  | [] => some c
  | (env, op) :: rest =>
    match step env c op with
    | some c1 => run c1 rest
    | none => none

/-- States a run reaches from a freshly constructed container. -/
def Reachable (c : DeclarativeWebContainer) : Prop :=
  ∃ (autostartPrivateBrowsing : Bool) (capacity : Int) (ops : List (Env × Op)),
    run (create autostartPrivateBrowsing capacity) ops = some c

/-! ## Notions used by the statements -/

/-- An initial load issued by the container: `newTab` on the model or `loadTab` on a page. -/
def isInitialLoad : Event → Bool
  | Event.model (ModelCall.newTab _ _) => true
  | Event.page _ (PageCall.loadTab _ _) => true
  | _ => false

/-- URL carried by an initial load. -/
def loadUrl : Event → Option String
  | Event.model (ModelCall.newTab url _) => some url
  | Event.page _ (PageCall.loadTab url _) => some url
  | _ => none

/-- The initial loads recorded in the trace, in order. -/
def initialLoads (c : DeclarativeWebContainer) : List Event := c.log.filter isInitialLoad

/-- The clear-history reload path of `initialize()`: data was cleared by the setting
manager, the previous session had tabs, and clearing was requested; the model is set
unloaded and the slot returns early. -/
def clearHistoryReload (env : Env) (c : DeclarativeWebContainer) : Bool :=
  match tabModel c with
  | some m => env.settingManagerInitialize && decide (0 < m.count) && env.clearHistoryRequested
  | none => false

/-- The model at the load test of `initialize()`: cleared when clearing was requested. -/
def modelAtLoadTest (env : Env) (m : DeclarativeTabModel) : DeclarativeTabModel :=
  if env.clearHistoryRequested then m.clear else m

/-- The calls of the start-up protocol: `initialize()` and `load()`. -/
def isStartupCall : Op → Bool
  | Op.initializeContainer => true
  | Op.load _ _ _ => true
  | _ => false

/-- Guard of `activatePage`: a model is set, it is loaded or the call is forced, the tab id
is positive and the pool is initialized after `WebPages::initialize`. -/
def activationGuard (c : DeclarativeWebContainer) (tab : Tab) (force : Bool) : Bool :=
  match tabModel c, c.m_webPages with
  | some m, some p =>
    (m.loaded || force) && decide (0 < tab.tabId) &&
      (p.initializePool c.m_webPageComponent).initialized
  | _, _ => false

/-- A sufficient condition for the forced activation of `tab` to end with a live page: the
pool exists and has been given a page component, the tab id is positive, and the pool
either holds the session of the tab or has room for one more. -/
def pageAvailable (c : DeclarativeWebContainer) (tab : Tab) : Bool :=
  match c.m_webPages with
  | some p =>
    c.m_webPageComponent && decide (0 < tab.tabId) &&
      (p.alive tab.tabId || decide ((p.pages.length : Int) < p.maxLivePages))
  | none => false

/-- A sufficient condition for `initialize()` to return once its guards have passed and the
clear-history reload path is not taken: the model has no tabs at the load test, or the
page of its active tab is available. -/
def initialLoadReturns (env : Env) (c : DeclarativeWebContainer) : Bool :=
  match tabModel c with
  | some m =>
    (modelAtLoadTest env m).count == 0 || pageAvailable c (modelAtLoadTest env m).activeTab
  | none => false

/-- A call on the graphics context of `createGLContext()`: its creation or making it
current. -/
def isContextCall : Event → Bool
  | Event.gl GLCall.contextCreate => true
  | Event.gl GLCall.contextMakeCurrent => true
  | _ => false

/-- The context calls recorded in the trace, in order. -/
def contextCalls (c : DeclarativeWebContainer) : List Event := c.log.filter isContextCall

/-- A gate action of the Expose handler: a step on the temporary context or the wake-up of
the waiters. -/
def isGateAction : Event → Bool
  | Event.gl GLCall.tempContextCreate => true
  | Event.gl GLCall.tempContextMakeCurrent => true
  | Event.gl GLCall.clear => true
  | Event.gl GLCall.tempSwapBuffers => true
  | Event.gl GLCall.tempDoneCurrent => true
  | Event.gl GLCall.wakeAll => true
  | _ => false

/-- The exposure gate and what it protects: the exposed flag, the threads blocked on the
condition variable, the threads woken and not yet continued, whether the graphics context
exists, and the context calls made so far. -/
def gate (c : DeclarativeWebContainer) : Bool × Nat × Nat × Bool × List Event :=
  (c.m_hasBeenExposed, c.exposedWaiters, c.exposedWoken, c.m_context, contextCalls c)

/-- The operations that work on the exposure gate: the event filter and the two halves of
`createGLContext()`. -/
def isGateOp : Op → Bool
  | Op.eventFilter _ => true
  | Op.createGLContext => true
  | Op.createGLContextResume => true
  | _ => false

/-- A thread is woken only after the window was exposed. -/
def WokenAfterExposure (c : DeclarativeWebContainer) : Prop :=
  0 < c.exposedWoken → c.m_hasBeenExposed = true

/-- An emission of `completedChanged`. -/
def isCompletedChanged : Event → Bool
  | Event.emitted Signal.completedChanged => true
  | _ => false

/-- The emissions of `completedChanged` recorded in the trace, in order. -/
def completedSignals (c : DeclarativeWebContainer) : List Event :=
  c.log.filter isCompletedChanged

/-- The start-up flags and their announcements: `m_initialized`, `m_completed` and the
emissions of `completedChanged`. -/
def startupFlags (c : DeclarativeWebContainer) : Bool × Bool × List Event :=
  (c.m_initialized, c.m_completed, completedSignals c)

/-- The two flags agree, and `completedChanged` has been emitted once when they are set and
never when they are not. -/
def CompletedWithInitialized (c : DeclarativeWebContainer) : Prop :=
  c.m_initialized = c.m_completed ∧
    (completedSignals c).length = if c.m_completed then 1 else 0

/-! ## Concrete states -/

/-- A command sent to the page pool. -/
def isPoolCall : Event → Bool
  | Event.pool _ => true
  | _ => false

/-- The commands sent to the page pool recorded in the trace, in order. -/
def poolCalls (c : DeclarativeWebContainer) : List Event := c.log.filter isPoolCall

/-- A command sent to the tab model. -/
def isModelCall : Event → Bool
  | Event.model _ => true
  | _ => false

/-- The commands sent to the tab model recorded in the trace, in order. -/
def modelCalls (c : DeclarativeWebContainer) : List Event := c.log.filter isModelCall

/-- What the container holds besides its own flags: the page pool, the two tab models and
the pointer to the current model. -/
def holdings (c : DeclarativeWebContainer) :
    Option WebPages × DeclarativeTabModel × DeclarativeTabModel × Option ModelRef :=
  (c.m_webPages, c.m_persistentTabModel, c.m_privateTabModel, c.m_model)

/-- Outside values of a started system: engine and download manager initialized, no
clearing of history, first use done, window exposed. -/
def startupEnv : Env :=
  { mozContextInitialized := true, downloadManagerInitialized := true,
    clearHistoryRequested := false, settingManagerInitialize := false, firstUseDone := true,
    homePage := "http://jolla.com", windowExposed := true, chromeWindowExposed := true,
    glFunctions := true }

/-- Outside values before the engine runtime is initialized. -/
def coldEnv : Env := { startupEnv with mozContextInitialized := false }

/-- A loaded model holding one tab. -/
def oneTabModel : DeclarativeTabModel :=
  { (DeclarativeTabModel.empty.addTab "http://www.jolla.com" "Jolla") with loaded := true }

/-- A container right after construction whose model has been loaded with one tab, with a
page component and a URL buffered by `load`. -/
def pendingContainer : DeclarativeWebContainer :=
  { create false 5 with
    m_persistentTabModel := oneTabModel
    m_webPageComponent := true
    m_initialUrl := "http://sailfishos.org" }

/-- The state `initialize()` leaves `pendingContainer` in. -/
def pendingContainerStarted : DeclarativeWebContainer :=
  (initializeContainer startupEnv pendingContainer).getD pendingContainer

/-- A container right after construction that has been given a page component; its model
holds no tabs and is not loaded. -/
def unloadedContainer : DeclarativeWebContainer :=
  { create false 5 with m_webPageComponent := true }

/-- A tab with id 1. -/
def jollaTab : Tab := ⟨1, "http://www.jolla.com", "Jolla", 1, 0, 0⟩

/-- The result of a forced activation of tab 1 on a container that was never given a page
component. -/
def unconfiguredActivation : Bool × DeclarativeWebContainer :=
  (activatePage (create false 5) jollaTab true 0).getD (false, create false 5)

/-- The started container after the engine reported the page of tab 1 completed, with
history behind it and none ahead. -/
def browsingContainer : DeclarativeWebContainer :=
  { pendingContainerStarted with
    m_webPages := some
      { initialized := true, maxLivePages := 5, activeTabId := 1,
        pages := [⟨1, 0, true, true, false, false, 100, "http://sailfishos.org",
          "Sailfish OS", true⟩] } }

/-- The browsing container after a second tab was added to its model: tab 2 is the
model's active tab and has no live page, the page of tab 1 is still the active page. -/
def switchedContainer : DeclarativeWebContainer :=
  { browsingContainer with
    m_persistentTabModel := oneTabModel.addTab "http://sailfishos.org" "SailfishOS.org" }

/-- The browsing container after a script of the page of tab 1 opened a window: the page
of tab 2 is the active page and has tab 1 as parent, and the model holds both tabs. -/
def scriptWindowContainer : DeclarativeWebContainer :=
  { browsingContainer with
    m_webPage := some 2
    m_tabId := 2
    m_persistentTabModel := oneTabModel.addTab "http://sailfishos.org/popup" ""
    m_webPages := some
      { initialized := true, maxLivePages := 5, activeTabId := 2,
        pages := [⟨1, 0, true, true, false, false, 100, "http://sailfishos.org",
            "Sailfish OS", true⟩,
          ⟨2, 1, true, false, false, false, 100, "http://sailfishos.org/popup", "", true⟩] } }

/-- A container right after construction whose model has been loaded with one tab; no page
component has been set. -/
def loadedContainer : DeclarativeWebContainer :=
  { create false 5 with m_persistentTabModel := oneTabModel }

/-- Outside values of a start-up with clearing of the history requested, the setting manager
reporting that data was cleared. -/
def clearHistoryEnv : Env :=
  { startupEnv with clearHistoryRequested := true, settingManagerInitialize := true }

/-- A container right after construction whose model has been loaded with one tab of the
previous session, with a page component. -/
def restoredContainer : DeclarativeWebContainer :=
  { create false 5 with m_persistentTabModel := oneTabModel, m_webPageComponent := true }

/-- Outside values while the window is hidden. -/
def hiddenEnv : Env := { startupEnv with windowExposed := false }

/-- The constructed container after its first Expose event on the exposed window. -/
def exposedContainer : DeclarativeWebContainer :=
  (eventFilter startupEnv (create false 5) QEventType.Expose).2

/-- The container after a thread entered `createGLContext()` before the exposure and the
window was exposed afterwards: the thread has been woken and has not continued yet. -/
def wokenContainer : DeclarativeWebContainer :=
  (run (create false 5)
    [(startupEnv, Op.createGLContext), (startupEnv, Op.eventFilter QEventType.Expose)]).getD
    (create false 5)

end DeclarativeWebContainer

/-! ## Sequences of tab-store calls -/

/-- A call that creates a tab: `newTab(url, title)` or `addTab(url, title)`. -/
inductive StoreCall where
  | newTab (url title : String)
  | addTab (url title : String)
  deriving DecidableEq, Repr

namespace StoreCall

/-- URL argument of the call. -/
def url : StoreCall → String
  | newTab u _ => u
  | addTab u _ => u

/-- The call applied to a store. -/
def apply (m : DeclarativeTabModel) : StoreCall → DeclarativeTabModel
  | newTab u t => m.newTab u t
  | addTab u t => m.addTab u t

/-- A sequence of calls applied in order. -/
def applyAll (m : DeclarativeTabModel) (calls : List StoreCall) : DeclarativeTabModel :=
  calls.foldl apply m

end StoreCall

/-- A call of one of the operations of the tab store that change it. -/
inductive StoreOp where
  | newTab (url title : String)
  | addTab (url title : String)
  | activateTab (index : Nat) (loadRequested : Bool)
  | activateTabById (tabId : Int)
  | updateUrl (tabId : Int) (isActiveTab : Bool) (url : String) (isInitialLoad : Bool)
  | updateTitle (tabId : Int) (isActiveTab : Bool) (url title : String)
  | remove (index : Nat)
  | removeTabById (tabId : Int) (wasActive : Bool)
  | closeActiveTab
  | clear
  | goBack (tabId : Int)
  | goForward (tabId : Int)
  | setUnloaded
  | setWaitingForNewTab (waiting : Bool)
  deriving DecidableEq, Repr

namespace StoreOp

/-- The operation applied to a store. -/
def apply (m : DeclarativeTabModel) : StoreOp → DeclarativeTabModel
  | newTab u t => m.newTab u t
  | addTab u t => m.addTab u t
  | activateTab i l => m.activateTab i l
  | activateTabById id => m.activateTabById id
  | updateUrl id a u i => m.updateUrl id a u i
  | updateTitle id a u t => m.updateTitle id a u t
  | remove i => m.remove i
  | removeTabById id w => m.removeTabById id w
  | closeActiveTab => m.closeActiveTab
  | clear => m.clear
  | goBack id => m.goBack id
  | goForward id => m.goForward id
  | setUnloaded => m.setUnloaded
  | setWaitingForNewTab w => m.setWaitingForNewTab w

/-- A sequence of operations applied in order. -/
def run (m : DeclarativeTabModel) (ops : List StoreOp) : DeclarativeTabModel :=
  ops.foldl apply m

end StoreOp

end SailfishBrowser

/-! ## Lemmas on the trace and the active page -/

namespace SailfishBrowser
namespace DeclarativeWebContainer

theorem initialLoads_of_log {c c' : DeclarativeWebContainer} (h : c'.log = c.log) :
    initialLoads c' = initialLoads c := by
  simp [initialLoads, h]

@[simp] theorem initialLoads_record (c : DeclarativeWebContainer) (e : Event) :
    initialLoads (record c e) = initialLoads c ++ (if isInitialLoad e then [e] else []) := by
  simp only [initialLoads, record, List.filter_append, List.filter]
  split <;> simp_all

@[simp] theorem initialLoads_emitSignal (c : DeclarativeWebContainer) (s : Signal) :
    initialLoads (emitSignal c s) = initialLoads c := by
  simp [emitSignal, isInitialLoad]

@[simp] theorem initialLoads_setLoadProgress (c : DeclarativeWebContainer) (n : Int) :
    initialLoads (setLoadProgress c n) = initialLoads c := by
  unfold setLoadProgress
  split
  · simp; rfl
  · rfl

@[simp] theorem initialLoads_updateContentOrientation (c : DeclarativeWebContainer) :
    initialLoads (updateContentOrientation c) = initialLoads c := by
  unfold updateContentOrientation
  split <;> simp [isInitialLoad]

@[simp] theorem initialLoads_setWebPage (c : DeclarativeWebContainer) (p : Option Int) :
    initialLoads (setWebPage c p) = initialLoads c := by
  unfold setWebPage
  split
  · simp only [initialLoads_setLoadProgress, initialLoads_emitSignal]
    cases h : webPage c <;> simp only [] <;> split <;> (try split) <;>
      simp [initialLoads, record, updateContentOrientation, isInitialLoad] <;>
      (try split) <;> simp [isInitialLoad]
  · rfl


theorem putTabModel_eq (c : DeclarativeWebContainer) (m : DeclarativeTabModel) :
    putTabModel c m =
      { c with
        m_persistentTabModel :=
          if c.m_model = some ModelRef.persistent then m else c.m_persistentTabModel
        m_privateTabModel :=
          if c.m_model = some ModelRef.privateBrowsing then m else c.m_privateTabModel } := by
  unfold putTabModel
  cases c with
  | mk a1 a2 a3 a4 =>
    cases a4 with
    | none => simp
    | some r => cases r <;> simp

@[simp] theorem initialLoads_putTabModel (c : DeclarativeWebContainer) (m : DeclarativeTabModel) :
    initialLoads (putTabModel c m) = initialLoads c := by
  rw [putTabModel_eq]; rfl

@[simp] theorem initialLoads_putWebPages (c : DeclarativeWebContainer) (p : WebPages) :
    initialLoads (putWebPages c p) = initialLoads c := rfl

@[simp] theorem pageOf_record (c : DeclarativeWebContainer) (e : Event) (h : Option Int) :
    pageOf (record c e) h = pageOf c h := rfl

@[simp] theorem webPage_record (c : DeclarativeWebContainer) (e : Event) :
    webPage (record c e) = webPage c := rfl

@[simp] theorem webPage_emitSignal (c : DeclarativeWebContainer) (s : Signal) :
    webPage (emitSignal c s) = webPage c := rfl

@[simp] theorem webPage_setLoadProgress (c : DeclarativeWebContainer) (n : Int) :
    webPage (setLoadProgress c n) = webPage c := by
  unfold setLoadProgress; split <;> rfl

theorem webPage_setWebPage (c : DeclarativeWebContainer) (p : Option Int) :
    webPage (setWebPage c p) = pageOf c p := by
  unfold setWebPage
  split
  · simp only [webPage_setLoadProgress, webPage_emitSignal]
    cases h : webPage c <;> simp only [] <;> split <;> (try split) <;>
      simp_all [webPage, pageOf, record, updateContentOrientation]
  · rename_i h
    simp only [webPagePtr, bne_iff_ne, ne_eq, not_not] at h
    subst h
    split
    · rfl
    · rename_i h2
      simp only [Bool.not_eq_true, Option.not_isSome, Option.isNone_iff_eq_none] at h2
      simp [h2, pageOf]


theorem pageOf_tabId {c : DeclarativeWebContainer} {h : Int} {pg : WebPage}
    (hp : pageOf c (some h) = some pg) : pg.tabId = h := by
  unfold pageOf at hp
  split at hp
  · rename_i h' p heq1 heq2
    cases heq1
    have := List.find?_some hp
    simpa using this
  · cases hp

theorem pageOf_none (c : DeclarativeWebContainer) : pageOf c none = none := by
  simp [pageOf]

theorem page_handle {p : WebPages} {tab : Tab} {parentId h : Int}
    (hp : (p.page tab parentId).2.1 = some h) : h = tab.tabId := by
  unfold WebPages.page at hp
  split at hp
  · simpa using hp.symm
  · split at hp
    · simpa using hp.symm
    · split at hp
      · simpa using hp.symm
      · cases hp

theorem activatePage_loads {c c1 : DeclarativeWebContainer} {tab : Tab} {force b : Bool}
    {parentId : Int} (h : activatePage c tab force parentId = some (b, c1)) :
    initialLoads c1 = initialLoads c := by
  unfold activatePage at h
  split at h
  · cases h; rfl
  · split at h
    · cases h
    · dsimp only at h
      split at h
      · split at h
        · cases h
        · cases h
          simp [isInitialLoad]
      · cases h
        simp [isInitialLoad]

theorem activatePage_page {c c1 : DeclarativeWebContainer} {tab : Tab} {force b : Bool}
    {parentId : Int} (h : activatePage c tab force parentId = some (b, c1))
    (hg : activationGuard c tab force = true) :
    ∃ pg, webPage c1 = some pg ∧ pg.tabId = tab.tabId := by
  unfold activatePage at h
  unfold activationGuard at hg
  split at h
  · rename_i hm; simp [hm] at hg
  · rename_i m hm
    split at h
    · cases h
    · rename_i p hp
      simp only [hm, hp] at hg
      rw [if_pos hg] at h
      dsimp only at h
      split at h
      · cases h
      · rename_i pg hpg
        cases h
        refine ⟨pg, by simpa using hpg, ?_⟩
        rw [webPage_setWebPage] at hpg
        simp only [pageOf_record] at hpg
        cases hh : (WebPages.page (p.initializePool c.m_webPageComponent) tab parentId).2.1 with
        | none => rw [hh, pageOf_none] at hpg; cases hpg
        | some h' =>
          rw [hh] at hpg
          rw [pageOf_tabId hpg]
          exact page_handle hh

theorem loadTab_forced {c c' : DeclarativeWebContainer} {tab : Tab}
    (h : loadTab c tab true = some c') :
    ∃ t, initialLoads c' = initialLoads c ++ [Event.page t (PageCall.loadTab tab.url true)] ∧
      (activationGuard c tab true = true → t = tab.tabId) := by
  unfold loadTab at h
  split at h
  · cases h
  · rename_i b c1 hact
    simp only [Bool.or_true, if_true] at h
    split at h
    · cases h
    · rename_i pg hpg
      cases h
      refine ⟨pg.tabId, by simp [isInitialLoad, activatePage_loads hact], ?_⟩
      intro hg
      obtain ⟨pg', hpg', ht⟩ := activatePage_page hact hg
      rw [hpg] at hpg'
      cases hpg'
      exact ht


theorem canInitialize_model {env : Env} {c : DeclarativeWebContainer}
    (h : canInitialize env c = true) : ∃ m, tabModel c = some m ∧ m.loaded = true := by
  unfold canInitialize at h
  cases hm : tabModel c with
  | none => simp [hm] at h
  | some m => simp [hm] at h; exact ⟨m, rfl, h.2⟩

theorem initializeContainer_of_initialized (env : Env) (c : DeclarativeWebContainer)
    (h : c.m_initialized = true) : initializeContainer env c = some c := by
  unfold initializeContainer
  simp [h]

theorem initializeContainer_of_not_can (env : Env) (c : DeclarativeWebContainer)
    (h : canInitialize env c = false) : initializeContainer env c = some c := by
  unfold initializeContainer
  simp [h]

theorem load_m_initialized (env : Env) (c : DeclarativeWebContainer) (url title : String)
    (force : Bool) : (load env c url title force).m_initialized = c.m_initialized := by
  unfold load
  dsimp only
  split
  · rfl
  · split
    · rfl
    · split
      · split
        · rw [putTabModel_eq]; rfl
        · rfl
      · rfl

theorem finishInitialize_initialized (c : DeclarativeWebContainer) :
    (finishInitialize c).m_initialized = true := rfl

theorem initialLoads_finishInitialize (c : DeclarativeWebContainer) :
    initialLoads (finishInitialize c) = initialLoads c := by
  unfold finishInitialize
  dsimp only
  split <;> simp [isInitialLoad, initialLoads, emitSignal, record]

theorem initialLoad_no_tabs (env : Env) (c : DeclarativeWebContainer)
    {m : DeclarativeTabModel} (h0 : m.count = 0) :
    ∃ c3, initialLoad env c m = some c3 ∧
      initialLoads c3 = initialLoads c ++
        (if env.firstUseDone || !c.m_initialUrl.isEmpty then
          [Event.model (ModelCall.newTab
            (if c.m_initialUrl.isEmpty then env.homePage else c.m_initialUrl) "")]
         else []) := by
  unfold initialLoad
  dsimp only
  by_cases hc : (env.firstUseDone || !c.m_initialUrl.isEmpty) = true
  · simp [h0, hc, isInitialLoad]
  · simp [h0, hc]

theorem initialLoad_tabs {env : Env} {c c3 : DeclarativeWebContainer}
    {m : DeclarativeTabModel} (h0 : 0 < m.count) (h : initialLoad env c m = some c3) :
    ∃ t, initialLoads c3 = initialLoads c ++
        [Event.page t (PageCall.loadTab
          (if c.m_initialUrl.isEmpty then m.activeTab.url else c.m_initialUrl) true)] ∧
      (activationGuard c m.activeTab true = true → t = m.activeTab.tabId) := by
  unfold initialLoad at h
  dsimp only at h
  have hne : (m.count == 0) = false := by simp; omega
  simp only [hne, Bool.false_and, Bool.false_eq_true, if_false, h0, if_true] at h
  obtain ⟨t, ht, hg⟩ := loadTab_forced h
  refine ⟨t, ?_, ?_⟩
  · rw [ht]
    by_cases he : c.m_initialUrl.isEmpty = true <;> simp [he, Tab.setUrl]
  · intro hguard
    have : activationGuard c
        (if (!c.m_initialUrl.isEmpty) = true then m.activeTab.setUrl c.m_initialUrl
          else m.activeTab) true = true := by
      by_cases he : c.m_initialUrl.isEmpty = true
      · simpa [he] using hguard
      · simp only [he, Bool.not_false, if_true]
        simpa [activationGuard, Tab.setUrl] using hguard
    rw [hg this]
    by_cases he : c.m_initialUrl.isEmpty = true <;> simp [he, Tab.setUrl]


theorem tabModel_putTabModel {c : DeclarativeWebContainer} {m0 : DeclarativeTabModel}
    (h : tabModel c = some m0) (m : DeclarativeTabModel) :
    tabModel (putTabModel c m) = some m := by
  unfold tabModel putTabModel at *
  cases hr : c.m_model with
  | none => simp [hr] at h
  | some r => cases r <;> simp [hr]

theorem activationGuard_forced {c : DeclarativeWebContainer} {tab : Tab}
    {m : DeclarativeTabModel} {p : WebPages} (hm : tabModel c = some m)
    (hp : c.m_webPages = some p) (hcomp : c.m_webPageComponent = true)
    (htab : 0 < tab.tabId) : activationGuard c tab true = true := by
  unfold activationGuard
  simp only [hm, hp, hcomp, WebPages.initializePool]
  by_cases hi : p.initialized = true <;> simp [hi, htab]

theorem loadTab_pool {c c' : DeclarativeWebContainer} {tab : Tab} {force : Bool}
    {m : DeclarativeTabModel} (hm : tabModel c = some m)
    (h : loadTab c tab force = some c') : ∃ p, c.m_webPages = some p := by
  unfold loadTab activatePage at h
  simp only [hm] at h
  cases hp : c.m_webPages with
  | none => simp [hp] at h
  | some p => exact ⟨p, rfl⟩

/-- Shape of `initialize()` once its guards have passed and the clear-history reload path
is not taken: the load test on the state after the optional clear, then the end. -/
theorem initializeContainer_eq {env : Env} {c : DeclarativeWebContainer}
    {m : DeclarativeTabModel} (hm : tabModel c = some m)
    (hcan : canInitialize env c = true) (hinit : c.m_initialized = false)
    (hclear : clearHistoryReload env c = false) :
    ∃ c2, initializeContainer env c =
        (match initialLoad env c2 (modelAtLoadTest env m) with
         | none => none
         | some c3 => some (finishInitialize c3)) ∧
      initialLoads c2 = initialLoads c ∧ c2.m_initialUrl = c.m_initialUrl ∧
      tabModel c2 = some (modelAtLoadTest env m) ∧ c2.m_webPages = c.m_webPages ∧
      c2.m_webPageComponent = c.m_webPageComponent := by
  unfold clearHistoryReload at hclear
  simp only [hm] at hclear
  unfold initializeContainer
  simp only [hcan, hinit, hm, hclear, Bool.not_true, Bool.or_false, Bool.false_eq_true,
    if_false]
  refine ⟨_, rfl, ?_, ?_, ?_, ?_, ?_⟩
  · by_cases hc : env.clearHistoryRequested = true <;> simp [hc, isInitialLoad]
  · by_cases hc : env.clearHistoryRequested = true <;> simp [hc, record, putTabModel_eq]
  · by_cases hc : env.clearHistoryRequested = true
    · simp only [hc, if_true, modelAtLoadTest]
      exact tabModel_putTabModel hm _
    · simp only [hc, if_false, modelAtLoadTest]
      exact hm
  · by_cases hc : env.clearHistoryRequested = true <;> simp [hc, record, putTabModel_eq]
  · by_cases hc : env.clearHistoryRequested = true <;> simp [hc, record, putTabModel_eq]


theorem run_startup_initialized {c c'' : DeclarativeWebContainer}
    (calls : List (Env × Op)) (hcalls : ∀ x ∈ calls, isStartupCall x.2 = true)
    (hinit : c.m_initialized = true) (hrun : run c calls = some c'') :
    c''.m_initialized = true := by
  induction calls generalizing c with
  | nil => simp [run] at hrun; rw [← hrun]; exact hinit
  | cons x rest ih =>
    obtain ⟨env, op⟩ := x
    have hop := hcalls (env, op) (List.mem_cons_self _ _)
    have hrest : ∀ y ∈ rest, isStartupCall y.2 = true :=
      fun y hy => hcalls y (List.mem_cons_of_mem _ hy)
    cases op <;> simp [isStartupCall] at hop
    · simp only [run, step] at hrun
      exact ih hrest (by rw [load_m_initialized]; exact hinit) hrun
    · simp only [run, step, initializeContainer_of_initialized env c hinit] at hrun
      exact ih hrest hinit hrun


theorem webPage_putWebPages_initializePool {c : DeclarativeWebContainer} {p : WebPages}
    (hp : c.m_webPages = some p) (component : Bool) :
    webPage (putWebPages c (p.initializePool component)) = webPage c := by
  have hfind : ∀ h, (p.initializePool component).find h = p.find h := by
    intro h
    unfold WebPages.initializePool WebPages.find
    split <;> rfl
  unfold webPage pageOf putWebPages
  simp only [hp]
  cases hw : c.m_webPage with
  | none => rfl
  | some h =>
    simp only [WebPages.alive, hfind]
    cases hf : p.find h with
    | none => simp
    | some pg => simp [hf, hfind]

theorem activatePage_unguarded {c c' : DeclarativeWebContainer} {tab : Tab} {force b : Bool}
    {parentId : Int} (h : activatePage c tab force parentId = some (b, c'))
    (hg : activationGuard c tab force = false) :
    b = false ∧ webPage c' = webPage c ∧ c'.m_tabId = c.m_tabId := by
  unfold activatePage at h
  unfold activationGuard at hg
  split at h
  · cases h; exact ⟨rfl, rfl, rfl⟩
  · rename_i m hm
    split at h
    · cases h
    · rename_i p hp
      simp only [hm, hp] at hg
      dsimp only at h
      rw [if_neg (by simp [hg])] at h
      cases h
      refine ⟨rfl, ?_, rfl⟩
      rw [webPage_record]
      exact webPage_putWebPages_initializePool hp _

theorem loadTab_unguarded {c c' : DeclarativeWebContainer} {tab : Tab} {force : Bool}
    (h : loadTab c tab force = some c') (hg : activationGuard c tab true = false) :
    webPage c' = webPage c ∧ c'.m_tabId = c.m_tabId := by
  unfold loadTab at h
  split at h
  · cases h
  · rename_i b c1 hact
    obtain ⟨_, hw, ht⟩ := activatePage_unguarded hact hg
    split at h
    · split at h
      · cases h
      · cases h
        exact ⟨by rw [webPage_record]; exact hw, ht⟩
    · cases h
      exact ⟨hw, ht⟩

theorem find_append_self (l : List WebPage) (s : WebPage) (t : Int) (hs : s.tabId = t) :
    ((l ++ [s]).find? (fun x => x.tabId == t)).isSome = true := by
  rw [List.find?_isSome]
  exact ⟨s, by simp, by simp [hs]⟩

theorem page_available {p : WebPages} {tab : Tab} (parentId : Int)
    (h : (p.alive tab.tabId || decide ((p.pages.length : Int) < p.maxLivePages)) = true) :
    (p.page tab parentId).2.1 = some tab.tabId ∧
      ((p.page tab parentId).1.find tab.tabId).isSome = true := by
  unfold WebPages.page
  cases hf : p.find tab.tabId with
  | some s =>
    have hs : s.tabId = tab.tabId := by
      have := List.find?_some hf
      simpa using this
    exact ⟨rfl, find_append_self _ s _ hs⟩
  | none =>
    have hroom : (p.pages.length : Int) < p.maxLivePages := by
      simpa [WebPages.alive, hf] using h
    constructor
    · simp only [hroom, if_true]
    · simp only [hroom, if_true]
      exact find_append_self _ _ _ rfl


theorem activatePage_returns {c : DeclarativeWebContainer} {tab : Tab}
    {m : DeclarativeTabModel} (hm : tabModel c = some m) (parentId : Int)
    (ha : pageAvailable c tab = true) :
    ∃ b c1 pg, activatePage c tab true parentId = some (b, c1) ∧ webPage c1 = some pg := by
  unfold pageAvailable at ha
  cases hp : c.m_webPages with
  | none => simp [hp] at ha
  | some p =>
    simp only [hp, Bool.and_eq_true, decide_eq_true_eq] at ha
    obtain ⟨⟨hcomp, htab⟩, hroom⟩ := ha
    have hinit : (p.initializePool c.m_webPageComponent).initialized = true := by
      unfold WebPages.initializePool
      split
      · assumption
      · exact hcomp
    have hroom1 : ((p.initializePool c.m_webPageComponent).alive tab.tabId ||
        decide (((p.initializePool c.m_webPageComponent).pages.length : Int) <
          (p.initializePool c.m_webPageComponent).maxLivePages)) = true := by
      unfold WebPages.initializePool
      split
      · exact hroom
      · exact hroom
    obtain ⟨hh, hfind⟩ := page_available parentId hroom1
    unfold activatePage
    simp only [hm, hp, hinit, htab, Bool.or_true, decide_True, Bool.and_self, if_true]
    rw [webPage_setWebPage, hh]
    obtain ⟨pg, hpg⟩ := Option.isSome_iff_exists.1 hfind
    have hpo : pageOf
        (record (putWebPages (record (putWebPages c (p.initializePool c.m_webPageComponent))
          (Event.pool PoolCall.setup))
          ((p.initializePool c.m_webPageComponent).page tab parentId).1)
          (Event.pool (PoolCall.page tab.tabId parentId))) (some tab.tabId) = some pg := hpg
    rw [hpo]
    refine ⟨_, _, pg, rfl, ?_⟩
    rw [webPage_record, webPage_record, webPage_setWebPage]
    exact hpo

theorem loadTab_returns {c : DeclarativeWebContainer} {tab : Tab}
    {m : DeclarativeTabModel} (hm : tabModel c = some m)
    (ha : pageAvailable c tab = true) : ∃ c', loadTab c tab true = some c' := by
  obtain ⟨b, c1, pg, hact, hpg⟩ := activatePage_returns hm 0 ha
  unfold loadTab
  simp [hact, hpg]

theorem initialLoad_returns (env : Env) {c : DeclarativeWebContainer}
    {m : DeclarativeTabModel} (hm : tabModel c = some m)
    (ha : (m.count == 0 || pageAvailable c m.activeTab) = true) :
    ∃ c', initialLoad env c m = some c' := by
  by_cases h0 : m.count = 0
  · obtain ⟨c3, h3, _⟩ := initialLoad_no_tabs env c h0
    exact ⟨c3, h3⟩
  · have hne : (m.count == 0) = false := by simpa using h0
    rw [hne, Bool.false_or] at ha
    unfold initialLoad
    simp only [hne, Bool.false_and, Bool.false_eq_true, if_false, Nat.pos_of_ne_zero h0,
      if_true]
    apply loadTab_returns hm
    by_cases he : c.m_initialUrl.isEmpty = true
    · simpa [he] using ha
    · simp only [he, Bool.not_false, if_true]
      simpa [pageAvailable, Tab.setUrl] using ha

theorem initializeContainer_returns {env : Env} {c : DeclarativeWebContainer}
    (hcan : canInitialize env c = true) (hinit : c.m_initialized = false)
    (hclear : clearHistoryReload env c = false) (hret : initialLoadReturns env c = true) :
    ∃ c', initializeContainer env c = some c' := by
  obtain ⟨m, hm, _⟩ := canInitialize_model hcan
  obtain ⟨c2, heq, hl2, hu2, hm2, hp2, hc2⟩ := initializeContainer_eq hm hcan hinit hclear
  unfold initialLoadReturns at hret
  simp only [hm] at hret
  have ha : ((modelAtLoadTest env m).count == 0 ||
      pageAvailable c2 (modelAtLoadTest env m).activeTab) = true := by
    simpa [pageAvailable, hp2, hc2] using hret
  obtain ⟨c3, h3⟩ := initialLoad_returns env hm2 ha
  exact ⟨finishInitialize c3, by rw [heq, h3]⟩

end DeclarativeWebContainer
end SailfishBrowser

/-! ## Lemmas on the exposure gate -/

namespace SailfishBrowser
namespace DeclarativeWebContainer

theorem gate_mk (a1 : Option Int) (a2 : Option Nat) (a3 : Bool) (a4 : Option ModelRef)
    (a5 : Bool) (a6 : Option WebPages) (a7 a8 : DeclarativeTabModel) (a9 a10 a11 : Bool)
    (a12 : Int) (a13 : String) (a14 : Bool) (a15 : Int) (a16 a17 a18 a19 a20 : Bool)
    (a21 a22 : Nat) (a23 : List Event) :
    gate ⟨a1, a2, a3, a4, a5, a6, a7, a8, a9, a10, a11, a12, a13, a14, a15, a16, a17, a18,
      a19, a20, a21, a22, a23⟩ = (a19, a21, a22, a3, a23.filter isContextCall) := rfl

theorem gate_fields (c : DeclarativeWebContainer) :
    (c.m_hasBeenExposed, c.exposedWaiters, c.exposedWoken, c.m_context,
      c.log.filter isContextCall) = gate c := rfl

theorem gate_record (c : DeclarativeWebContainer) (e : Event) (h : isContextCall e = false) :
    gate (record c e) = gate c := by
  simp [gate, contextCalls, record, List.filter_append, h]

@[simp] theorem gate_emitSignal (c : DeclarativeWebContainer) (s : Signal) :
    gate (emitSignal c s) = gate c := gate_record c _ rfl

@[simp] theorem gate_record_model (c : DeclarativeWebContainer) (call : ModelCall) :
    gate (record c (Event.model call)) = gate c := gate_record c _ rfl

@[simp] theorem gate_record_pool (c : DeclarativeWebContainer) (call : PoolCall) :
    gate (record c (Event.pool call)) = gate c := gate_record c _ rfl

@[simp] theorem gate_record_page (c : DeclarativeWebContainer) (t : Int) (call : PageCall) :
    gate (record c (Event.page t call)) = gate c := gate_record c _ rfl

@[simp] theorem gate_record_dbGoBack (c : DeclarativeWebContainer) (t : Int) :
    gate (record c (Event.dbGoBack t)) = gate c := gate_record c _ rfl

@[simp] theorem gate_record_dbGoForward (c : DeclarativeWebContainer) (t : Int) :
    gate (record c (Event.dbGoForward t)) = gate c := gate_record c _ rfl

@[simp] theorem gate_record_settingsInitialized (c : DeclarativeWebContainer) :
    gate (record c Event.settingsInitialized) = gate c := gate_record c _ rfl

@[simp] theorem gate_record_settingsAutostart (c : DeclarativeWebContainer) (b : Bool) :
    gate (record c (Event.settingsSetAutostartPrivateBrowsing b)) = gate c :=
  gate_record c _ rfl

@[simp] theorem gate_record_orientation (c : DeclarativeWebContainer) :
    gate (record c Event.reportContentOrientationChange) = gate c := gate_record c _ rfl

@[simp] theorem gate_record_windowFlags (c : DeclarativeWebContainer) (b : Bool) :
    gate (record c (Event.setWindowFlags b)) = gate c := gate_record c _ rfl

@[simp] theorem gate_record_chromeSetup (c : DeclarativeWebContainer) :
    gate (record c Event.chromeWindowSetup) = gate c := gate_record c _ rfl

@[simp] theorem gate_record_chromeDisconnect (c : DeclarativeWebContainer) :
    gate (record c Event.chromeDisconnectOrientation) = gate c := gate_record c _ rfl

@[simp] theorem gate_putTabModel (c : DeclarativeWebContainer) (m : DeclarativeTabModel) :
    gate (putTabModel c m) = gate c := by
  rw [putTabModel_eq]; rfl

@[simp] theorem gate_putWebPages (c : DeclarativeWebContainer) (p : WebPages) :
    gate (putWebPages c p) = gate c := rfl

@[simp] theorem gate_setLoadProgress (c : DeclarativeWebContainer) (n : Int) :
    gate (setLoadProgress c n) = gate c := by
  unfold setLoadProgress
  split <;> simp [gate_mk, gate_fields]

@[simp] theorem gate_updateContentOrientation (c : DeclarativeWebContainer) :
    gate (updateContentOrientation c) = gate c := by
  unfold updateContentOrientation
  split <;> simp

@[simp] theorem gate_resetHeight (c : DeclarativeWebContainer) (b : Bool) :
    gate (resetHeight c b) = gate c := by
  unfold resetHeight
  split <;> simp

@[simp] theorem gate_setWebPage (c : DeclarativeWebContainer) (p : Option Int) :
    gate (setWebPage c p) = gate c := by
  unfold setWebPage
  split
  · simp only [gate_setLoadProgress, gate_emitSignal]
    cases h : webPage c <;> simp only [] <;> split <;> (try split) <;>
      simp [gate_mk, gate_fields]
  · rfl

theorem gate_exposeChrome (env : Env) (c : DeclarativeWebContainer) (event : QEventType) :
    (gate (exposeChrome env c event)) = gate c := by
  unfold exposeChrome
  split <;> simp [gate_mk, gate_fields]


theorem gate_setForeground (c : DeclarativeWebContainer) (active : Bool) :
    gate (setForeground c active) = gate c := by
  unfold setForeground
  split
  · dsimp only
    split <;> simp [gate_mk, gate_fields]
  · rfl

theorem gate_setChromeWindow (c : DeclarativeWebContainer) (w : Option Nat) :
    gate (setChromeWindow c w) = gate c := by
  unfold setChromeWindow
  split <;> simp [gate_mk, gate_fields]

theorem gate_load (env : Env) (c : DeclarativeWebContainer) (url title : String)
    (force : Bool) : gate (load env c url title force) = gate c := by
  unfold load
  dsimp only
  split
  · simp
  · split
    · rfl
    · split
      · split <;> simp
      · rfl

theorem gate_goForward (c : DeclarativeWebContainer) : gate (goForward c) = gate c := by
  unfold goForward
  split
  · split <;> simp
  · rfl

theorem gate_goBack (c : DeclarativeWebContainer) : gate (goBack c) = gate c := by
  unfold goBack
  split
  · split <;> simp
  · rfl

theorem gate_updatePageFocus (c : DeclarativeWebContainer) (focus : Bool) :
    gate (updatePageFocus c focus) = gate c := by
  unfold updatePageFocus
  split <;> simp

theorem gate_forwardEvent (c : DeclarativeWebContainer) : gate (forwardEvent c) = gate c := by
  unfold forwardEvent
  split
  · split <;> simp
  · rfl

theorem gate_componentComplete (c : DeclarativeWebContainer) :
    gate (componentComplete c) = gate c := by
  unfold componentComplete
  split <;> simp [gate_mk, gate_fields]

theorem gate_updateWindowState (c : DeclarativeWebContainer) (maximized : Bool) :
    gate (updateWindowState c maximized) = gate c := by
  unfold updateWindowState
  split
  · split <;> simp
  · rfl

theorem gate_imeNotificationChanged (c : DeclarativeWebContainer) (state cause : Int) :
    gate (imeNotificationChanged c state cause) = gate c := by
  unfold imeNotificationChanged
  split <;> simp

theorem gate_onPageUrlChanged (c : DeclarativeWebContainer) (sender : Option Int) :
    gate (onPageUrlChanged c sender) = gate c := by
  unfold onPageUrlChanged
  split
  · dsimp only
    split <;> simp
  · rfl

theorem gate_onPageTitleChanged (c : DeclarativeWebContainer) (sender : Option Int) :
    gate (onPageTitleChanged c sender) = gate c := by
  unfold onPageTitleChanged
  split <;> simp

theorem gate_updateLoadProgress (c : DeclarativeWebContainer) :
    gate (updateLoadProgress c) = gate c := by
  unfold updateLoadProgress
  split
  · rfl
  · split
    · rfl
    · split <;> simp

theorem gate_updateLoading (c : DeclarativeWebContainer) :
    gate (updateLoading c) = gate c := by
  unfold updateLoading
  dsimp only
  split
  · split <;> simp
  · simp

theorem gate_updateWindowFlags (c : DeclarativeWebContainer) :
    gate (updateWindowFlags c) = gate c := by
  unfold updateWindowFlags
  split <;> simp

theorem gate_sendVkbOpenCompositionMetrics (c : DeclarativeWebContainer) :
    gate (sendVkbOpenCompositionMetrics c) = gate c := by
  unfold sendVkbOpenCompositionMetrics
  split <;> simp

theorem gate_clearActivePageData (c : DeclarativeWebContainer) :
    gate (clearActivePageData c) = gate c := by
  unfold clearActivePageData
  dsimp only
  split <;> simp [gate_mk, gate_fields]

theorem gate_finishInitialize (c : DeclarativeWebContainer) :
    gate (finishInitialize c) = gate c := by
  unfold finishInitialize
  dsimp only
  split <;> simp [gate_mk, gate_fields]

theorem gate_setTabModel {c c' : DeclarativeWebContainer} {model : Option ModelRef}
    (h : setTabModel c model = some c') : gate c' = gate c := by
  unfold setTabModel at h
  split at h
  · cases hm : tabModel c <;> simp only [hm] at h <;> split at h
    · split at h
      · cases h
        simp only [gate_record_model, gate_putTabModel, gate_emitSignal]
        split <;> simp [gate_mk, gate_fields]
      · cases h
    · cases h
      simp only [gate_emitSignal]
      split <;> simp [gate_mk, gate_fields]
    · split at h
      · cases h
        simp only [gate_record_model, gate_putTabModel, gate_emitSignal]
        split <;>
          simp [gate_mk, gate_fields, record, List.filter_append, isContextCall]
      · cases h
    · cases h
      simp only [gate_emitSignal]
      split <;> simp [gate_mk, gate_fields, record, List.filter_append, isContextCall]
  · cases h; rfl

theorem gate_setMaxLiveTabCount {c c' : DeclarativeWebContainer} {count : Int}
    (h : setMaxLiveTabCount c count = some c') : gate c' = gate c := by
  unfold setMaxLiveTabCount at h
  split at h
  · cases h
  · dsimp only at h
    split at h <;> cases h <;> simp

theorem gate_dumpPages {c c' : DeclarativeWebContainer}
    (h : dumpPages c = some c') : gate c' = gate c := by
  unfold dumpPages at h
  split at h
  · cases h; simp
  · cases h

theorem gate_activatePage {c c' : DeclarativeWebContainer} {tab : Tab} {force b : Bool}
    {parentId : Int} (h : activatePage c tab force parentId = some (b, c')) :
    gate c' = gate c := by
  unfold activatePage at h
  split at h
  · cases h; rfl
  · split at h
    · cases h
    · dsimp only at h
      split at h
      · split at h
        · cases h
        · cases h; simp
      · cases h; simp

theorem gate_loadTab {c c' : DeclarativeWebContainer} {tab : Tab} {force : Bool}
    (h : loadTab c tab force = some c') : gate c' = gate c := by
  unfold loadTab at h
  split at h
  · cases h
  · rename_i b c1 hact
    have h1 := gate_activatePage hact
    split at h
    · split at h
      · cases h
      · cases h; simp [h1]
    · cases h; exact h1

theorem gate_reload {c c' : DeclarativeWebContainer} {force : Bool}
    (h : reload c force = some c') : gate c' = gate c := by
  unfold reload at h
  split at h
  · split at h
    · split at h
      · cases h; simp
      · split at h
        · exact gate_loadTab h
        · cases h
    · split at h
      · exact gate_loadTab h
      · cases h
  · cases h; rfl

theorem gate_setActiveTabData {c c' : DeclarativeWebContainer}
    (h : setActiveTabData c = some c') : gate c' = gate c := by
  unfold setActiveTabData at h
  split at h
  · cases h
  · split at h <;> cases h <;> simp [gate_mk, gate_fields]

theorem gate_onActiveTabChanged {c c' : DeclarativeWebContainer} {oldTabId activeTabId : Int}
    {loadActiveTab : Bool} (h : onActiveTabChanged c oldTabId activeTabId loadActiveTab = some c') :
    gate c' = gate c := by
  unfold onActiveTabChanged at h
  split at h
  · cases h; rfl
  · split at h
    · cases h
    · rename_i c1 h1
      have hg := gate_setActiveTabData h1
      split at h
      · cases h; exact hg
      · split at h
        · rw [gate_reload h, hg]
        · cases h; exact hg

theorem gate_deliverActiveTabChanged {c c' : DeclarativeWebContainer}
    (signals : List ModelSignal) (h : deliverActiveTabChanged c signals = some c') :
    gate c' = gate c := by
  induction signals generalizing c with
  | nil =>
    simp only [deliverActiveTabChanged, Option.some.injEq] at h
    rw [← h]
  | cons s rest ih =>
    cases s <;> simp only [deliverActiveTabChanged] at h
    case activeTabChanged o n l =>
      split at h
      · rename_i c1 h1
        rw [ih h, gate_onActiveTabChanged h1]
      · cases h
    all_goals exact ih h

theorem gate_closeWindow {c c' : DeclarativeWebContainer} {sender : Option Int}
    (h : closeWindow c sender = some c') : gate c' = gate c := by
  unfold closeWindow at h
  split at h
  · dsimp only at h
    split at h
    · split at h
      · cases h
      · rename_i c2 h2
        have hg := gate_deliverActiveTabChanged _ h2
        split at h
        · cases h
        · cases h
          simp [hg]
    · cases h; rfl
  · cases h; rfl

theorem gate_updateMode {c c' : DeclarativeWebContainer}
    (h : updateMode c = some c') : gate c' = gate c := by
  unfold updateMode at h
  split at h
  · cases h
  · rename_i c1 h1
    have hg1 := gate_setTabModel h1
    split at h
    · cases h
    · rename_i c2 h2
      have hg2 := gate_setActiveTabData h2
      split at h
      · cases h
      · split at h
        · rw [gate_reload h, hg2, hg1]
        · cases h
          simp [hg2, hg1]

theorem gate_setPrivateMode {c c' : DeclarativeWebContainer} {privateMode : Bool}
    (h : setPrivateMode c privateMode = some c') : gate c' = gate c := by
  unfold setPrivateMode at h
  split at h
  · dsimp only at h
    split at h
    · cases h
    · rename_i c2 h2
      cases h
      rw [gate_emitSignal, gate_updateMode h2]
      simp [gate_mk, gate_fields]
  · cases h; rfl

theorem gate_initialLoad {env : Env} {c c' : DeclarativeWebContainer}
    {m : DeclarativeTabModel} (h : initialLoad env c m = some c') : gate c' = gate c := by
  unfold initialLoad at h
  dsimp only at h
  split at h
  · cases h; simp
  · split at h
    · exact gate_loadTab h
    · cases h; rfl

theorem gate_initializeContainer {env : Env} {c c' : DeclarativeWebContainer}
    (h : initializeContainer env c = some c') : gate c' = gate c := by
  unfold initializeContainer at h
  split at h
  · cases h; rfl
  · split at h
    · cases h
    · rename_i m hm
      dsimp only at h
      have h1 : gate (if env.clearHistoryRequested = true then
          record (putTabModel c m.clear) (Event.model ModelCall.clear)
          else c) = gate c := by
        split <;> simp
      split at h
      · cases h
        simp [h1]
      · split at h
        · cases h
        · rename_i c3 h3
          cases h
          rw [gate_finishInitialize, gate_initialLoad h3]
          simp [h1]

theorem gate_downloadStartedFirst {c c' : DeclarativeWebContainer} {m : DeclarativeTabModel}
    (h : downloadStartedFirst c m = some c') : gate c' = gate c := by
  unfold downloadStartedFirst at h
  split at h
  · cases h; simp
  · split at h
    · cases h; simp
    · cases h

theorem gate_onDownloadStarted {c c' : DeclarativeWebContainer}
    (h : onDownloadStarted c = some c') : gate c' = gate c := by
  unfold onDownloadStarted at h
  split at h
  · cases h
  · split at h
    · cases h
    · rename_i c2 h2
      have hg := gate_downloadStartedFirst h2
      split at h
      · cases h
      · split at h <;> cases h <;> simp [hg]

theorem gate_onNewTabRequested {c c' : DeclarativeWebContainer} {url title : String}
    {parentId : Int} (h : onNewTabRequested c url title parentId = some c') :
    gate c' = gate c := by
  unfold onNewTabRequested at h
  split at h
  · cases h
  · dsimp only at h
    split at h
    · cases h
    · rename_i b c1 hact
      have hg := gate_activatePage hact
      split at h
      · split at h
        · cases h; simp [hg]
        · cases h
      · cases h; exact hg

theorem gate_releasePage {c c' : DeclarativeWebContainer} {tabId : Int} {virtualize : Bool}
    (h : releasePage c tabId virtualize = some c') : gate c' = gate c := by
  unfold releasePage at h
  split at h
  · cases h; rfl
  · dsimp only at h
    split at h
    · cases h
    · cases h; simp [gate_clearActivePageData]
    · cases h; simp


/-- Every operation other than the event filter and the two halves of `createGLContext()`
leaves the exposure gate, the graphics context and the context calls as they are. -/
theorem step_gate {env : Env} {c c' : DeclarativeWebContainer} {op : Op}
    (h : step env c op = some c') (hop : isGateOp op = false) : gate c' = gate c := by
  cases op <;> simp only [isGateOp, Bool.true_eq_false] at hop <;> simp only [step] at h
  case setTabModel model => exact gate_setTabModel h
  case setForeground active => cases h; exact gate_setForeground c active
  case setMaxLiveTabCount count => exact gate_setMaxLiveTabCount h
  case setPrivateMode privateMode => exact gate_setPrivateMode h
  case setLoadProgress n => cases h; exact gate_setLoadProgress c n
  case setChromeWindow w => cases h; exact gate_setChromeWindow c w
  case setWebPageComponent b => cases h; rfl
  case setAllowHiding b => cases h; rfl
  case setEnabled b => cases h; rfl
  case load url title force => cases h; exact gate_load env c url title force
  case reload force => exact gate_reload h
  case goForward => cases h; exact gate_goForward c
  case goBack => cases h; exact gate_goBack c
  case activatePage tab force parentId =>
    split at h
    · rename_i r hr
      cases h
      exact gate_activatePage (b := r.1) (show activatePage c tab force parentId = some (r.1, r.2) from hr)
    · cases h
  case updatePageFocus focus => cases h; exact gate_updatePageFocus c focus
  case dumpPages => exact gate_dumpPages h
  case forwardEvent => cases h; exact gate_forwardEvent c
  case componentComplete => cases h; exact gate_componentComplete c
  case resetHeight b => cases h; exact gate_resetHeight c b
  case updateContentOrientation => cases h; exact gate_updateContentOrientation c
  case updateWindowState b => cases h; exact gate_updateWindowState c b
  case imeNotificationChanged state cause =>
    cases h; exact gate_imeNotificationChanged c state cause
  case initializeContainer => exact gate_initializeContainer h
  case onActiveTabChanged o a l => exact gate_onActiveTabChanged h
  case onDownloadStarted => exact gate_onDownloadStarted h
  case onNewTabRequested url title parentId => exact gate_onNewTabRequested h
  case releasePage tabId virtualize => exact gate_releasePage h
  case closeWindow sender => exact gate_closeWindow h
  case onPageUrlChanged sender => cases h; exact gate_onPageUrlChanged c sender
  case onPageTitleChanged sender => cases h; exact gate_onPageTitleChanged c sender
  case updateLoadProgress => cases h; exact gate_updateLoadProgress c
  case updateLoading => cases h; exact gate_updateLoading c
  case setActiveTabData => exact gate_setActiveTabData h
  case updateWindowFlags => cases h; exact gate_updateWindowFlags c
  case sendVkbOpenCompositionMetrics => cases h; exact gate_sendVkbOpenCompositionMetrics c
  case collaborators persistent privateBrowsing pool =>
    split at h <;> cases h <;> simp [gate_mk, gate_fields]

theorem gate_exposeWindow (env : Env) (c : DeclarativeWebContainer) :
    gate (exposeWindow env c) =
      (true, 0, c.exposedWoken + c.exposedWaiters, c.m_context, contextCalls c) := by
  unfold exposeWindow
  dsimp only
  split <;>
    simp [gate, contextCalls, record, List.filter_append, isContextCall]

theorem gate_eventFilter (env : Env) (c : DeclarativeWebContainer) (event : QEventType) :
    gate (eventFilter env c event).2 =
      if event = QEventType.Expose ∧ env.windowExposed = true ∧ c.m_hasBeenExposed = false then
        (true, 0, c.exposedWoken + c.exposedWaiters, c.m_context, contextCalls c)
      else gate c := by
  unfold eventFilter
  by_cases he : event = QEventType.Expose
  · subst he
    by_cases hw : env.windowExposed = true <;> by_cases hf : c.m_hasBeenExposed = true <;>
      simp [hw, hf, gate_exposeChrome, gate_exposeWindow] <;>
      split <;> simp [gate_exposeChrome]
  · simp only [he, false_and, if_false]
    have hne : (event == QEventType.Expose) = false := by simpa using he
    simp only [hne, Bool.false_eq_true, if_false]
    split
    · split <;> simp [gate_exposeChrome]
    · simp [gate_exposeChrome]

theorem gate_createGLContextBody (c : DeclarativeWebContainer) :
    gate (createGLContextBody c) =
      (c.m_hasBeenExposed, c.exposedWaiters, c.exposedWoken, true,
        contextCalls c ++
          (if c.m_context then [Event.gl GLCall.contextMakeCurrent]
           else [Event.gl GLCall.contextCreate, Event.gl GLCall.contextMakeCurrent])) := by
  unfold createGLContextBody
  cases hc : c.m_context <;>
    simp [gate, contextCalls, record, List.filter_append, isContextCall, hc]


theorem gate_eq_iff (c c' : DeclarativeWebContainer) :
    gate c' = gate c ↔
      c'.m_hasBeenExposed = c.m_hasBeenExposed ∧ c'.exposedWaiters = c.exposedWaiters ∧
      c'.exposedWoken = c.exposedWoken ∧ c'.m_context = c.m_context ∧
      contextCalls c' = contextCalls c := by
  simp [gate]

/-- What a step does to the exposed flag, the woken threads, the context and the context
calls, operation by operation. -/
theorem step_exposure {env : Env} {c c' : DeclarativeWebContainer} {op : Op}
    (h : step env c op = some c') :
    (c'.m_hasBeenExposed = c.m_hasBeenExposed ∨
      (c'.m_hasBeenExposed = true ∧ op = Op.eventFilter QEventType.Expose ∧
        env.windowExposed = true)) ∧
    (0 < c'.exposedWoken → 0 < c.exposedWoken ∨ c'.m_hasBeenExposed = true) ∧
    ((c'.m_context ≠ c.m_context ∨ contextCalls c' ≠ contextCalls c) →
      c.m_hasBeenExposed = true ∨ 0 < c.exposedWoken) := by
  by_cases hop : isGateOp op = false
  · have hg := (gate_eq_iff c c').1 (step_gate h hop)
    obtain ⟨h1, _, h3, h4, h5⟩ := hg
    refine ⟨Or.inl h1, fun hw => Or.inl (by omega), ?_⟩
    rintro (hc | hc)
    · exact absurd h4 hc
    · exact absurd h5 hc
  · cases op with
    | eventFilter event =>
      simp only [step, Option.some.injEq] at h
      subst h
      have hg := gate_eventFilter env c event
      split at hg
      · rename_i hcond
        obtain ⟨he, hw, hf⟩ := hcond
        simp only [gate, Prod.mk.injEq] at hg
        obtain ⟨h1, _, h3, h4, h5⟩ := hg
        refine ⟨Or.inr ⟨h1, by rw [he], hw⟩, fun _ => Or.inr h1, ?_⟩
        rintro (hc | hc)
        · exact absurd h4 hc
        · exact absurd h5 hc
      · obtain ⟨h1, _, h3, h4, h5⟩ := (gate_eq_iff _ _).1 hg
        refine ⟨Or.inl h1, fun hw => Or.inl (by omega), ?_⟩
        rintro (hc | hc)
        · exact absurd h4 hc
        · exact absurd h5 hc
    | createGLContext =>
      simp only [step, Option.some.injEq] at h
      subst h
      by_cases hf : c.m_hasBeenExposed = true
      · have he : createGLContext c = createGLContextBody c := by
          simp [createGLContext, hf]
        have hb := gate_createGLContextBody c
        simp only [gate, Prod.mk.injEq] at hb
        rw [he]
        exact ⟨Or.inl hb.1, fun hw => Or.inl (by omega), fun _ => Or.inl hf⟩
      · have he : createGLContext c = { c with exposedWaiters := c.exposedWaiters + 1 } := by
          simp [createGLContext, hf]
        rw [he]
        refine ⟨Or.inl rfl, fun hw => Or.inl hw, ?_⟩
        rintro (hc | hc)
        · exact absurd rfl hc
        · exact absurd rfl hc
    | createGLContextResume =>
      simp only [step, Option.some.injEq] at h
      subst h
      by_cases hw : 0 < c.exposedWoken
      · have he : createGLContextResume c =
            createGLContextBody { c with exposedWoken := c.exposedWoken - 1 } := by
          simp [createGLContextResume, hw]
        have hb := gate_createGLContextBody { c with exposedWoken := c.exposedWoken - 1 }
        simp only [gate, Prod.mk.injEq] at hb
        rw [he]
        exact ⟨Or.inl hb.1, fun _ => Or.inl hw, fun _ => Or.inr hw⟩
      · have he : createGLContextResume c = c := by
          simp [createGLContextResume, hw]
        rw [he]
        refine ⟨Or.inl rfl, fun hw' => Or.inl hw', ?_⟩
        rintro (hc | hc)
        · exact absurd rfl hc
        · exact absurd rfl hc
    | _ => exact absurd rfl hop

theorem wokenAfterExposure_step {env : Env} {c c' : DeclarativeWebContainer} {op : Op}
    (h : step env c op = some c') (hinv : WokenAfterExposure c) : WokenAfterExposure c' := by
  obtain ⟨h1, h2, _⟩ := step_exposure h
  intro hw
  rcases h2 hw with hw0 | hf
  · rcases h1 with h1 | h1
    · rw [h1]; exact hinv hw0
    · exact h1.1
  · exact hf

theorem wokenAfterExposure_run {c c' : DeclarativeWebContainer} (ops : List (Env × Op))
    (h : run c ops = some c') (hinv : WokenAfterExposure c) : WokenAfterExposure c' := by
  induction ops generalizing c with
  | nil => simp only [run, Option.some.injEq] at h; rw [← h]; exact hinv
  | cons x rest ih =>
    obtain ⟨env, op⟩ := x
    simp only [run] at h
    split at h
    · rename_i c1 h1
      exact ih h (wokenAfterExposure_step h1 hinv)
    · cases h

theorem create_gate (autostartPrivateBrowsing : Bool) (capacity : Int) :
    gate (create autostartPrivateBrowsing capacity) = (false, 0, 0, false, []) := by
  cases autostartPrivateBrowsing <;> rfl

theorem wokenAfterExposure_reachable {c : DeclarativeWebContainer} (h : Reachable c) :
    WokenAfterExposure c := by
  obtain ⟨a, cap, ops, hrun⟩ := h
  refine wokenAfterExposure_run ops hrun ?_
  intro hw
  have hg := create_gate a cap
  simp only [gate, Prod.mk.injEq] at hg
  omega

end DeclarativeWebContainer
end SailfishBrowser

/-! ## Start-up, loading, activation and navigation -/

namespace SailfishBrowser
namespace DeclarativeWebContainer

/-- C1. The URL buffered by `load()` is replayed exactly once. Take a call of
`initialize()` that passes its guards (`canInitialize()` holds, not yet initialized) and
does not take the clear-history reload path. The call returns when the model has no tabs at
the load test or the page of the active tab is available. When it returns, the container
is initialized; with a pending URL the call has added exactly one initial load (`newTab` or
`loadTab`) to the trace and that load carries the pending URL; and after any further
sequence of `initialize()` and `load()` calls every `initialize()` call returns the state
unchanged, so it issues no load. -/
theorem initialize_replays_pending_url_once (env : Env) (c : DeclarativeWebContainer)
    (hcan : canInitialize env c = true) (hinit : c.m_initialized = false)
    (hclear : clearHistoryReload env c = false) :
    (initialLoadReturns env c = true → ∃ c', initializeContainer env c = some c') ∧
    (∀ c', initializeContainer env c = some c' →
      c'.m_initialized = true ∧
      (c.m_initialUrl.isEmpty = false →
        ∃ e, initialLoads c' = initialLoads c ++ [e] ∧ loadUrl e = some c.m_initialUrl) ∧
      (∀ (calls : List (Env × Op)) (c'' : DeclarativeWebContainer),
        (∀ x ∈ calls, isStartupCall x.2 = true) → run c' calls = some c'' →
          ∀ env2, initializeContainer env2 c'' = some c'')) := by
  refine ⟨initializeContainer_returns hcan hinit hclear, ?_⟩
  intro c' hrun
  obtain ⟨m, hm, _⟩ := canInitialize_model hcan
  obtain ⟨c2, heq, hl2, hu2, hm2, hp2, hc2⟩ := initializeContainer_eq hm hcan hinit hclear
  rw [heq] at hrun
  cases h3 : initialLoad env c2 (modelAtLoadTest env m) with
  | none => simp [h3] at hrun
  | some c3 =>
    simp only [h3, Option.some.injEq] at hrun
    subst hrun
    refine ⟨rfl, ?_, ?_⟩
    · intro hpend
      rw [initialLoads_finishInitialize]
      by_cases h0 : (modelAtLoadTest env m).count = 0
      · obtain ⟨c3', hc3', hl⟩ := initialLoad_no_tabs env c2 h0
        rw [h3] at hc3'
        cases hc3'
        rw [hl, hl2, hu2]
        simp [hpend, loadUrl]
      · obtain ⟨t, hl, _⟩ := initialLoad_tabs (Nat.pos_of_ne_zero h0) h3
        rw [hl, hl2, hu2]
        simp [hpend, loadUrl]
    · intro calls c'' hcalls hrun2 env2
      exact initializeContainer_of_initialized env2 c''
        (run_startup_initialized calls hcalls rfl hrun2)

/-- Witness of C1: the container with one tab and the pending URL "http://sailfishos.org";
`initialize()` returns, has loaded that URL once, and an `initialize()` after a further
`load()` changes nothing. -/
theorem initialize_replays_pending_url_once_witness :
    (∃ c', initializeContainer startupEnv pendingContainer = some c') ∧
    pendingContainerStarted.m_initialized = true ∧
    initialLoads pendingContainerStarted =
      [Event.page 1 (PageCall.loadTab "http://sailfishos.org" true)] ∧
    initializeContainer startupEnv
      (load coldEnv pendingContainerStarted "http://jolla.com" "" false) =
      some (load coldEnv pendingContainerStarted "http://jolla.com" "" false) :=
  have h := initialize_replays_pending_url_once startupEnv pendingContainer
    (by decide) (by decide) (by decide)
  have h2 := h.2 pendingContainerStarted (by decide)
  ⟨h.1 (by decide), h2.1, by decide,
    h2.2.2 [(coldEnv, Op.load "http://jolla.com" "" false)] _
      (by simp [isStartupCall]) rfl startupEnv⟩

/-- C2. In a state with no completed active page in which `canInitialize()` is false,
`load(url)` only stores the normalised URL as the pending initial URL (nothing is recorded
in the trace, no model or pool changes), and a second `load` in such a state overwrites
the first: last write wins. -/
theorem load_buffers_last_url (env env2 : Env) (c : DeclarativeWebContainer)
    (url title url2 title2 : String) (force force2 : Bool)
    (hpage : completedPage c = none) (hcan : canInitialize env c = false)
    (hcan2 : canInitialize env2 c = false) :
    load env c url title force = { c with m_initialUrl := normalizeUrl url } ∧
    load env2 (load env c url title force) url2 title2 force2 =
      { c with m_initialUrl := normalizeUrl url2 } := by
  have h1 : ∀ (e : Env) (d : DeclarativeWebContainer) (u t : String) (f : Bool),
      completedPage d = none → canInitialize e d = false →
      load e d u t f = { d with m_initialUrl := normalizeUrl u } := by
    intro e d u t f hp hc
    unfold load
    simp [hp, hc, normalizeUrl, blankPage]
  refine ⟨h1 env c url title force hpage hcan, ?_⟩
  rw [h1 env c url title force hpage hcan]
  exact h1 env2 { c with m_initialUrl := normalizeUrl url } url2 title2 force2 hpage hcan2

/-- Witness of C2: before the engine is initialized, an empty URL and then a real URL are
requested; the pending URL is the second one. -/
theorem load_buffers_last_url_witness :
    (load coldEnv (load coldEnv pendingContainer "" "" false) "http://jolla.com" "" false) =
      { pendingContainer with m_initialUrl := "http://jolla.com" } :=
  (load_buffers_last_url coldEnv coldEnv pendingContainer "" "" "http://jolla.com" ""
    false false (by decide) (by decide) (by decide)).2

/-- C3. What `initialize()` loads once its guards have passed and the clear-history reload
path is not taken. With tabs in the model a call that returns has issued one initial load,
`loadTab` on a page, with the pending URL when there is one and the tab's own URL
otherwise; the page is the page of the model's active tab (same tab id) when a page
component has been supplied and the active tab is valid, so that the activation of that
tab goes through; and the call does return when the page of the active tab is available.
Without tabs the call returns and has opened a new tab iff first use is done or a URL is
pending, with the pending URL when there is one and the home page otherwise, and with an
empty title. -/
theorem initialize_loads_pending_or_active (env : Env) (c : DeclarativeWebContainer)
    (m : DeclarativeTabModel) (hm : tabModel c = some m)
    (hcan : canInitialize env c = true) (hinit : c.m_initialized = false)
    (hclear : clearHistoryReload env c = false) :
    (0 < (modelAtLoadTest env m).count →
      (pageAvailable c (modelAtLoadTest env m).activeTab = true →
        ∃ c', initializeContainer env c = some c') ∧
      ∀ c', initializeContainer env c = some c' →
        ∃ t, initialLoads c' = initialLoads c ++
            [Event.page t
              (PageCall.loadTab
                (if c.m_initialUrl.isEmpty then (modelAtLoadTest env m).activeTab.url
                 else c.m_initialUrl) true)] ∧
          (c.m_webPageComponent = true → 0 < (modelAtLoadTest env m).activeTab.tabId →
            t = (modelAtLoadTest env m).activeTab.tabId)) ∧
    ((modelAtLoadTest env m).count = 0 →
      ∃ c', initializeContainer env c = some c' ∧
        initialLoads c' = initialLoads c ++
          (if env.firstUseDone || !c.m_initialUrl.isEmpty then
            [Event.model (ModelCall.newTab
              (if c.m_initialUrl.isEmpty then env.homePage else c.m_initialUrl) "")]
           else [])) := by
  obtain ⟨c2, heq, hl2, hu2, hm2, hp2, hc2⟩ := initializeContainer_eq hm hcan hinit hclear
  constructor
  · intro h0
    constructor
    · intro ha
      apply initializeContainer_returns hcan hinit hclear
      unfold initialLoadReturns
      simp [hm, ha]
    · intro c' hrun
      rw [heq] at hrun
      cases h3 : initialLoad env c2 (modelAtLoadTest env m) with
      | none => simp [h3] at hrun
      | some c3 =>
        simp only [h3, Option.some.injEq] at hrun
        subst hrun
        rw [initialLoads_finishInitialize]
        obtain ⟨t, hl, hg⟩ := initialLoad_tabs h0 h3
        refine ⟨t, by rw [hl, hl2, hu2], ?_⟩
        intro hcomp htab
        have h3' := h3
        unfold initialLoad at h3'
        have hne : ((modelAtLoadTest env m).count == 0) = false := by simp; omega
        simp only [hne, Bool.false_and, Bool.false_eq_true, if_false, h0, if_true] at h3'
        obtain ⟨p, hp⟩ := loadTab_pool hm2 h3'
        exact hg (activationGuard_forced hm2 hp (by rw [hc2]; exact hcomp) htab)
  · intro h0
    obtain ⟨c3, hc3, hl⟩ := initialLoad_no_tabs env c2 h0
    refine ⟨finishInitialize c3, by rw [heq, hc3], ?_⟩
    rw [initialLoads_finishInitialize, hl, hl2, hu2]

/-- Witness of C3: with the tab of "http://www.jolla.com" active and
"http://sailfishos.org" pending, the page of tab 1 is told to load the pending URL. -/
theorem initialize_loads_pending_or_active_witness :
    initialLoads pendingContainerStarted = initialLoads pendingContainer ++
      [Event.page (modelAtLoadTest startupEnv oneTabModel).activeTab.tabId
        (PageCall.loadTab
          (if pendingContainer.m_initialUrl.isEmpty then
            (modelAtLoadTest startupEnv oneTabModel).activeTab.url
           else pendingContainer.m_initialUrl) true)] :=
  Exists.elim
    (((initialize_loads_pending_or_active startupEnv pendingContainer oneTabModel
      (by decide) (by decide) (by decide) (by decide)).1 (by decide)).2
      pendingContainerStarted (by decide))
    (fun _ h => (h.2 (by decide) (by decide)) ▸ h.1)

/-- C4. `canInitialize()` holds exactly when the engine runtime and the download manager
report initialized, a tab model is set and that model is loaded; and when it does not
hold, `initialize()` returns the state as it is: no field of the container, no model, and
no entry of the trace changes. -/
theorem canInitialize_iff_ready (env : Env) (c : DeclarativeWebContainer) :
    (canInitialize env c = true ↔
      env.mozContextInitialized = true ∧ env.downloadManagerInitialized = true ∧
        ∃ m, tabModel c = some m ∧ m.loaded = true) ∧
    (canInitialize env c = false → initializeContainer env c = some c) := by
  constructor
  · unfold canInitialize
    cases hm : tabModel c with
    | none => simp
    | some m => simp [and_assoc]
  · exact initializeContainer_of_not_can env c

/-- Witness of C4: before the engine runtime is initialized `initialize()` does nothing. -/
theorem canInitialize_iff_ready_witness :
    canInitialize coldEnv pendingContainer = false ∧
    initializeContainer coldEnv pendingContainer = some pendingContainer :=
  ⟨by decide, (canInitialize_iff_ready coldEnv pendingContainer).2 (by decide)⟩

/-- C6, as the code has it. `activatePage` changes the active page only under its guard: a
model is set, the model is loaded or the call is forced, the tab id is positive and the
pool is initialized. Otherwise the call (which returns whenever the pool exists) returns
false and leaves the active page and the tab id as they are. The same holds for `loadTab`
and `reload`, which always force the activation. -/
theorem activatePage_changes_page_only_under_guard (c : DeclarativeWebContainer) (tab : Tab) :
    (∀ (force : Bool) (parentId : Int), c.m_webPages.isSome = true →
      activationGuard c tab force = false →
      ∃ c', activatePage c tab force parentId = some (false, c')) ∧
    (∀ (force b : Bool) (parentId : Int) (c' : DeclarativeWebContainer),
      activatePage c tab force parentId = some (b, c') →
      activationGuard c tab force = false →
      b = false ∧ webPage c' = webPage c ∧ c'.m_tabId = c.m_tabId) ∧
    (∀ (force : Bool) (c' : DeclarativeWebContainer),
      loadTab c tab force = some c' → activationGuard c tab true = false →
      webPage c' = webPage c ∧ c'.m_tabId = c.m_tabId) ∧
    (∀ (force : Bool) (m : DeclarativeTabModel) (c' : DeclarativeWebContainer),
      tabModel c = some m → reload c force = some c' →
      activationGuard c m.activeTab true = false →
      webPage c' = webPage c ∧ c'.m_tabId = c.m_tabId) := by
  refine ⟨?_, ?_, ?_, ?_⟩
  · intro force parentId hp hg
    obtain ⟨p, hp⟩ := Option.isSome_iff_exists.1 hp
    unfold activationGuard at hg
    unfold activatePage
    cases hm : tabModel c with
    | none => exact ⟨c, rfl⟩
    | some m =>
      simp only [hm, hp] at hg
      simp only [hp, hg, Bool.false_eq_true, if_false]
      exact ⟨_, rfl⟩
  · intro force b parentId c' h hg
    exact activatePage_unguarded h hg
  · intro force c' h hg
    exact loadTab_unguarded h hg
  · intro force m c' hm h hg
    unfold reload at h
    split at h
    · split at h
      · split at h
        · cases h; exact ⟨rfl, rfl⟩
        · simp only [hm] at h
          exact loadTab_unguarded h hg
      · simp only [hm] at h
        exact loadTab_unguarded h hg
    · cases h; exact ⟨rfl, rfl⟩

/-- Witness of C6 as amended: without a page component the pool is not initialized, and
the forced activation of tab 1 returns false and leaves the container without a page. -/
theorem activatePage_changes_page_only_under_guard_witness :
    unconfiguredActivation.1 = false ∧
    webPage unconfiguredActivation.2 = webPage (create false 5) ∧
    unconfiguredActivation.2.m_tabId = (create false 5).m_tabId :=
  (activatePage_changes_page_only_under_guard (create false 5) jollaTab).2.1 true
    unconfiguredActivation.1 0 unconfiguredActivation.2 (by decide) (by decide)

/-- Counterexample to C6 as stated: the model is set but not loaded, and the forced
activation of tab 1 still makes the page of tab 1 the active page. -/
theorem activatePage_forced_counterexample :
    (tabModel unloadedContainer).map (fun m => m.loaded) = some false ∧
    webPage unloadedContainer = none ∧
    (activatePage unloadedContainer jollaTab true 0).map
        (fun r => (r.1, webPage r.2, r.2.m_tabId)) =
      some (true, some (WebPage.fresh 1 0), 1) := by
  decide

/-- C7. `goBack()` sends the persistence request for the tab of the active page followed by
the page's own `goBack` when an active page exists and reports `canGoBack`, and is the
identity on the state otherwise; `goForward()` is symmetric; and the container's
`canGoBack()`/`canGoForward()` hold exactly when an active page exists and reports them,
so both are false without an active page. -/
theorem goBack_goForward_need_history (c : DeclarativeWebContainer) :
    (∀ pg, webPage c = some pg → pg.canGoBack = true →
      goBack c =
        { c with log := c.log ++ [Event.dbGoBack pg.tabId, Event.page pg.tabId PageCall.goBack] }) ∧
    (canGoBack c = false → goBack c = c) ∧
    (∀ pg, webPage c = some pg → pg.canGoForward = true →
      goForward c =
        { c with log := c.log ++
            [Event.dbGoForward pg.tabId, Event.page pg.tabId PageCall.goForward] }) ∧
    (canGoForward c = false → goForward c = c) ∧
    (canGoBack c = true ↔ ∃ pg, webPage c = some pg ∧ pg.canGoBack = true) ∧
    (canGoForward c = true ↔ ∃ pg, webPage c = some pg ∧ pg.canGoForward = true) ∧
    (webPage c = none → canGoBack c = false ∧ canGoForward c = false) := by
  unfold goBack goForward canGoBack canGoForward
  cases hw : webPage c with
  | none => simp
  | some pg =>
    cases hb : pg.canGoBack <;> cases hf : pg.canGoForward <;> simp [hb, hf, record]

/-- Witness of C7: the page of tab 1 has history behind it and none ahead; `goBack()`
sends the two requests for tab 1 and `goForward()` does nothing. -/
theorem goBack_goForward_need_history_witness :
    goBack browsingContainer =
      { browsingContainer with
        log := browsingContainer.log ++ [Event.dbGoBack 1, Event.page 1 PageCall.goBack] } ∧
    goForward browsingContainer = browsingContainer :=
  ⟨(goBack_goForward_need_history browsingContainer).1
      ⟨1, 0, true, true, false, false, 100, "http://sailfishos.org", "Sailfish OS", true⟩
      (by decide) (by decide),
    (goBack_goForward_need_history browsingContainer).2.2.2.1 (by decide)⟩

end DeclarativeWebContainer
end SailfishBrowser

/-! ## The exposure gate -/

namespace SailfishBrowser
namespace DeclarativeWebContainer

/-- C8. The window-exposed flag is one-shot. It is false after construction. No operation
of the container resets it: a step from a state in which it is true ends in a state in
which it is true. A step makes it true only when the step is the event filter handling an
Expose event while the window is exposed. Once it is true, handling an Expose event
returns the state as it is, so no temporary context is created and no waiter is woken;
hence handling two Expose events, the first on the exposed window, leaves the same state
as handling the first alone. -/
theorem exposed_flag_is_one_shot (env env2 : Env) (c c' : DeclarativeWebContainer) (op : Op)
    (autostartPrivateBrowsing : Bool) (capacity : Int) :
    (create autostartPrivateBrowsing capacity).m_hasBeenExposed = false ∧
    (step env c op = some c' → c.m_hasBeenExposed = true → c'.m_hasBeenExposed = true) ∧
    (step env c op = some c' → c.m_hasBeenExposed = false → c'.m_hasBeenExposed = true →
      op = Op.eventFilter QEventType.Expose ∧ env.windowExposed = true) ∧
    (c.m_hasBeenExposed = true → (eventFilter env c QEventType.Expose).2 = c) ∧
    (env.windowExposed = true →
      (eventFilter env2 (eventFilter env c QEventType.Expose).2 QEventType.Expose).2 =
        (eventFilter env c QEventType.Expose).2) := by
  have hstay : ∀ (e : Env) (d : DeclarativeWebContainer), d.m_hasBeenExposed = true →
      (eventFilter e d QEventType.Expose).2 = d := by
    intro e d hd
    unfold eventFilter exposeChrome
    by_cases hw : e.windowExposed = true <;> by_cases ha : d.m_allowHiding = true <;>
      simp [hd, hw, ha]
  refine ⟨?_, ?_, ?_, hstay env c, ?_⟩
  · have hg := create_gate autostartPrivateBrowsing capacity
    simp only [gate, Prod.mk.injEq] at hg
    exact hg.1
  · intro h hf
    rcases (step_exposure h).1 with h1 | h1
    · rw [h1]; exact hf
    · exact h1.1
  · intro h hf hf'
    rcases (step_exposure h).1 with h1 | h1
    · rw [h1, hf] at hf'; cases hf'
    · exact h1.2
  · intro hw
    apply hstay
    have hg := gate_eventFilter env c QEventType.Expose
    by_cases hf : c.m_hasBeenExposed = true
    · rw [hstay env c hf]; exact hf
    · simp only [Bool.not_eq_true] at hf
      simp only [hw, hf, and_self, if_true, gate, Prod.mk.injEq] at hg
      exact hg.1

/-- Witness of C8: the first Expose event on the exposed window sets the flag, and a later
Expose event while the window is hidden leaves it set. -/
theorem exposed_flag_is_one_shot_witness :
    (Op.eventFilter QEventType.Expose = Op.eventFilter QEventType.Expose ∧
      startupEnv.windowExposed = true) ∧
    (eventFilter hiddenEnv exposedContainer QEventType.Expose).2.m_hasBeenExposed = true :=
  ⟨(exposed_flag_is_one_shot startupEnv hiddenEnv (create false 5) exposedContainer
      (Op.eventFilter QEventType.Expose) false 5).2.2.1 rfl (by decide) (by decide),
    (exposed_flag_is_one_shot hiddenEnv hiddenEnv exposedContainer
      (eventFilter hiddenEnv exposedContainer QEventType.Expose).2
      (Op.eventFilter QEventType.Expose) false 5).2.1 rfl (by decide)⟩

/-- C9. `createGLContext()` goes on to the context without waiting when the exposed flag
is set; otherwise the calling thread only becomes a waiter on the condition variable, and
nothing is done to the context. In every state reached from construction, a step that
creates the context or makes it current (the context pointer changes or a context call is
added to the trace) starts from a state in which the exposed flag is true. -/
theorem createGLContext_waits_for_exposure (env : Env) (c c' : DeclarativeWebContainer)
    (op : Op) :
    (c.m_hasBeenExposed = true → createGLContext c = createGLContextBody c) ∧
    (c.m_hasBeenExposed = false →
      createGLContext c = { c with exposedWaiters := c.exposedWaiters + 1 }) ∧
    (Reachable c → step env c op = some c' →
      (c'.m_context ≠ c.m_context ∨ contextCalls c' ≠ contextCalls c) →
      c.m_hasBeenExposed = true) := by
  refine ⟨?_, ?_, ?_⟩
  · intro hf
    simp [createGLContext, hf]
  · intro hf
    simp [createGLContext, hf]
  · intro hr h hc
    rcases (step_exposure h).2.2 hc with hf | hw
    · exact hf
    · exact wokenAfterExposure_reachable hr hw

/-- Witness of C9: a thread asked for the context before the exposure and was woken by the
Expose handler; when it continues it creates the context and makes it current, and the
flag is true at that step. -/
theorem createGLContext_waits_for_exposure_witness :
    contextCalls (createGLContextResume wokenContainer) =
      [Event.gl GLCall.contextCreate, Event.gl GLCall.contextMakeCurrent] ∧
    wokenContainer.m_hasBeenExposed = true :=
  ⟨by decide,
    (createGLContext_waits_for_exposure startupEnv wokenContainer
      (createGLContextResume wokenContainer) Op.createGLContextResume).2.2
      ⟨false, 5,
        [(startupEnv, Op.createGLContext), (startupEnv, Op.eventFilter QEventType.Expose)],
        rfl⟩
      rfl (Or.inl (by decide))⟩

end DeclarativeWebContainer
end SailfishBrowser

/-! ## The URL filter of the tab store -/

namespace SailfishBrowser

theorem navigable_normalizeUrl (url : String) : navigable (normalizeUrl url) = navigable url := by
  unfold normalizeUrl
  split
  · rename_i h
    rw [(String.isEmpty_iff url).1 h]
    decide
  · rfl

theorem normalizeUrl_of_not_navigable {url : String} (h : navigable url = false) :
    normalizeUrl url = url := by
  unfold normalizeUrl
  split
  · rename_i he
    rw [(String.isEmpty_iff url).1 he] at h
    exact absurd h (by decide)
  · rfl

theorem count_createTab (m : DeclarativeTabModel) (url title : String) (load : Bool) :
    (m.createTab url title load).count = m.count + (if navigable url then 1 else 0) := by
  unfold DeclarativeTabModel.createTab DeclarativeTabModel.count
  split <;> simp

theorem count_apply (m : DeclarativeTabModel) (call : StoreCall) :
    (call.apply m).count = m.count + (if navigable call.url then 1 else 0) := by
  cases call <;>
    simp only [StoreCall.apply, StoreCall.url, DeclarativeTabModel.newTab,
      DeclarativeTabModel.addTab, count_createTab, navigable_normalizeUrl]

theorem count_applyAll (m : DeclarativeTabModel) (calls : List StoreCall) :
    (StoreCall.applyAll m calls).count =
      m.count + (calls.filter (fun call => navigable call.url)).length := by
  induction calls generalizing m with
  | nil => simp [StoreCall.applyAll]
  | cons call rest ih =>
    have h := ih (call.apply m)
    simp only [StoreCall.applyAll, List.foldl_cons] at h ⊢
    rw [h, count_apply, List.filter_cons]
    split
    · simp; omega
    · simp

/-- C10. For a URL recognised by one of the non-navigable scheme prefixes (tel:, sms:,
mailto:, geo:), `addTab(url, title)` returns the store as it is, so `count()` is unchanged
and neither `countChanged` nor `activeTabChanged` (nor anything else) is fired; and after
any sequence of `newTab`/`addTab` calls from the empty store `count()` is the number of
calls whose URL is navigable. -/
theorem addTab_filters_non_navigable (m : DeclarativeTabModel) (url title : String)
    (calls : List StoreCall) :
    ((∃ scheme ∈ nonNavigableSchemes, hasScheme scheme url = true) →
      m.addTab url title = m ∧ (m.addTab url title).count = m.count ∧
        (m.addTab url title).fired = m.fired) ∧
    (StoreCall.applyAll DeclarativeTabModel.empty calls).count =
      (calls.filter (fun call => navigable call.url)).length := by
  constructor
  · intro hs
    have hn : navigable url = false := by
      obtain ⟨scheme, hmem, hpre⟩ := hs
      unfold navigable
      simp only [Bool.not_eq_false', List.any_eq_true]
      exact ⟨scheme, hmem, hpre⟩
    have he : m.addTab url title = m := by
      unfold DeclarativeTabModel.addTab DeclarativeTabModel.createTab
      simp [hn]
    rw [he]
    exact ⟨rfl, rfl, rfl⟩
  · rw [count_applyAll]
    simp [DeclarativeTabModel.empty, DeclarativeTabModel.count]

/-- Witness of C10: the telephone URL of the test leaves the one-tab store as it is, and
of three calls from the empty store the two navigable ones are counted. -/
theorem addTab_filters_non_navigable_witness :
    DeclarativeWebContainer.oneTabModel.addTab "tel:+123456798" "tel" = DeclarativeWebContainer.oneTabModel ∧
    (StoreCall.applyAll DeclarativeTabModel.empty
      [StoreCall.addTab "tel:+123456798" "tel",
       StoreCall.addTab "http://sailfishos.org" "SailfishOS.org",
       StoreCall.newTab "" ""]).count = 2 :=
  have h := addTab_filters_non_navigable DeclarativeWebContainer.oneTabModel "tel:+123456798" "tel"
    [StoreCall.addTab "tel:+123456798" "tel",
     StoreCall.addTab "http://sailfishos.org" "SailfishOS.org",
     StoreCall.newTab "" ""]
  ⟨(h.1 ⟨"tel:", by decide, by decide⟩).1, h.2.trans (by decide)⟩

end SailfishBrowser

/-! ## Invariants of the tab store -/

namespace SailfishBrowser
namespace DeclarativeTabModel

/-- With unique tab ids the lookup by the id of a listed tab finds that tab. -/
theorem find_of_nodup_tabs (tabs : List Tab) (hnodup : (tabs.map (fun t => t.tabId)).Nodup)
    {j : Nat} {n : Tab} (h : tabs.get? j = some n) :
    tabs.find? (fun t => t.tabId == n.tabId) = some n := by
  induction tabs generalizing j with
  | nil => cases h
  | cons a rest ih =>
    rw [List.map_cons, List.nodup_cons] at hnodup
    cases j with
    | zero =>
      simp only [List.get?_cons_zero, Option.some.injEq] at h
      subst h
      simp [List.find?_cons]
    | succ k =>
      simp only [List.get?_cons_succ] at h
      have hmem : n.tabId ∈ rest.map (fun t => t.tabId) :=
        List.mem_map.2 ⟨n, List.get?_mem h, rfl⟩
      have hne : (a.tabId == n.tabId) = false := by
        simp only [beq_eq_false_iff_ne, ne_eq]
        intro he
        exact hnodup.1 (he ▸ hmem)
      simp only [List.find?_cons, hne]
      exact ih hnodup.2 h

/-- A found record is one of the records and carries the id asked for. -/
theorem linkRecord_mem {m : DeclarativeTabModel} {l : Int} {r : HistoryRecord}
    (h : m.linkRecord l = some r) : r ∈ m.links ∧ r.linkId = l := by
  unfold linkRecord at h
  refine ⟨List.mem_of_find?_eq_some h, ?_⟩
  have := List.find?_some h
  simpa using this

/-- With unique link ids every record is found under its id. -/
theorem linkRecord_of_mem (links : List HistoryRecord)
    (hnodup : (links.map (fun r => r.linkId)).Nodup) {r : HistoryRecord} (hr : r ∈ links) :
    links.find? (fun x => x.linkId == r.linkId) = some r := by
  induction links with
  | nil => cases hr
  | cons a rest ih =>
    rw [List.map_cons, List.nodup_cons] at hnodup
    rcases List.mem_cons.1 hr with h | h
    · subst h
      simp [List.find?_cons]
    · have hne : (a.linkId == r.linkId) = false := by
        simp only [beq_eq_false_iff_ne, ne_eq]
        intro he
        exact hnodup.1 (he ▸ List.mem_map.2 ⟨r, h, rfl⟩)
      simp only [List.find?_cons, hne]
      exact ih hnodup.2 h

/-- A forward pointer that is not 0 is the id of a record of the tab with that parent. -/
theorem forwardLink_mem {m : DeclarativeTabModel} {tabId q n : Int}
    (h : m.forwardLink tabId q = n) (hn : n ≠ 0) :
    ∃ r ∈ m.links, r.linkId = n ∧ r.tabId = tabId ∧ r.parentLinkId = q := by
  unfold forwardLink at h
  split at h
  · rename_i r hr
    have hmem : r ∈ m.links := List.mem_reverse.1 (List.mem_of_find?_eq_some hr)
    have hp := List.find?_some hr
    simp only [Bool.and_eq_true, beq_iff_eq] at hp
    exact ⟨r, hmem, h, hp.1, hp.2⟩
  · exact absurd h.symm hn

/-- No record with the given parent: no forward pointer. -/
theorem forwardLink_eq_zero {m : DeclarativeTabModel} {tabId q : Int}
    (h : ∀ r ∈ m.links, r.parentLinkId ≠ q) : m.forwardLink tabId q = 0 := by
  unfold forwardLink
  split
  · rename_i r hr
    have hmem : r ∈ m.links := List.mem_reverse.1 (List.mem_of_find?_eq_some hr)
    have hp := List.find?_some hr
    simp only [Bool.and_eq_true, beq_iff_eq] at hp
    exact absurd hp.2 (h r hmem)
  · rfl

/-- Records found before an append are found after it. -/
theorem find_links_append {links : List HistoryRecord} {l : Int} {r : HistoryRecord}
    (x : HistoryRecord) (h : links.find? (fun y => y.linkId == l) = some r) :
    (links ++ [x]).find? (fun y => y.linkId == l) = some r := by
  rw [List.find?_append, h]
  rfl

/-- The appended record is found under its id when the id is new. -/
theorem find_links_new {links : List HistoryRecord} (x : HistoryRecord)
    (h : ∀ r ∈ links, r.linkId ≠ x.linkId) :
    (links ++ [x]).find? (fun y => y.linkId == x.linkId) = some x := by
  have hnone : links.find? (fun y => y.linkId == x.linkId) = none := by
    rw [List.find?_eq_none]
    intro r hr
    simpa using h r hr
  rw [List.find?_append, hnone]
  simp

/-- The forward pointer after an append of a record that is no answer. -/
theorem forward_append_other {links : List HistoryRecord} (x : HistoryRecord) (tabId q : Int)
    (h : ¬ (x.tabId = tabId ∧ x.parentLinkId = q)) :
    (links ++ [x]).reverse.find? (fun r => r.tabId == tabId && r.parentLinkId == q) =
      links.reverse.find? (fun r => r.tabId == tabId && r.parentLinkId == q) := by
  rw [List.reverse_append]
  simp only [List.reverse_cons, List.reverse_nil, List.nil_append, List.singleton_append,
    List.find?_cons]
  have : (x.tabId == tabId && x.parentLinkId == q) = false := by
    cases hb : (x.tabId == tabId && x.parentLinkId == q) with
    | false => rfl
    | true =>
      simp only [Bool.and_eq_true, beq_iff_eq] at hb
      exact absurd hb h
  rw [this]

/-- The forward pointer after an append of a record that is the answer. -/
theorem forward_append_new {links : List HistoryRecord} (x : HistoryRecord) :
    (links ++ [x]).reverse.find? (fun r => r.tabId == x.tabId && r.parentLinkId == x.parentLinkId) =
      some x := by
  rw [List.reverse_append]
  simp [List.find?_cons]

/-- A back history carries over to a store that still has the records, with their owner
and parent, and the same forward pointers below a bound the history stays under. -/
theorem backChain_lift {m n : DeclarativeTabModel} {tabId bound : Int}
    (hrec : ∀ l r, m.linkRecord l = some r →
      ∃ s, n.linkRecord l = some s ∧ s.tabId = r.tabId ∧ s.parentLinkId = r.parentLinkId)
    (hfwd : ∀ q, q < bound → n.forwardLink tabId q = m.forwardLink tabId q)
    (hmono : ∀ r ∈ m.links, r.parentLinkId < r.linkId)
    {l : Int} (h : BackChain m tabId l) (hl : l ≤ bound) : BackChain n tabId l := by
  induction h with
  | first hr ht hp =>
    obtain ⟨s, hs, hst, hsp⟩ := hrec _ _ hr
    exact BackChain.first hs (hst.trans ht) (hsp.trans hp)
  | @step l r hr ht hp hf _ ih =>
    obtain ⟨s, hs, hst, hsp⟩ := hrec _ _ hr
    obtain ⟨hmem, hid⟩ := linkRecord_mem hr
    have hlt : r.parentLinkId < l := hid ▸ hmono r hmem
    refine BackChain.step hs (hst.trans ht) (hsp ▸ hp) ?_ ?_
    · rw [hsp, hfwd _ (by omega)]
      exact hf
    · rw [hsp]
      exact ih (by omega)

/-- The invariants carry over to a store with the same records and counters whose tabs
are some of the old tabs. -/
theorem wellFormed_of_sublist {m n : DeclarativeTabModel} (h : WellFormed m)
    (htabs : n.tabs.Sublist m.tabs) (hlinks : n.links = m.links)
    (hnt : n.nextTabId = m.nextTabId) (hnl : n.nextLinkId = m.nextLinkId) : WellFormed n := by
  have hrec : ∀ l, n.linkRecord l = m.linkRecord l := fun l => by
    unfold linkRecord
    rw [hlinks]
  have hfwd : ∀ tabId q, n.forwardLink tabId q = m.forwardLink tabId q := fun tabId q => by
    unfold forwardLink
    rw [hlinks]
  refine ⟨?_, ?_, ?_, ?_, ?_, ?_⟩
  · intro t ht
    rw [hnt]
    exact h.tabIds t (htabs.subset ht)
  · exact h.uniqueTabs.sublist (htabs.map _)
  · rw [hnl]
    exact h.nextLink
  · rw [hlinks, hnl]
    exact h.linkIds
  · rw [hlinks]
    exact h.uniqueLinks
  · intro t ht
    obtain ⟨h1, h2, h3, h4⟩ := h.chains t (htabs.subset ht)
    refine ⟨h1, ?_, ?_, ?_⟩
    · rw [hrec]
      exact h2
    · rw [hfwd]
      exact h3
    · exact backChain_lift (fun l r hr => ⟨r, by rw [hrec]; exact hr, rfl, rfl⟩)
        (fun q _ => hfwd _ q) (fun r hr => (h.linkIds r hr).2.2) h4 (le_refl _)

/-- The empty store satisfies the invariants. -/
theorem wellFormed_empty : WellFormed empty := by
  refine ⟨?_, ?_, ?_, ?_, ?_, ?_⟩ <;> simp [empty]

/-- The invariants after a new tab with its first record has been appended. -/
theorem wellFormed_of_new_tab {m n : DeclarativeTabModel} (h : WellFormed m)
    (url title : String)
    (htabs : n.tabs = m.tabs ++ [⟨m.nextTabId, url, title, m.nextLinkId, 0, 0⟩])
    (hlinks : n.links = m.links ++ [⟨m.nextLinkId, m.nextTabId, url, title, 0⟩])
    (hnt : n.nextTabId = m.nextTabId + 1) (hnl : n.nextLinkId = m.nextLinkId + 1) :
    WellFormed n := by
  have hpos := h.nextLink
  have hfreshL : ∀ r ∈ m.links,
      r.linkId ≠ (⟨m.nextLinkId, m.nextTabId, url, title, 0⟩ : HistoryRecord).linkId := by
    intro r hr
    have := (h.linkIds r hr).2.1
    show r.linkId ≠ m.nextLinkId
    omega
  have hrec : ∀ l r, m.linkRecord l = some r → n.linkRecord l = some r := by
    intro l r hr
    unfold linkRecord at hr ⊢
    rw [hlinks]
    exact find_links_append _ hr
  have hfwd : ∀ tabId q, ¬ (m.nextTabId = tabId ∧ (0 : Int) = q) →
      n.forwardLink tabId q = m.forwardLink tabId q := by
    intro tabId q hne
    unfold forwardLink
    rw [hlinks, forward_append_other _ tabId q hne]
  refine ⟨?_, ?_, ?_, ?_, ?_, ?_⟩
  · intro t ht
    rw [htabs, List.mem_append, List.mem_singleton] at ht
    rw [hnt]
    rcases ht with ht | ht
    · have := h.tabIds t ht
      omega
    · subst ht
      show m.nextTabId < m.nextTabId + 1
      omega
  · rw [htabs, List.map_append, List.nodup_append]
    refine ⟨h.uniqueTabs, by simp, ?_⟩
    intro a ha hb
    simp only [List.map_cons, List.map_nil, List.mem_singleton] at hb
    obtain ⟨t, ht, hta⟩ := List.mem_map.1 ha
    have := h.tabIds t ht
    omega
  · rw [hnl]
    omega
  · intro r hr
    rw [hlinks, List.mem_append, List.mem_singleton] at hr
    rw [hnl]
    rcases hr with hr | hr
    · have := h.linkIds r hr
      omega
    · subst hr
      show 0 < m.nextLinkId ∧ m.nextLinkId < m.nextLinkId + 1 ∧ (0 : Int) < m.nextLinkId
      omega
  · rw [hlinks, List.map_append, List.nodup_append]
    refine ⟨h.uniqueLinks, by simp, ?_⟩
    intro a ha hb
    simp only [List.map_cons, List.map_nil, List.mem_singleton] at hb
    obtain ⟨r, hr, hra⟩ := List.mem_map.1 ha
    have := (h.linkIds r hr).2.1
    omega
  · intro t ht
    rw [htabs, List.mem_append, List.mem_singleton] at ht
    rcases ht with ht | ht
    · obtain ⟨h1, ⟨r, hr, hru⟩, h3, h4⟩ := h.chains t ht
      have hid : m.nextTabId ≠ t.tabId := by
        have := h.tabIds t ht
        omega
      refine ⟨h1, ⟨r, hrec _ _ hr, hru⟩, ?_, ?_⟩
      · rw [hfwd _ _ (fun hc => hid hc.1)]
        exact h3
      · exact backChain_lift (fun l r hr => ⟨r, hrec _ _ hr, rfl, rfl⟩)
          (fun q _ => hfwd _ q (fun hc => hid hc.1)) (fun r hr => (h.linkIds r hr).2.2) h4
          (le_refl _)
    · subst ht
      have hnew : n.linkRecord m.nextLinkId =
          some ⟨m.nextLinkId, m.nextTabId, url, title, 0⟩ := by
        unfold linkRecord
        rw [hlinks]
        exact find_links_new _ hfreshL
      refine ⟨?_, ⟨_, hnew, rfl, rfl, rfl⟩, ?_, BackChain.first hnew rfl rfl⟩
      · show m.nextLinkId ≠ 0
        omega
      · apply forwardLink_eq_zero
        intro r hr
        rw [hlinks, List.mem_append, List.mem_singleton] at hr
        show r.parentLinkId ≠ m.nextLinkId
        rcases hr with hr | hr
        · have := h.linkIds r hr
          omega
        · subst hr
          show (0 : Int) ≠ m.nextLinkId
          omega

/-- The invariants are kept by the creation of a tab. -/
theorem wellFormed_createTab {m : DeclarativeTabModel} (h : WellFormed m)
    (url title : String) (loadRequested : Bool) :
    WellFormed (m.createTab url title loadRequested) := by
  unfold createTab
  split
  · exact wellFormed_of_new_tab h url title rfl rfl rfl rfl
  · exact h

/-- What a back history says about its first record. -/
theorem backChain_record {m : DeclarativeTabModel} {tabId l : Int} (h : BackChain m tabId l) :
    ∃ r, m.linkRecord l = some r ∧ r.tabId = tabId ∧
      (r.parentLinkId ≠ 0 →
        m.forwardLink tabId r.parentLinkId = l ∧ BackChain m tabId r.parentLinkId) := by
  cases h with
  | first hr ht hp => exact ⟨_, hr, ht, fun hne => absurd hp hne⟩
  | step hr ht hp hf hb => exact ⟨_, hr, ht, fun _ => ⟨hf, hb⟩⟩

/-- The tab ids after a rewrite of the tabs that keeps them. -/
theorem map_tabIds (tabs : List Tab) (g : Tab → Tab) (hg : ∀ x, (g x).tabId = x.tabId) :
    (tabs.map g).map (fun t => t.tabId) = tabs.map (fun t => t.tabId) := by
  rw [List.map_map]
  apply List.map_congr_left
  intro x _
  exact hg x

/-- With unique tab ids the tab found under an id is the only one with it. -/
theorem eq_of_find {tabs : List Tab} (hnodup : (tabs.map (fun t => t.tabId)).Nodup)
    {tabId : Int} {t x : Tab} (ht : tabs.find? (fun y => y.tabId == tabId) = some t)
    (hx : x ∈ tabs) (hid : x.tabId = tabId) : x = t := by
  obtain ⟨j, hj⟩ := List.get?_of_mem hx
  have hfx := find_of_nodup_tabs tabs hnodup hj
  rw [hid, ht] at hfx
  exact (Option.some.inj hfx).symm

/-- The invariants after a tab has moved to a record that has a back history for it. -/
theorem wellFormed_of_move {m n : DeclarativeTabModel} (h : WellFormed m) (tabId : Int)
    (r : HistoryRecord) (hr : m.linkRecord r.linkId = some r)
    (hchain : BackChain m tabId r.linkId)
    (htabs : n.tabs = m.tabs.map (fun x => if x.tabId == tabId then
      { x with url := r.url, title := r.title, currentLink := r.linkId,
               previousLink := r.parentLinkId, nextLink := m.forwardLink tabId r.linkId }
      else x))
    (hlinks : n.links = m.links)
    (hnt : n.nextTabId = m.nextTabId) (hnl : n.nextLinkId = m.nextLinkId) : WellFormed n := by
  have hrec : ∀ l, n.linkRecord l = m.linkRecord l := fun l => by
    unfold linkRecord
    rw [hlinks]
  have hfwd : ∀ tab q, n.forwardLink tab q = m.forwardLink tab q := fun tab q => by
    unfold forwardLink
    rw [hlinks]
  have hlift : ∀ tab l, BackChain m tab l → BackChain n tab l := fun tab l hb =>
    backChain_lift (fun l r hr => ⟨r, by rw [hrec]; exact hr, rfl, rfl⟩)
      (fun q _ => hfwd _ q) (fun r hr => (h.linkIds r hr).2.2) hb (le_refl _)
  have hkeep : ∀ x : Tab, (if x.tabId == tabId then
      ({ x with url := r.url, title := r.title, currentLink := r.linkId,
                previousLink := r.parentLinkId,
                nextLink := m.forwardLink tabId r.linkId } : Tab)
      else x).tabId = x.tabId := by
    intro x
    split <;> rfl
  refine ⟨?_, ?_, ?_, ?_, ?_, ?_⟩
  · intro y hy
    rw [htabs] at hy
    obtain ⟨x, hx, hxy⟩ := List.mem_map.1 hy
    rw [hnt, ← hxy, hkeep]
    exact h.tabIds x hx
  · rw [htabs, map_tabIds _ _ hkeep]
    exact h.uniqueTabs
  · rw [hnl]
    exact h.nextLink
  · rw [hlinks, hnl]
    exact h.linkIds
  · rw [hlinks]
    exact h.uniqueLinks
  · intro y hy
    rw [htabs] at hy
    obtain ⟨x, hx, hxy⟩ := List.mem_map.1 hy
    by_cases hid : x.tabId = tabId
    · have hb : (x.tabId == tabId) = true := by simpa using hid
      rw [hb, if_pos rfl] at hxy
      subst hxy
      refine ⟨?_, ⟨r, by rw [hrec]; exact hr, rfl, rfl, rfl⟩, ?_, ?_⟩
      · show r.linkId ≠ 0
        have := (h.linkIds r (linkRecord_mem hr).1).1
        omega
      · show n.forwardLink x.tabId r.linkId = m.forwardLink tabId r.linkId
        rw [hfwd, hid]
      · show BackChain n x.tabId r.linkId
        rw [hid]
        exact hlift _ _ hchain
    · have hb : (x.tabId == tabId) = false := by simpa using hid
      rw [hb] at hxy
      simp only [Bool.false_eq_true, if_false] at hxy
      subst hxy
      obtain ⟨h1, h2, h3, h4⟩ := h.chains x hx
      exact ⟨h1, by rw [hrec]; exact h2, by rw [hfwd]; exact h3, hlift _ _ h4⟩

/-- The tabs, records and counters after a traversal to a known record. -/
theorem traverse_fields (m : DeclarativeTabModel) (tabId linkId : Int) {r : HistoryRecord}
    (hr : m.linkRecord linkId = some r) :
    (m.traverse tabId linkId).tabs = m.tabs.map (fun x => if x.tabId == tabId then
      { x with url := r.url, title := r.title, currentLink := r.linkId,
               previousLink := r.parentLinkId, nextLink := m.forwardLink tabId r.linkId }
      else x) ∧
    (m.traverse tabId linkId).links = m.links ∧
    (m.traverse tabId linkId).nextTabId = m.nextTabId ∧
    (m.traverse tabId linkId).nextLinkId = m.nextLinkId := by
  unfold traverse
  rw [hr]
  dsimp only
  split <;> exact ⟨rfl, rfl, rfl, rfl⟩

/-- The invariants are kept by `goBack`. -/
theorem wellFormed_goBack {m : DeclarativeTabModel} (h : WellFormed m) (tabId : Int) :
    WellFormed (m.goBack tabId) := by
  unfold goBack
  split
  · exact h
  · rename_i t ht
    split
    · rename_i hprev
      have hprev : t.previousLink ≠ 0 := by simpa using hprev
      have htm : t ∈ m.tabs := List.mem_of_find?_eq_some ht
      have hid : t.tabId = tabId := by
        have := List.find?_some ht
        simpa using this
      obtain ⟨_, ⟨rc, hrc, _, _, hpar⟩, _, hb⟩ := h.chains t htm
      obtain ⟨r0, hr0, _, hstep⟩ := backChain_record hb
      rw [hrc] at hr0
      cases hr0
      obtain ⟨_, hbp⟩ := hstep (by rw [hpar]; exact hprev)
      rw [hpar, hid] at hbp
      obtain ⟨rp, hrp, _, _⟩ := backChain_record hbp
      have hrpid := (linkRecord_mem hrp).2
      obtain ⟨f1, f2, f3, f4⟩ := traverse_fields m tabId t.previousLink hrp
      exact wellFormed_of_move h tabId rp (by rw [hrpid]; exact hrp)
        (by rw [hrpid]; exact hbp) f1 f2 f3 f4
    · exact h

/-- The invariants are kept by `goForward`. -/
theorem wellFormed_goForward {m : DeclarativeTabModel} (h : WellFormed m) (tabId : Int) :
    WellFormed (m.goForward tabId) := by
  unfold goForward
  split
  · exact h
  · rename_i t ht
    split
    · rename_i hnext
      have hnext : t.nextLink ≠ 0 := by simpa using hnext
      have htm : t ∈ m.tabs := List.mem_of_find?_eq_some ht
      have hid : t.tabId = tabId := by
        have := List.find?_some ht
        simpa using this
      obtain ⟨hcur, _, hfw, hb⟩ := h.chains t htm
      obtain ⟨r, hrm, hrid, hrt, hrp⟩ := forwardLink_mem hfw hnext
      have hr : m.linkRecord t.nextLink = some r := by
        unfold linkRecord
        rw [← hrid]
        exact linkRecord_of_mem m.links h.uniqueLinks hrm
      have hchain : BackChain m tabId r.linkId := by
        rw [hrid]
        refine BackChain.step hr (hrt.trans hid) (by rw [hrp]; exact hcur) ?_ ?_
        · rw [hrp, ← hid]
          exact hfw
        · rw [hrp, ← hid]
          exact hb
      obtain ⟨f1, f2, f3, f4⟩ := traverse_fields m tabId t.nextLink hr
      exact wellFormed_of_move h tabId r (by rw [hrid]; exact hr) hchain f1 f2 f3 f4
    · exact h

/-- The invariants after a tab navigated to a new URL and the record was appended. -/
theorem wellFormed_of_append {m n : DeclarativeTabModel} (h : WellFormed m) (tabId : Int)
    (url : String) {t : Tab} (ht : m.tabs.find? (fun x => x.tabId == tabId) = some t)
    (htabs : n.tabs = m.tabs.map (fun x => if x.tabId == tabId then
      { x with url := url, title := "", currentLink := m.nextLinkId,
               previousLink := x.currentLink, nextLink := 0 }
      else x))
    (hlinks : n.links = m.links ++ [⟨m.nextLinkId, tabId, url, "", t.currentLink⟩])
    (hnt : n.nextTabId = m.nextTabId) (hnl : n.nextLinkId = m.nextLinkId + 1) :
    WellFormed n := by
  have hpos := h.nextLink
  have htm : t ∈ m.tabs := List.mem_of_find?_eq_some ht
  have htid : t.tabId = tabId := by
    have := List.find?_some ht
    simpa using this
  obtain ⟨hcur, ⟨rc, hrc, _, _, _⟩, _, hbt⟩ := h.chains t htm
  have hclt : t.currentLink < m.nextLinkId := by
    obtain ⟨hmem, hid⟩ := linkRecord_mem hrc
    have := (h.linkIds rc hmem).2.1
    omega
  have hrec : ∀ l r, m.linkRecord l = some r → n.linkRecord l = some r := by
    intro l r hr
    unfold linkRecord at hr ⊢
    rw [hlinks]
    exact find_links_append _ hr
  have hfwd : ∀ tab q, ¬ (tabId = tab ∧ t.currentLink = q) →
      n.forwardLink tab q = m.forwardLink tab q := by
    intro tab q hne
    unfold forwardLink
    rw [hlinks, forward_append_other _ tab q hne]
  have hnew : n.linkRecord m.nextLinkId =
      some ⟨m.nextLinkId, tabId, url, "", t.currentLink⟩ := by
    unfold linkRecord
    rw [hlinks]
    apply find_links_new
      (⟨m.nextLinkId, tabId, url, "", t.currentLink⟩ : HistoryRecord)
    intro r hr
    have := (h.linkIds r hr).2.1
    show r.linkId ≠ m.nextLinkId
    omega
  have hkeep : ∀ x : Tab, (if x.tabId == tabId then
      ({ x with url := url, title := "", currentLink := m.nextLinkId,
                previousLink := x.currentLink, nextLink := 0 } : Tab)
      else x).tabId = x.tabId := by
    intro x
    split <;> rfl
  refine ⟨?_, ?_, ?_, ?_, ?_, ?_⟩
  · intro y hy
    rw [htabs] at hy
    obtain ⟨x, hx, hxy⟩ := List.mem_map.1 hy
    rw [hnt, ← hxy, hkeep]
    exact h.tabIds x hx
  · rw [htabs, map_tabIds _ _ hkeep]
    exact h.uniqueTabs
  · rw [hnl]
    omega
  · intro r hr
    rw [hlinks, List.mem_append, List.mem_singleton] at hr
    rw [hnl]
    rcases hr with hr | hr
    · have := h.linkIds r hr
      omega
    · subst hr
      show 0 < m.nextLinkId ∧ m.nextLinkId < m.nextLinkId + 1 ∧ t.currentLink < m.nextLinkId
      omega
  · rw [hlinks, List.map_append, List.nodup_append]
    refine ⟨h.uniqueLinks, by simp, ?_⟩
    intro a ha hb
    simp only [List.map_cons, List.map_nil, List.mem_singleton] at hb
    obtain ⟨r, hr, hra⟩ := List.mem_map.1 ha
    have := (h.linkIds r hr).2.1
    omega
  · intro y hy
    rw [htabs] at hy
    obtain ⟨x, hx, hxy⟩ := List.mem_map.1 hy
    by_cases hid : x.tabId = tabId
    · have hxt : x = t := eq_of_find h.uniqueTabs ht hx hid
      have hb : (x.tabId == tabId) = true := by simpa using hid
      rw [hb, if_pos rfl] at hxy
      subst hxy
      subst hxt
      refine ⟨?_, ⟨_, hnew, rfl, rfl, rfl⟩, ?_, ?_⟩
      · show m.nextLinkId ≠ 0
        omega
      · apply forwardLink_eq_zero
        intro r hr
        rw [hlinks, List.mem_append, List.mem_singleton] at hr
        show r.parentLinkId ≠ m.nextLinkId
        rcases hr with hr | hr
        · have := h.linkIds r hr
          omega
        · subst hr
          show x.currentLink ≠ m.nextLinkId
          omega
      · show BackChain n x.tabId m.nextLinkId
        rw [hid]
        refine BackChain.step hnew rfl hcur ?_ ?_
        · show n.forwardLink tabId x.currentLink = m.nextLinkId
          unfold forwardLink
          rw [hlinks, forward_append_new
            (⟨m.nextLinkId, tabId, url, "", x.currentLink⟩ : HistoryRecord)]
        · show BackChain n tabId x.currentLink
          rw [hid] at hbt
          exact backChain_lift (fun l r hr => ⟨r, hrec _ _ hr, rfl, rfl⟩)
            (fun q hq => hfwd _ q (fun hc => by omega)) (fun r hr => (h.linkIds r hr).2.2)
            hbt (le_refl _)
    · have hb : (x.tabId == tabId) = false := by simpa using hid
      rw [hb] at hxy
      simp only [Bool.false_eq_true, if_false] at hxy
      subst hxy
      obtain ⟨h1, ⟨r, hr, hru⟩, h3, h4⟩ := h.chains x hx
      have hne : ∀ q, ¬ (tabId = x.tabId ∧ t.currentLink = q) := fun q hc => hid hc.1.symm
      refine ⟨h1, ⟨r, hrec _ _ hr, hru⟩, ?_, ?_⟩
      · rw [hfwd _ _ (hne _)]
        exact h3
      · exact backChain_lift (fun l r hr => ⟨r, hrec _ _ hr, rfl, rfl⟩)
          (fun q _ => hfwd _ q (hne q)) (fun r hr => (h.linkIds r hr).2.2) h4 (le_refl _)

/-- The invariants are kept by `updateUrl`. -/
theorem wellFormed_updateUrl {m : DeclarativeTabModel} (h : WellFormed m) (tabId : Int)
    (isActive : Bool) (url : String) (isInitialLoad : Bool) :
    WellFormed (m.updateUrl tabId isActive url isInitialLoad) := by
  unfold updateUrl
  split
  · split
    · exact h
    · rename_i t ht
      have htm : t ∈ m.tabs := List.mem_of_find?_eq_some ht
      have hcur := (h.chains t htm).1
      have hc : (isInitialLoad && t.currentLink == 0) = false := by
        simp [hcur]
      rw [hc]
      simp only [Bool.false_eq_true, if_false]
      exact wellFormed_of_append h tabId url ht rfl rfl rfl rfl
  · exact h

/-- Looking records up after a rewrite that keeps what the test reads. -/
theorem find_map_links (links : List HistoryRecord) (g : HistoryRecord → HistoryRecord)
    (p : HistoryRecord → Bool) (hg : ∀ x, p (g x) = p x) :
    (links.map g).find? p = (links.find? p).map g := by
  induction links with
  | nil => rfl
  | cons a rest ih =>
    simp only [List.map_cons, List.find?_cons, hg]
    cases p a with
    | true => rfl
    | false => exact ih

/-- The invariants after a tab and its current record have been given a title. -/
theorem wellFormed_of_retitle {m n : DeclarativeTabModel} (h : WellFormed m) (tabId : Int)
    (title : String) {t : Tab} (ht : m.tabs.find? (fun x => x.tabId == tabId) = some t)
    (htabs : n.tabs = m.tabs.map (fun x => if x.tabId == tabId then
      { x with title := title } else x))
    (hlinks : n.links = m.links.map (fun r =>
      if r.linkId == t.currentLink && r.tabId == tabId then { r with title := title } else r))
    (hnt : n.nextTabId = m.nextTabId) (hnl : n.nextLinkId = m.nextLinkId) :
    WellFormed n := by
  have hgl : ∀ r : HistoryRecord,
      (if r.linkId == t.currentLink && r.tabId == tabId then
        ({ r with title := title } : HistoryRecord) else r).linkId = r.linkId := by
    intro r; split <;> rfl
  have hgt : ∀ r : HistoryRecord,
      (if r.linkId == t.currentLink && r.tabId == tabId then
        ({ r with title := title } : HistoryRecord) else r).tabId = r.tabId := by
    intro r; split <;> rfl
  have hgp : ∀ r : HistoryRecord,
      (if r.linkId == t.currentLink && r.tabId == tabId then
        ({ r with title := title } : HistoryRecord) else r).parentLinkId = r.parentLinkId := by
    intro r; split <;> rfl
  have hgu : ∀ r : HistoryRecord,
      (if r.linkId == t.currentLink && r.tabId == tabId then
        ({ r with title := title } : HistoryRecord) else r).url = r.url := by
    intro r; split <;> rfl
  have hrec : ∀ l, n.linkRecord l = (m.linkRecord l).map (fun r =>
      if r.linkId == t.currentLink && r.tabId == tabId then { r with title := title }
      else r) := by
    intro l
    unfold linkRecord
    rw [hlinks]
    exact find_map_links _ _ _ (fun x => by rw [hgl])
  have hfwd : ∀ tab q, n.forwardLink tab q = m.forwardLink tab q := by
    intro tab q
    unfold forwardLink
    rw [hlinks, ← List.map_reverse,
      find_map_links _ _ _ (fun x => by rw [hgt, hgp])]
    cases m.links.reverse.find? (fun r => r.tabId == tab && r.parentLinkId == q) with
    | none => rfl
    | some r => exact hgl r
  have hlift : ∀ tab l, BackChain m tab l → BackChain n tab l := fun tab l hb =>
    backChain_lift (fun l r hr => ⟨_, by rw [hrec, hr]; rfl, hgt r, hgp r⟩)
      (fun q _ => hfwd _ q) (fun r hr => (h.linkIds r hr).2.2) hb (le_refl _)
  have hkeep : ∀ x : Tab, (if x.tabId == tabId then
      ({ x with title := title } : Tab) else x).tabId = x.tabId := by
    intro x
    split <;> rfl
  refine ⟨?_, ?_, ?_, ?_, ?_, ?_⟩
  · intro y hy
    rw [htabs] at hy
    obtain ⟨x, hx, hxy⟩ := List.mem_map.1 hy
    rw [hnt, ← hxy, hkeep]
    exact h.tabIds x hx
  · rw [htabs, map_tabIds _ _ hkeep]
    exact h.uniqueTabs
  · rw [hnl]
    exact h.nextLink
  · intro s hs
    rw [hlinks] at hs
    obtain ⟨r, hr, hrs⟩ := List.mem_map.1 hs
    rw [hnl, ← hrs, hgl, hgp]
    exact h.linkIds r hr
  · rw [hlinks, List.map_map]
    have : ((fun r : HistoryRecord => r.linkId) ∘ fun r =>
        if r.linkId == t.currentLink && r.tabId == tabId then { r with title := title }
        else r) = fun r => r.linkId := by
      funext r
      exact hgl r
    rw [this]
    exact h.uniqueLinks
  · intro y hy
    rw [htabs] at hy
    obtain ⟨x, hx, hxy⟩ := List.mem_map.1 hy
    obtain ⟨h1, ⟨r, hr, hru, hrt, hrp⟩, h3, h4⟩ := h.chains x hx
    obtain ⟨r0, hr0, hown, _⟩ := backChain_record h4
    rw [hr] at hr0
    cases hr0
    have hrid := (linkRecord_mem hr).2
    by_cases hid : x.tabId = tabId
    · have hxt : x = t := eq_of_find h.uniqueTabs ht hx hid
      have hb : (x.tabId == tabId) = true := by simpa using hid
      rw [hb, if_pos rfl] at hxy
      subst hxy
      subst hxt
      have hcond : (r.linkId == x.currentLink && r.tabId == tabId) = true := by
        simp [hrid, hown, hid]
      refine ⟨h1, ⟨{ r with title := title }, ?_, hru, rfl, hrp⟩, ?_, hlift _ _ h4⟩
      · show n.linkRecord x.currentLink = _
        rw [hrec, hr, Option.map_some', if_pos hcond]
      · show n.forwardLink x.tabId x.currentLink = x.nextLink
        rw [hfwd]
        exact h3
    · have hb : (x.tabId == tabId) = false := by simpa using hid
      rw [hb] at hxy
      simp only [Bool.false_eq_true, if_false] at hxy
      subst hxy
      have hcond : (r.linkId == t.currentLink && r.tabId == tabId) = false := by
        simp [hown, hid]
      refine ⟨h1, ⟨r, ?_, hru, hrt, hrp⟩, ?_, hlift _ _ h4⟩
      · rw [hrec, hr, Option.map_some', if_neg (by rw [hcond]; decide)]
      · rw [hfwd]
        exact h3

/-- The invariants are kept by `updateTitle`. -/
theorem wellFormed_updateTitle {m : DeclarativeTabModel} (h : WellFormed m) (tabId : Int)
    (isActive : Bool) (url title : String) :
    WellFormed (m.updateTitle tabId isActive url title) := by
  unfold updateTitle
  split
  · exact h
  · rename_i t ht
    split
    · exact wellFormed_of_retitle h tabId title ht rfl rfl rfl rfl
    · exact h

/-- The invariants are kept by the removal of the tab at a position. -/
theorem wellFormed_removeAt {m : DeclarativeTabModel} (h : WellFormed m) (index : Nat)
    (wasActive : Bool) : WellFormed (m.removeAt index wasActive) := by
  unfold removeAt
  split
  · exact h
  · dsimp only
    split
    · split
      · exact wellFormed_of_sublist h (List.eraseIdx_sublist m.tabs index) rfl rfl rfl
      · exact wellFormed_of_sublist h (List.eraseIdx_sublist m.tabs index) rfl rfl rfl
    · exact wellFormed_of_sublist h (List.eraseIdx_sublist m.tabs index) rfl rfl rfl

/-- Every operation of the store keeps the invariants. -/
theorem wellFormed_apply {m : DeclarativeTabModel} (h : WellFormed m) (op : StoreOp) :
    WellFormed (op.apply m) := by
  cases op with
  | newTab u t => exact wellFormed_createTab h _ _ _
  | addTab u t => exact wellFormed_createTab h _ _ _
  | activateTab i l =>
    show WellFormed (m.activateTab i l)
    unfold activateTab
    split
    · exact h
    · split
      · exact wellFormed_of_sublist h (List.Sublist.refl _) rfl rfl rfl
      · exact h
  | activateTabById id =>
    show WellFormed (m.activateTabById id)
    unfold activateTabById
    split
    · exact wellFormed_of_sublist h (List.Sublist.refl _) rfl rfl rfl
    · exact h
  | updateUrl id a u i => exact wellFormed_updateUrl h id a u i
  | updateTitle id a u t => exact wellFormed_updateTitle h id a u t
  | remove i =>
    show WellFormed (m.remove i)
    unfold remove
    split
    · exact h
    · exact wellFormed_removeAt h _ _
  | removeTabById id w =>
    show WellFormed (m.removeTabById id w)
    unfold removeTabById
    split
    · exact h
    · exact wellFormed_removeAt h _ _
  | closeActiveTab =>
    show WellFormed m.closeActiveTab
    unfold closeActiveTab removeTabById
    split
    · exact h
    · exact wellFormed_removeAt h _ _
  | clear =>
    exact wellFormed_of_sublist h (List.nil_sublist _) rfl rfl rfl
  | goBack id => exact wellFormed_goBack h id
  | goForward id => exact wellFormed_goForward h id
  | setUnloaded => exact wellFormed_of_sublist h (List.Sublist.refl _) rfl rfl rfl
  | setWaitingForNewTab w => exact wellFormed_of_sublist h (List.Sublist.refl _) rfl rfl rfl

/-- Every store reached from a store with the invariants has them. -/
theorem wellFormed_run_from {m : DeclarativeTabModel} (h : WellFormed m) (ops : List StoreOp) :
    WellFormed (StoreOp.run m ops) := by
  induction ops generalizing m with
  | nil => exact h
  | cons op rest ih => exact ih (wellFormed_apply h op)

/-- Every store reached from the empty store by operations of the store has the
invariants of the data model. -/
theorem wellFormed_run (ops : List StoreOp) : WellFormed (StoreOp.run empty ops) :=
  wellFormed_run_from wellFormed_empty ops

/-- In a store with the invariants the next tab id is not in use. -/
theorem wellFormed_fresh {m : DeclarativeTabModel} (h : WellFormed m) :
    m.contains m.nextTabId = false := by
  unfold contains
  rw [List.any_eq_false]
  intro t ht
  have := h.tabIds t ht
  simp only [beq_iff_eq]
  omega

/-- In a store with the invariants every tab is on its chain. -/
theorem wellFormed_onChain {m : DeclarativeTabModel} (h : WellFormed m) {t : Tab}
    (ht : t ∈ m.tabs) : m.onChain t = true := by
  obtain ⟨h1, ⟨r, hr, hru, hrt, hrp⟩, h3, h4⟩ := h.chains t ht
  obtain ⟨r0, hr0, _, hstep⟩ := backChain_record h4
  rw [hr] at hr0
  cases hr0
  unfold onChain
  simp only [hr, hru, hrt, hrp, h3, h1, bne_iff_ne, ne_eq, not_false_eq_true, decide_True,
    beq_self_eq_true, Bool.and_self, Bool.true_and, Bool.or_eq_true, beq_iff_eq,
    Bool.and_eq_true, Option.isSome_iff_exists]
  refine ⟨⟨⟨trivial, trivial⟩, trivial⟩, ?_⟩
  by_cases hp : t.previousLink = 0
  · exact Or.inl hp
  · right
    obtain ⟨hf, hb⟩ := hstep (by rw [hrp]; exact hp)
    obtain ⟨rp, hrp2, _, _⟩ := backChain_record hb
    rw [hrp] at hrp2 hf
    exact ⟨⟨rp, hrp2⟩, hf⟩

end DeclarativeTabModel
end SailfishBrowser

/-! ## The tab store: tabs, activation and history -/

namespace SailfishBrowser
namespace DeclarativeTabModel

/-- A URL recognised by one of the rejected scheme prefixes is not navigable. -/
theorem navigable_of_scheme {url : String}
    (h : ∃ scheme ∈ nonNavigableSchemes, hasScheme scheme url = true) :
    navigable url = false := by
  obtain ⟨scheme, hmem, hpre⟩ := h
  unfold navigable
  simp only [Bool.not_eq_false', List.any_eq_true]
  exact ⟨scheme, hmem, hpre⟩

/-- A URL is navigable as soon as its first character is none of `t`, `s`, `m`, `g`. -/
theorem navigable_of_head {url : String} {a : Char} {rest : List Char}
    (hl : url.toList = a :: rest)
    (ht : a ≠ 't') (hs : a ≠ 's') (hm : a ≠ 'm') (hg : a ≠ 'g') : navigable url = true := by
  have hd : url.data = a :: rest := hl
  simp [navigable, nonNavigableSchemes, hasScheme, hd, List.isPrefixOf, Ne.symm ht,
    Ne.symm hs, Ne.symm hm, Ne.symm hg]

/-- A URL without a colon has no scheme and is navigable. -/
theorem navigable_of_no_colon {url : String} (h : ':' ∉ url.toList) : navigable url = true := by
  have key : ∀ s ∈ nonNavigableSchemes, hasScheme s url = false := by
    intro s hs
    cases hp : hasScheme s url with
    | false => rfl
    | true =>
      exfalso
      apply h
      unfold hasScheme at hp
      obtain ⟨t, ht⟩ := List.isPrefixOf_iff_prefix.1 hp
      rw [← ht]
      simp only [nonNavigableSchemes, List.mem_cons, List.mem_singleton, List.not_mem_nil,
        or_false] at hs
      rcases hs with rfl | rfl | rfl | rfl <;> simp
  unfold navigable
  simp only [Bool.not_eq_true', List.any_eq_false]
  intro s hs
  simp [key s hs]

/-- URLs of the schemes http, https and file are navigable. -/
theorem navigable_of_web_scheme {url : String}
    (h : hasScheme "http:" url = true ∨ hasScheme "https:" url = true ∨
      hasScheme "file:" url = true) : navigable url = true := by
  have head : ∀ (s : String) (a : Char) (r : List Char), s.toList = a :: r →
      hasScheme s url = true → ∃ rest, url.toList = a :: rest := by
    intro s a r hs hp
    unfold hasScheme at hp
    obtain ⟨t, ht⟩ := List.isPrefixOf_iff_prefix.1 hp
    exact ⟨r ++ t, by rw [← ht, hs]; rfl⟩
  rcases h with h | h | h
  · obtain ⟨rest, hl⟩ := head "http:" 'h' _ rfl h
    exact navigable_of_head hl (by decide) (by decide) (by decide) (by decide)
  · obtain ⟨rest, hl⟩ := head "https:" 'h' _ rfl h
    exact navigable_of_head hl (by decide) (by decide) (by decide) (by decide)
  · obtain ⟨rest, hl⟩ := head "file:" 'f' _ rfl h
    exact navigable_of_head hl (by decide) (by decide) (by decide) (by decide)

/-- Looking a tab up by id after a rewrite that keeps tab ids. -/
theorem find_map_tabs (tabs : List Tab) (g : Tab → Tab) (hg : ∀ x, (g x).tabId = x.tabId)
    (tabId : Int) :
    (tabs.map g).find? (fun t => t.tabId == tabId) =
      (tabs.find? (fun t => t.tabId == tabId)).map g := by
  induction tabs with
  | nil => rfl
  | cons a rest ih =>
    simp only [List.map_cons, List.find?_cons, hg]
    cases a.tabId == tabId with
    | true => rfl
    | false => exact ih

/-- Looking up the rewritten tab after `mapTab`. -/
theorem find_mapTab (m : DeclarativeTabModel) (tabId : Int) (f : Tab → Tab)
    (hf : ∀ x, (f x).tabId = x.tabId) {t : Tab}
    (h : m.tabs.find? (fun t => t.tabId == tabId) = some t) :
    (m.mapTab tabId f).tabs.find? (fun t => t.tabId == tabId) = some (f t) := by
  have ht : t.tabId = tabId := by
    have := List.find?_some h
    simpa using this
  unfold mapTab
  dsimp only
  rw [find_map_tabs _ _ _ tabId, h]
  · simp [ht]
  · intro x
    split
    · exact hf x
    · rfl

/-- A non-initial `updateUrl` with a navigable URL, seen from the tab it is addressed to. -/
theorem updateUrl_find (m : DeclarativeTabModel) (tabId : Int) (isActive : Bool)
    (url : String) (hn : navigable url = true) {t : Tab}
    (h : m.tabs.find? (fun x => x.tabId == tabId) = some t) :
    (m.updateUrl tabId isActive url false).tabs.find? (fun x => x.tabId == tabId) =
      some { t with url := url, title := "", currentLink := m.nextLinkId,
                    previousLink := t.currentLink, nextLink := 0 } := by
  unfold updateUrl
  rw [if_pos hn, h]
  simp only [Bool.false_and, Bool.false_eq_true, if_false]
  exact find_mapTab m tabId
    (fun x => { x with url := url, title := "", currentLink := m.nextLinkId,
                       previousLink := x.currentLink, nextLink := 0 })
    (fun _ => rfl) h

/-- The active tab id is not touched by `updateUrl`. -/
theorem updateUrl_activeTabId (m : DeclarativeTabModel) (tabId : Int) (isActive : Bool)
    (url : String) (isInitialLoad : Bool) :
    (m.updateUrl tabId isActive url isInitialLoad).activeTabId = m.activeTabId := by
  unfold updateUrl
  split
  · split
    · rfl
    · split <;> rfl
  · rfl

/-- C11. For every URL recognised by a non-navigable scheme prefix (tel:, sms:, mailto:
with or without a query, geo: and geo://), `updateUrl(tabId, isActive, url, isInitialLoad)`
returns the store as it is: URL, title and history links of every tab are unchanged, no
record is written and no notification fires. For a URL of the scheme http, https or file,
or a relative URL (one without a colon), the tab addressed shows the given URL immediately
after `updateUrl(tabId, isActive, url, false)`, and so does `activeTab()` when the tab is
the active one. -/
theorem updateUrl_filters_non_navigable (m : DeclarativeTabModel) (tabId : Int)
    (isActive : Bool) (url : String) :
    ((∃ scheme ∈ nonNavigableSchemes, hasScheme scheme url = true) →
      ∀ isInitialLoad : Bool, m.updateUrl tabId isActive url isInitialLoad = m) ∧
    ((hasScheme "http:" url = true ∨ hasScheme "https:" url = true ∨
        hasScheme "file:" url = true ∨ ':' ∉ url.toList) →
      ∀ t : Tab, m.tabs.find? (fun x => x.tabId == tabId) = some t →
        ((m.updateUrl tabId isActive url false).tabs.find? (fun x => x.tabId == tabId)).map
            (fun x => x.url) = some url ∧
        (tabId = m.activeTabId → (m.updateUrl tabId isActive url false).activeTab.url = url)) := by
  constructor
  · intro hs isInitialLoad
    unfold updateUrl
    simp [navigable_of_scheme hs]
  · intro hs t ht
    have hn : navigable url = true := by
      rcases hs with h | h | h | h
      · exact navigable_of_web_scheme (Or.inl h)
      · exact navigable_of_web_scheme (Or.inr (Or.inl h))
      · exact navigable_of_web_scheme (Or.inr (Or.inr h))
      · exact navigable_of_no_colon h
    have hf := updateUrl_find m tabId isActive url hn ht
    constructor
    · rw [hf]
      rfl
    · intro ha
      unfold activeTab
      rw [updateUrl_activeTabId, ← ha, hf]
      rfl

/-- Witness of C11 on the store of the tests with one tab: the telephone URL of
`updateInvalidUrls` changes nothing, the relative URL of `updateValidUrls` is shown. -/
theorem updateUrl_filters_non_navigable_witness :
    DeclarativeWebContainer.oneTabModel.updateUrl 1 true "geo://61.49464,23.77513" false =
      DeclarativeWebContainer.oneTabModel ∧
    (DeclarativeWebContainer.oneTabModel.updateUrl 1 true "foo/bar/index.html" false).activeTab.url =
      "foo/bar/index.html" :=
  ⟨(updateUrl_filters_non_navigable DeclarativeWebContainer.oneTabModel 1 true
      "geo://61.49464,23.77513").1 ⟨"geo:", by decide, by decide⟩ false,
   ((updateUrl_filters_non_navigable DeclarativeWebContainer.oneTabModel 1 true
      "foo/bar/index.html").2 (Or.inr (Or.inr (Or.inr (by decide))))
      ⟨1, "http://www.jolla.com", "Jolla", 1, 0, 0⟩ (by decide)).2 (by decide)⟩

/-- No tab with the given id: the lookup finds nothing. -/
theorem find_of_not_contains {m : DeclarativeTabModel} {tabId : Int}
    (h : m.contains tabId = false) : m.tabs.find? (fun t => t.tabId == tabId) = none := by
  unfold contains at h
  rw [List.find?_eq_none]
  intro x hx
  have := (List.any_eq_false.1 h) x hx
  simpa using this

/-- C12. For every store whose next tab id is not in use (as in every store reached from
the empty one, `wellFormed_run` and `wellFormed_fresh`) and every navigable URL,
`addTab(url, title)` increases `count()` by exactly one, fires `countChanged` exactly once
(followed by one `activeTabChanged`), appends the new tab after all existing tabs, which
keep their order and contents, and makes the new tab the active tab, with exactly the
given URL and title. -/
theorem addTab_appends_active_tab (m : DeclarativeTabModel) (url title : String)
    (hn : navigable url = true) (hfresh : m.contains m.nextTabId = false) :
    (m.addTab url title).count = m.count + 1 ∧
    (m.addTab url title).fired = m.fired ++
      [ModelSignal.countChanged, ModelSignal.activeTabChanged m.activeTabId m.nextTabId false] ∧
    List.count ModelSignal.countChanged
      [ModelSignal.countChanged, ModelSignal.activeTabChanged m.activeTabId m.nextTabId false] = 1 ∧
    (m.addTab url title).tabs = m.tabs ++ [(m.addTab url title).activeTab] ∧
    (m.addTab url title).activeTab.tabId = m.nextTabId ∧
    (m.addTab url title).activeTab.url = url ∧
    (m.addTab url title).activeTab.title = title := by
  have he : m.addTab url title =
      { m with
        tabs := m.tabs ++ [⟨m.nextTabId, url, title, m.nextLinkId, 0, 0⟩]
        activeTabId := m.nextTabId
        nextTabId := m.nextTabId + 1
        links := m.links ++ [⟨m.nextLinkId, m.nextTabId, url, title, 0⟩]
        nextLinkId := m.nextLinkId + 1
        fired := m.fired ++
          [ModelSignal.countChanged,
           ModelSignal.activeTabChanged m.activeTabId m.nextTabId false] } := by
    unfold addTab createTab
    rw [if_pos hn]
  have ha : (m.addTab url title).activeTab = ⟨m.nextTabId, url, title, m.nextLinkId, 0, 0⟩ := by
    rw [he]
    unfold activeTab
    dsimp only
    rw [List.find?_append, find_of_not_contains hfresh]
    simp
  rw [ha]
  rw [he]
  refine ⟨?_, rfl, ?_, rfl, rfl, rfl, rfl⟩
  · simp [count]
  · simp [List.count_cons]

/-- Witness of C12: the second tab of `validTabs` added to the store with one tab. -/
theorem addTab_appends_active_tab_witness :
    (DeclarativeWebContainer.oneTabModel.addTab
      "file:///opt/tests/sailfish-browser/manual/testpage.html" "Test Page").count = 2 ∧
    (DeclarativeWebContainer.oneTabModel.addTab
      "file:///opt/tests/sailfish-browser/manual/testpage.html" "Test Page").activeTab.url =
      "file:///opt/tests/sailfish-browser/manual/testpage.html" :=
  have h := addTab_appends_active_tab DeclarativeWebContainer.oneTabModel
    "file:///opt/tests/sailfish-browser/manual/testpage.html" "Test Page" (by decide) (by decide)
  ⟨h.1, h.2.2.2.2.2.1⟩

/-- Erasing an element that fails the test does not change what `find?` finds. -/
theorem find_eraseIdx {α : Type} (p : α → Bool) (l : List α) (i : Nat) {a : α}
    (h : l.get? i = some a) (hp : p a = false) : (l.eraseIdx i).find? p = l.find? p := by
  induction l generalizing i with
  | nil => rfl
  | cons b rest ih =>
    cases i with
    | zero =>
      simp only [List.get?_cons_zero, Option.some.injEq] at h
      subst h
      simp [List.find?_cons, hp]
    | succ j =>
      simp only [List.get?_cons_succ] at h
      simp only [List.eraseIdx_cons_succ, List.find?_cons]
      cases p b with
      | true => rfl
      | false => exact ih j h

/-- The effect of `remove(index)` on a tab that is not the active one. -/
theorem remove_eq_of_not_active (m : DeclarativeTabModel) (index : Nat) {t : Tab}
    (ht : m.tabs.get? index = some t) (hna : t.tabId ≠ m.activeTabId) :
    m.remove index =
      { m with tabs := m.tabs.eraseIdx index,
               fired := m.fired ++ [ModelSignal.tabClosed t.tabId, ModelSignal.countChanged] } := by
  have hb : (t.tabId == m.activeTabId) = false := by simpa using hna
  unfold remove
  rw [ht]
  dsimp only
  unfold removeAt
  rw [ht, hb]
  simp [fire]

/-- C13. For every store and every valid index whose tab is not the active tab,
`remove(index)` decreases `count()` by one, fires `countChanged` exactly once and
`activeTabChanged` not at all (the other notification is `tabClosed` for the removed tab),
leaves the active tab id and the active tab (id, URL, title, links) unchanged, and keeps
the remaining tabs, unchanged, in their previous order. -/
theorem remove_non_active_tab (m : DeclarativeTabModel) (index : Nat) (t : Tab)
    (ht : m.tabs.get? index = some t) (hna : t.tabId ≠ m.activeTabId) :
    (m.remove index).count + 1 = m.count ∧
    (m.remove index).fired =
      m.fired ++ [ModelSignal.tabClosed t.tabId, ModelSignal.countChanged] ∧
    List.count ModelSignal.countChanged
      [ModelSignal.tabClosed t.tabId, ModelSignal.countChanged] = 1 ∧
    (∀ a b c, ModelSignal.activeTabChanged a b c ∉
      [ModelSignal.tabClosed t.tabId, ModelSignal.countChanged]) ∧
    (m.remove index).activeTabId = m.activeTabId ∧
    (m.remove index).activeTab = m.activeTab ∧
    (m.remove index).tabs = m.tabs.take index ++ m.tabs.drop (index + 1) := by
  have hb : (t.tabId == m.activeTabId) = false := by simpa using hna
  have hlt : index < m.tabs.length := by
    rcases Nat.lt_or_ge index m.tabs.length with h | h
    · exact h
    · rw [List.get?_eq_none.2 h] at ht
      cases ht
  rw [remove_eq_of_not_active m index ht hna]
  refine ⟨?_, rfl, ?_, ?_, rfl, ?_, ?_⟩
  · simp only [count, List.length_eraseIdx, hlt, if_true]
    omega
  · simp [List.count_cons]
  · intro a b c
    simp
  · unfold activeTab
    dsimp only
    rw [find_eraseIdx (fun x => x.tabId == m.activeTabId) m.tabs index ht hb]
  · exact List.eraseIdx_eq_take_drop_succ m.tabs index

/-- Witness of C13: `remove(1)` on three tabs of which the first is active, as in the test
`remove`. -/
theorem remove_non_active_tab_witness :
    (threeTabsModel.remove 1).count + 1 = threeTabsModel.count ∧
    (threeTabsModel.remove 1).activeTab = threeTabsModel.activeTab :=
  have h := remove_non_active_tab threeTabsModel 1
    ⟨2, "file:///opt/tests/sailfish-browser/manual/testpage.html", "Test Page", 2, 0, 0⟩
    (by decide) (by decide)
  ⟨h.1, h.2.2.2.2.2.1⟩

/-- The position `findTabIndex` reports holds a tab with the id asked for. -/
theorem get_of_findTabIndex {m : DeclarativeTabModel} {tabId : Int} {i : Nat}
    (h : m.findTabIndex tabId = (i : Int)) :
    m.tabs.findIdx? (fun t => t.tabId == tabId) = some i ∧
      ∃ t, m.tabs.get? i = some t ∧ t.tabId = tabId := by
  unfold findTabIndex at h
  split at h
  · rename_i k hk
    have hik : k = i := by exact_mod_cast h
    subst hik
    refine ⟨hk, ?_⟩
    obtain ⟨hlt, hp, _⟩ := List.findIdx?_eq_some_iff_getElem.1 hk
    refine ⟨m.tabs[k], ?_, by simpa using hp⟩
    rw [List.get?_eq_getElem?, List.getElem?_eq_getElem hlt]
  · exfalso
    omega

/-- C14. For every store with unique tab ids (as in every store reached from the empty
one, `wellFormed_run`) and at least two tabs whose active tab is at position `i`,
`closeActiveTab()`, which is `removeTabById(activeTabId, true)`, fires
`activeTabChanged` exactly once and `countChanged` exactly once (after `tabClosed` for
the removed tab), decreases `count()` by one, keeps the remaining tabs, unchanged, in their
order, and makes active the tab that immediately preceded the removed one in display
order, or, when the removed tab was the first, the first tab of the remaining list. -/
theorem closeActiveTab_activates_neighbour (m : DeclarativeTabModel) (i : Nat)
    (hcount : 2 ≤ m.count) (hidx : m.findTabIndex m.activeTabId = (i : Int))
    (hnodup : (m.tabs.map (fun t => t.tabId)).Nodup) :
    m.closeActiveTab = m.removeTabById m.activeTabId true ∧
    ∃ n : Tab,
      (if i = 0 then m.tabs.get? 1 else m.tabs.get? (i - 1)) = some n ∧
      (i = 0 → m.closeActiveTab.tabs.head? = some n) ∧
      m.closeActiveTab.fired = m.fired ++
        [ModelSignal.tabClosed m.activeTabId,
         ModelSignal.activeTabChanged m.activeTabId n.tabId true,
         ModelSignal.countChanged] ∧
      List.count (ModelSignal.activeTabChanged m.activeTabId n.tabId true)
        [ModelSignal.tabClosed m.activeTabId,
         ModelSignal.activeTabChanged m.activeTabId n.tabId true,
         ModelSignal.countChanged] = 1 ∧
      List.count ModelSignal.countChanged
        [ModelSignal.tabClosed m.activeTabId,
         ModelSignal.activeTabChanged m.activeTabId n.tabId true,
         ModelSignal.countChanged] = 1 ∧
      m.closeActiveTab.count + 1 = m.count ∧
      m.closeActiveTab.tabs = m.tabs.take i ++ m.tabs.drop (i + 1) ∧
      m.closeActiveTab.activeTabId = n.tabId ∧
      m.closeActiveTab.activeTab = n := by
  refine ⟨rfl, ?_⟩
  obtain ⟨hfind, t, ht, hid⟩ := get_of_findTabIndex hidx
  have hlt : i < m.tabs.length := by
    rcases Nat.lt_or_ge i m.tabs.length with h | h
    · exact h
    · rw [List.get?_eq_none.2 h] at ht
      cases ht
  have hlen : 2 ≤ m.tabs.length := hcount
  -- the tab that takes over
  have hex : ∃ n, (m.tabs.eraseIdx i).get? (i - 1) = some n := by
    have hl : i - 1 < (m.tabs.eraseIdx i).length := by
      rw [List.length_eraseIdx, if_pos hlt]
      omega
    exact ⟨(m.tabs.eraseIdx i)[i - 1], by
      rw [List.get?_eq_getElem?, List.getElem?_eq_getElem hl]⟩
  obtain ⟨n, hn⟩ := hex
  have hclose : m.closeActiveTab =
      { m with tabs := m.tabs.eraseIdx i, activeTabId := n.tabId,
               fired := m.fired ++
                 [ModelSignal.tabClosed m.activeTabId,
                  ModelSignal.activeTabChanged m.activeTabId n.tabId true,
                  ModelSignal.countChanged] } := by
    unfold closeActiveTab removeTabById
    rw [hfind]
    dsimp only
    unfold removeAt
    rw [ht]
    dsimp only
    rw [if_pos rfl, hn]
    simp [fire, hid]
  have horig : (if i = 0 then m.tabs.get? 1 else m.tabs.get? (i - 1)) = some n := by
    rw [List.get?_eq_getElem?, List.getElem?_eraseIdx] at hn
    by_cases h0 : i = 0
    · subst h0
      simpa [List.get?_eq_getElem?] using hn
    · rw [if_neg h0, List.get?_eq_getElem?]
      rw [if_pos (by omega)] at hn
      exact hn
  have hnd : ((m.tabs.eraseIdx i).map (fun t => t.tabId)).Nodup :=
    hnodup.sublist ((List.eraseIdx_sublist m.tabs i).map _)
  refine ⟨n, horig, ?_, ?_⟩
  · intro h0
    subst h0
    rw [hclose]
    dsimp only
    rw [List.head?_eq_getElem?, ← List.get?_eq_getElem?]
    exact hn
  rw [hclose]
  refine ⟨rfl, ?_, ?_, ?_, ?_, rfl, ?_⟩
  · simp [List.count_cons]
  · simp [List.count_cons]
  · simp only [count, List.length_eraseIdx, hlt, if_true]
    omega
  · exact List.eraseIdx_eq_take_drop_succ m.tabs i
  · unfold activeTab
    dsimp only
    rw [find_of_nodup_tabs _ hnd hn]
    rfl

/-- Witness of C14: the test `closeActiveTab` on three tabs of which the first is active;
the second tab of the old list, now the first, takes over. -/
theorem closeActiveTab_activates_neighbour_witness :
    threeTabsModel.closeActiveTab.activeTab.url =
      "file:///opt/tests/sailfish-browser/manual/testpage.html" ∧
    threeTabsModel.closeActiveTab.count = 2 :=
  Exists.elim
    (closeActiveTab_activates_neighbour threeTabsModel 0 (by decide) (by decide)
      (by decide)).2
    (fun n h => ⟨by
      have h1 : some n = some (⟨2, "file:///opt/tests/sailfish-browser/manual/testpage.html",
          "Test Page", 2, 0, 0⟩ : Tab) := h.1.symm.trans (by decide)
      rw [h.2.2.2.2.2.2.2.2, Option.some.inj h1], by decide⟩)

/-- C16. For every tab of the store and every navigable URL, a non-initial
`updateUrl(tabId, isActive, url, false)` appends to the history chain: afterwards the
current link of the tab is the link id announced as next (`nextLinkId`), its previous
link is its former current link, its next link is 0, its URL is the given URL and its
title is empty; the record written has the former current link as parent and the next
link id moves on by one. When the tab is the active one `canGoForward` is false
afterwards, whatever forward history the tab had. -/
theorem updateUrl_appends_to_history (m : DeclarativeTabModel) (tabId : Int)
    (isActive : Bool) (url : String) (t : Tab) (hn : navigable url = true)
    (ht : m.tabs.find? (fun x => x.tabId == tabId) = some t) :
    (m.updateUrl tabId isActive url false).tabs.find? (fun x => x.tabId == tabId) =
      some ⟨t.tabId, url, "", m.nextLinkId, t.currentLink, 0⟩ ∧
    (m.updateUrl tabId isActive url false).links =
      m.links ++ [⟨m.nextLinkId, tabId, url, "", t.currentLink⟩] ∧
    (m.updateUrl tabId isActive url false).nextLinkId = m.nextLinkId + 1 ∧
    (tabId = m.activeTabId →
      (m.updateUrl tabId isActive url false).activeTab =
        ⟨t.tabId, url, "", m.nextLinkId, t.currentLink, 0⟩ ∧
      (m.updateUrl tabId isActive url false).canGoForward = false) := by
  have hf := updateUrl_find m tabId isActive url hn ht
  have ha : tabId = m.activeTabId →
      (m.updateUrl tabId isActive url false).activeTab =
        ⟨t.tabId, url, "", m.nextLinkId, t.currentLink, 0⟩ := by
    intro ha
    unfold activeTab
    rw [updateUrl_activeTabId, ← ha, hf]
    rfl
  refine ⟨hf, ?_, ?_, fun h => ⟨ha h, ?_⟩⟩
  · unfold updateUrl
    rw [if_pos hn, ht]
    rfl
  · unfold updateUrl
    rw [if_pos hn, ht]
    rfl
  · unfold canGoForward
    rw [ha h]
    rfl

/-- Witness of C16: the tab went to three pages and one step back, so it has forward
history; the next navigation gets link 4 with previous link 2 and no next link. -/
theorem updateUrl_appends_to_history_witness :
    ((navigatedModel.goBack 1).updateUrl 1 true "http://www.foobar.com/page4" false).activeTab =
      ⟨1, "http://www.foobar.com/page4", "", 4, 2, 0⟩ ∧
    (navigatedModel.goBack 1).canGoForward = true ∧
    ((navigatedModel.goBack 1).updateUrl 1 true "http://www.foobar.com/page4"
      false).canGoForward = false :=
  have h := (updateUrl_appends_to_history (navigatedModel.goBack 1) 1 true
    "http://www.foobar.com/page4" ⟨1, "http://www.foobar.com/page2", "", 2, 1, 3⟩
    (by decide) (by decide)).2.2.2 (by decide)
  ⟨h.1, by decide, h.2⟩

/-- A found record carries the link id it was looked up by. -/
theorem linkRecord_linkId {m : DeclarativeTabModel} {linkId : Int} {r : HistoryRecord}
    (h : m.linkRecord linkId = some r) : r.linkId = linkId := by
  unfold linkRecord at h
  have := List.find?_some h
  simpa using this

/-- A traversal leaves the records alone. -/
theorem traverse_links (m : DeclarativeTabModel) (tabId linkId : Int) :
    (m.traverse tabId linkId).links = m.links := by
  unfold traverse
  split
  · rfl
  · dsimp only
    split <;> rfl

/-- A traversal seen from the tab it is addressed to. -/
theorem traverse_find (m : DeclarativeTabModel) (tabId linkId : Int) {t : Tab}
    {r : HistoryRecord} (ht : m.tabs.find? (fun x => x.tabId == tabId) = some t)
    (hr : m.linkRecord linkId = some r) :
    (m.traverse tabId linkId).tabs.find? (fun x => x.tabId == tabId) =
      some ⟨t.tabId, r.url, r.title, r.linkId, r.parentLinkId,
        m.forwardLink tabId r.linkId⟩ := by
  have hf := find_mapTab m tabId
    (fun x => { x with url := r.url, title := r.title, currentLink := r.linkId,
                       previousLink := r.parentLinkId,
                       nextLink := m.forwardLink tabId r.linkId })
    (fun _ => rfl) ht
  unfold traverse
  rw [hr]
  dsimp only
  split
  · exact hf
  · exact hf

/-- The active tab id is not touched by a traversal. -/
theorem traverse_activeTabId (m : DeclarativeTabModel) (tabId linkId : Int) :
    (m.traverse tabId linkId).activeTabId = m.activeTabId := by
  unfold traverse
  split
  · rfl
  · dsimp only
    split <;> rfl

/-- Records and forward pointers are read from the records only. -/
theorem linkRecord_congr {m n : DeclarativeTabModel} (h : n.links = m.links) (linkId : Int) :
    n.linkRecord linkId = m.linkRecord linkId := by
  unfold linkRecord
  rw [h]

theorem forwardLink_congr {m n : DeclarativeTabModel} (h : n.links = m.links)
    (tabId linkId : Int) : n.forwardLink tabId linkId = m.forwardLink tabId linkId := by
  unfold forwardLink
  rw [h]

/-- What `onChain` says, as propositions. -/
theorem onChain_spec {m : DeclarativeTabModel} {t : Tab} (h : m.onChain t = true) :
    t.currentLink ≠ 0 ∧
    (∃ r, m.linkRecord t.currentLink = some r ∧ r.url = t.url ∧ r.title = t.title ∧
      r.parentLinkId = t.previousLink) ∧
    m.forwardLink t.tabId t.currentLink = t.nextLink ∧
    (t.previousLink ≠ 0 → (∃ r, m.linkRecord t.previousLink = some r) ∧
      m.forwardLink t.tabId t.previousLink = t.currentLink) := by
  unfold onChain at h
  simp only [Bool.and_eq_true, bne_iff_ne, ne_eq, beq_iff_eq, Bool.or_eq_true] at h
  obtain ⟨⟨⟨h1, h2⟩, h3⟩, h4⟩ := h
  refine ⟨h1, ?_, h3, ?_⟩
  · cases hr : m.linkRecord t.currentLink with
    | none => rw [hr] at h2; cases h2
    | some r =>
      rw [hr] at h2
      simp only [Bool.and_eq_true, beq_iff_eq] at h2
      exact ⟨r, rfl, h2.1.1, h2.1.2, h2.2⟩
  · intro hp
    rcases h4 with h4 | h4
    · exact absurd h4 hp
    · refine ⟨?_, h4.2⟩
      cases hr : m.linkRecord t.previousLink with
      | none => rw [hr] at h4; cases h4.1
      | some r => exact ⟨r, rfl⟩

/-- One step back and one step forward bring a tab that is on its chain back to where it
was. -/
theorem goBack_goForward_find (m : DeclarativeTabModel) (tabId : Int) {t : Tab}
    (ht : m.tabs.find? (fun x => x.tabId == tabId) = some t)
    (hprev : t.previousLink ≠ 0) (hchain : m.onChain t = true) :
    ((m.goBack tabId).goForward tabId).tabs.find? (fun x => x.tabId == tabId) = some t := by
  obtain ⟨hcur, ⟨rc, hrc, hurl, htitle, hparent⟩, hnext, hp⟩ := onChain_spec hchain
  obtain ⟨⟨rp, hrp⟩, hfwd⟩ := hp hprev
  have hid : t.tabId = tabId := by
    have := List.find?_some ht
    simpa using this
  have hb : m.goBack tabId = m.traverse tabId t.previousLink := by
    unfold goBack
    rw [ht]
    simp [hprev]
  have hbl : (m.goBack tabId).links = m.links := by rw [hb, traverse_links]
  have hbf := traverse_find m tabId t.previousLink ht hrp
  rw [← hb] at hbf
  have hrpid := linkRecord_linkId hrp
  have hnx : m.forwardLink tabId rp.linkId = t.currentLink := by
    rw [hrpid, ← hid]
    exact hfwd
  have hf : (m.goBack tabId).goForward tabId =
      (m.goBack tabId).traverse tabId t.currentLink := by
    unfold goForward
    rw [hbf]
    simp [hnx, hcur]
  rw [hf, traverse_find (m.goBack tabId) tabId t.currentLink hbf
    ((linkRecord_congr hbl _).trans hrc), forwardLink_congr hbl]
  have hrcid := linkRecord_linkId hrc
  rw [hrcid, hurl, htitle, hparent, ← hid, hnext]

/-- The store after a tab was added with URL `a` and navigated to `b` and then to `c`. -/
theorem threePages_eq (a b c title : String) (ha : navigable a = true)
    (hb : navigable b = true) (hc : navigable c = true) :
    ((empty.addTab a title).updateUrl 1 true b false).updateUrl 1 true c false =
      { tabs := [⟨1, c, "", 3, 2, 0⟩], activeTabId := 1, nextTabId := 2,
        links := [⟨1, 1, a, title, 0⟩, ⟨2, 1, b, "", 1⟩, ⟨3, 1, c, "", 2⟩], nextLinkId := 4,
        loaded := false, waitingForNewTab := false,
        fired := [ModelSignal.countChanged, ModelSignal.activeTabChanged 0 1 false] } := by
  simp [addTab, createTab, updateUrl, mapTab, empty, ha, hb, hc]

/-- Two steps back from the third page. -/
theorem threePages_back (a b c title : String) (fired : List ModelSignal) :
    (({ tabs := [⟨1, c, "", 3, 2, 0⟩], activeTabId := 1, nextTabId := 2,
        links := [⟨1, 1, a, title, 0⟩, ⟨2, 1, b, "", 1⟩, ⟨3, 1, c, "", 2⟩], nextLinkId := 4,
        loaded := false, waitingForNewTab := false, fired := fired } :
          DeclarativeTabModel).goBack 1).goBack 1 =
      { tabs := [⟨1, a, title, 1, 0, 2⟩], activeTabId := 1, nextTabId := 2,
        links := [⟨1, 1, a, title, 0⟩, ⟨2, 1, b, "", 1⟩, ⟨3, 1, c, "", 2⟩], nextLinkId := 4,
        loaded := false, waitingForNewTab := false,
        fired := fired ++
          [ModelSignal.activeTabChanged 1 1 false, ModelSignal.activeTabChanged 1 1 false] } := by
  simp [goBack, traverse, linkRecord, forwardLink, mapTab, fire]

/-- Two steps forward from the first page. -/
theorem threePages_forward (a b c title : String) (fired : List ModelSignal) :
    (({ tabs := [⟨1, a, title, 1, 0, 2⟩], activeTabId := 1, nextTabId := 2,
        links := [⟨1, 1, a, title, 0⟩, ⟨2, 1, b, "", 1⟩, ⟨3, 1, c, "", 2⟩], nextLinkId := 4,
        loaded := false, waitingForNewTab := false, fired := fired } :
          DeclarativeTabModel).goForward 1).goForward 1 =
      { tabs := [⟨1, c, "", 3, 2, 0⟩], activeTabId := 1, nextTabId := 2,
        links := [⟨1, 1, a, title, 0⟩, ⟨2, 1, b, "", 1⟩, ⟨3, 1, c, "", 2⟩], nextLinkId := 4,
        loaded := false, waitingForNewTab := false,
        fired := fired ++
          [ModelSignal.activeTabChanged 1 1 false, ModelSignal.activeTabChanged 1 1 false] } := by
  simp [goForward, traverse, linkRecord, forwardLink, mapTab, fire]

/-- C15. Back and forward traversal is a round trip: for every tab of the store that is
on its history chain (as every tab is in every store reached from the empty one,
`wellFormed_run` and `wellFormed_onChain`) and has a previous link, `goBack` followed by
`goForward` restores
the tab's URL, title, current link, previous link and next link (and `activeTab()` is the
same as before when the tab is the active one). In particular a tab added with URL `a`
that navigated to `b` and then to `c` shows `a` after two `goBack` steps, with `canGoBack`
false and `canGoForward` true, and two `goForward` steps bring it back to `c`, its links
as before, with `canGoForward` false. -/
theorem goBack_goForward_round_trip (m : DeclarativeTabModel) (tabId : Int) (t : Tab)
    (ht : m.tabs.find? (fun x => x.tabId == tabId) = some t)
    (hprev : t.previousLink ≠ 0) (hchain : m.onChain t = true) :
    ((m.goBack tabId).goForward tabId).tabs.find? (fun x => x.tabId == tabId) = some t ∧
    (tabId = m.activeTabId → ((m.goBack tabId).goForward tabId).activeTab = t) ∧
    (∀ a b c title : String, navigable a = true → navigable b = true → navigable c = true →
      (((((empty.addTab a title).updateUrl 1 true b false).updateUrl 1 true c false).goBack
          1).goBack 1).activeTab.url = a ∧
      (((((empty.addTab a title).updateUrl 1 true b false).updateUrl 1 true c false).goBack
          1).goBack 1).canGoBack = false ∧
      (((((empty.addTab a title).updateUrl 1 true b false).updateUrl 1 true c false).goBack
          1).goBack 1).canGoForward = true ∧
      (((((((empty.addTab a title).updateUrl 1 true b false).updateUrl 1 true c false).goBack
          1).goBack 1).goForward 1).goForward 1).activeTab =
        (((empty.addTab a title).updateUrl 1 true b false).updateUrl 1 true c false).activeTab ∧
      (((((((empty.addTab a title).updateUrl 1 true b false).updateUrl 1 true c false).goBack
          1).goBack 1).goForward 1).goForward 1).activeTab.url = c ∧
      (((((((empty.addTab a title).updateUrl 1 true b false).updateUrl 1 true c false).goBack
          1).goBack 1).goForward 1).goForward 1).canGoForward = false) := by
  have hf := goBack_goForward_find m tabId ht hprev hchain
  refine ⟨hf, ?_, ?_⟩
  · intro ha
    unfold activeTab
    have hact : ((m.goBack tabId).goForward tabId).activeTabId = m.activeTabId := by
      unfold goForward goBack
      repeat' split
      all_goals simp only [traverse_activeTabId]
    rw [hact, ← ha, hf]
    rfl
  · intro a b c title ha hb hc
    rw [threePages_eq a b c title ha hb hc, threePages_back, threePages_forward]
    simp [activeTab, canGoBack, canGoForward]

/-- Witness of C15: the tab of the example store went to three pages; one step back and
one step forward leave it on the third page with links 3, 2 and 0. -/
theorem goBack_goForward_round_trip_witness :
    ((navigatedModel.goBack 1).goForward 1).activeTab =
      ⟨1, "http://www.foobar.com/page3", "", 3, 2, 0⟩ :=
  (goBack_goForward_round_trip navigatedModel 1 ⟨1, "http://www.foobar.com/page3", "", 3, 2, 0⟩
    (by decide) (by decide) (by decide)).2.1 (by decide)

/-- The tabs after `mapTab`, position by position: a tab with another id stays. -/
theorem get_mapTab_other (m : DeclarativeTabModel) (tabId : Int) (f : Tab → Tab) {i : Nat}
    {x : Tab} (hx : m.tabs.get? i = some x) (hne : x.tabId ≠ tabId) :
    (m.mapTab tabId f).tabs.get? i = some x := by
  unfold mapTab
  dsimp only
  rw [List.get?_eq_getElem?] at hx ⊢
  rw [List.getElem?_map, hx]
  simp [hne]

/-- The active tab after `mapTab` on another tab. -/
theorem activeTab_mapTab_other (m : DeclarativeTabModel) (tabId : Int) (f : Tab → Tab)
    (hf : ∀ x, (f x).tabId = x.tabId) (hne : tabId ≠ m.activeTabId) :
    (m.mapTab tabId f).tabs.find? (fun x => x.tabId == m.activeTabId) =
      m.tabs.find? (fun x => x.tabId == m.activeTabId) := by
  unfold mapTab
  dsimp only
  rw [find_map_tabs]
  · cases hfind : m.tabs.find? (fun x => x.tabId == m.activeTabId) with
    | none => rfl
    | some x =>
      have hx : x.tabId = m.activeTabId := by
        have := List.find?_some hfind
        simpa using this
      have hne2 : ¬ x.tabId = tabId := fun h => hne (h ▸ hx)
      simp [hne2]
  · intro x
    split
    · exact hf x
    · rfl

/-- The tabs of the store after `updateTitle`. -/
theorem updateTitle_tabs (m : DeclarativeTabModel) (tabId : Int) (isActive : Bool)
    (url title : String) :
    (m.updateTitle tabId isActive url title).tabs = m.tabs ∨
    (m.updateTitle tabId isActive url title).tabs =
      (m.mapTab tabId (fun x => { x with title := title })).tabs := by
  unfold updateTitle
  split
  · exact Or.inl rfl
  · split
    · exact Or.inr rfl
    · exact Or.inl rfl

/-- The active tab id is not touched by `updateTitle`. -/
theorem updateTitle_activeTabId (m : DeclarativeTabModel) (tabId : Int) (isActive : Bool)
    (url title : String) :
    (m.updateTitle tabId isActive url title).activeTabId = m.activeTabId := by
  unfold updateTitle
  split
  · rfl
  · split <;> rfl

/-- C17. `updateTitle(tabId, isActive, url, title)` sets the title of the tab with that
id, and nothing else of it, when the current URL of the tab equals `url`; it returns the
store as it is when the current URL of the tab differs from `url` (stale update dropped)
or the tab is unknown; and in every case every tab with another id stays as it is at its
position, whatever URL it shows, the number of tabs and the active tab id stay, and
`activeTab()` is unchanged when `tabId` is not the active tab. -/
theorem updateTitle_touches_one_tab (m : DeclarativeTabModel) (tabId : Int)
    (isActive : Bool) (url title : String) :
    (∀ t : Tab, m.tabs.find? (fun x => x.tabId == tabId) = some t → t.url = url →
      (m.updateTitle tabId isActive url title).tabs.find? (fun x => x.tabId == tabId) =
        some ⟨t.tabId, t.url, title, t.currentLink, t.previousLink, t.nextLink⟩) ∧
    (∀ t : Tab, m.tabs.find? (fun x => x.tabId == tabId) = some t → t.url ≠ url →
      m.updateTitle tabId isActive url title = m) ∧
    (m.tabs.find? (fun x => x.tabId == tabId) = none →
      m.updateTitle tabId isActive url title = m) ∧
    (∀ (i : Nat) (x : Tab), m.tabs.get? i = some x → x.tabId ≠ tabId →
      (m.updateTitle tabId isActive url title).tabs.get? i = some x) ∧
    (m.updateTitle tabId isActive url title).count = m.count ∧
    (m.updateTitle tabId isActive url title).activeTabId = m.activeTabId ∧
    (tabId ≠ m.activeTabId →
      (m.updateTitle tabId isActive url title).activeTab = m.activeTab) := by
  refine ⟨?_, ?_, ?_, ?_, ?_, updateTitle_activeTabId m tabId isActive url title, ?_⟩
  · intro t ht hurl
    have he : (m.updateTitle tabId isActive url title).tabs =
        (m.mapTab tabId (fun x => { x with title := title })).tabs := by
      unfold updateTitle
      rw [ht]
      simp [hurl]
    rw [he]
    exact find_mapTab m tabId (fun x => { x with title := title }) (fun _ => rfl) ht
  · intro t ht hurl
    unfold updateTitle
    rw [ht]
    simp [hurl]
  · intro hnone
    unfold updateTitle
    rw [hnone]
  · intro i x hx hne
    rcases updateTitle_tabs m tabId isActive url title with h | h
    · rw [h]
      exact hx
    · rw [h]
      exact get_mapTab_other m tabId _ hx hne
  · unfold count
    rcases updateTitle_tabs m tabId isActive url title with h | h
    · rw [h]
    · rw [h]
      simp [mapTab]
  · intro hne
    unfold activeTab
    rw [updateTitle_activeTabId]
    rcases updateTitle_tabs m tabId isActive url title with h | h
    · rw [h]
    · rw [h, activeTab_mapTab_other m tabId (fun x => { x with title := title })
        (fun _ => rfl) hne]

/-- Witness of C17: two tabs showing the same URL, the second one active; a title for
the first tab leaves the active tab alone, and a title for another URL is dropped. -/
theorem updateTitle_touches_one_tab_witness :
    (sameUrlModel.updateTitle 1 false "http://foobar" "FooBar non active tab").activeTab =
      sameUrlModel.activeTab ∧
    (sameUrlModel.updateTitle 1 false "http://foobar" "FooBar non active tab").tabs.get? 1 =
      some ⟨2, "http://foobar", "FooBar Two", 2, 0, 0⟩ ∧
    sameUrlModel.updateTitle 2 true "http://www.jolla.com" "Jolla" = sameUrlModel :=
  have h := updateTitle_touches_one_tab sameUrlModel 1 false "http://foobar"
    "FooBar non active tab"
  ⟨h.2.2.2.2.2.2 (by decide),
   h.2.2.2.1 1 ⟨2, "http://foobar", "FooBar Two", 2, 0, 0⟩ (by decide) (by decide),
   (updateTitle_touches_one_tab sameUrlModel 2 true "http://www.jolla.com" "Jolla").2.1
     ⟨2, "http://foobar", "FooBar Two", 2, 0, 0⟩ (by decide) (by decide)⟩

/-- C18. For every store with unique tab ids (as in every store reached from the empty
one, `wellFormed_run`) and every valid index `i`,
`activateTab(i, loadRequested)` on a tab that is not active makes that tab the active tab,
fires `activeTabChanged(old, new, loadRequested)` exactly once and nothing else, and leaves
the tabs, their order and everything else of the store unchanged; when the tab at `i` is
already the active one the store stays as it is and nothing is fired. -/
theorem activateTab_switches_active_tab (m : DeclarativeTabModel) (i : Nat)
    (loadRequested : Bool) (t : Tab) (ht : m.tabs.get? i = some t)
    (hnodup : (m.tabs.map (fun x => x.tabId)).Nodup) :
    (t.tabId ≠ m.activeTabId →
      m.activateTab i loadRequested =
        { m with activeTabId := t.tabId,
                 fired := m.fired ++
                   [ModelSignal.activeTabChanged m.activeTabId t.tabId loadRequested] } ∧
      (m.activateTab i loadRequested).activeTab = t ∧
      (m.activateTab i loadRequested).tabs = m.tabs ∧
      List.count (ModelSignal.activeTabChanged m.activeTabId t.tabId loadRequested)
        [ModelSignal.activeTabChanged m.activeTabId t.tabId loadRequested] = 1) ∧
    (t.tabId = m.activeTabId →
      m.activateTab i loadRequested = m ∧ (m.activateTab i loadRequested).fired = m.fired) := by
  constructor
  · intro hne
    have he : m.activateTab i loadRequested =
        { m with activeTabId := t.tabId,
                 fired := m.fired ++
                   [ModelSignal.activeTabChanged m.activeTabId t.tabId loadRequested] } := by
      unfold activateTab
      rw [ht]
      simp [hne, fire]
    refine ⟨he, ?_, ?_, ?_⟩
    · rw [he]
      unfold activeTab
      dsimp only
      rw [find_of_nodup_tabs m.tabs hnodup ht]
      rfl
    · rw [he]
    · simp
  · intro heq
    have he : m.activateTab i loadRequested = m := by
      unfold activateTab
      rw [ht]
      simp [heq]
    rw [he]
    exact ⟨rfl, rfl⟩

/-- Witness of C18: on the three tabs of the example store, of which the first is active,
`activateTab(2, true)` makes the third tab active and `activateTab(0, true)` does
nothing. -/
theorem activateTab_switches_active_tab_witness :
    (threeTabsModel.activateTab 2 true).activeTab =
      ⟨3, "http://www.jolla.com", "Jolla -- we are unlike!", 3, 0, 0⟩ ∧
    threeTabsModel.activateTab 0 true = threeTabsModel :=
  ⟨((activateTab_switches_active_tab threeTabsModel 2 true
      ⟨3, "http://www.jolla.com", "Jolla -- we are unlike!", 3, 0, 0⟩ (by decide)
      (by decide)).1 (by decide)).2.1,
   ((activateTab_switches_active_tab threeTabsModel 0 true
      ⟨1, "http://sailfishos.org", "SailfishOS.org", 1, 0, 0⟩ (by decide)
      (by decide)).2 (by decide)).1⟩

end DeclarativeTabModel
end SailfishBrowser

/-! ## The live-page pool -/

namespace SailfishBrowser
namespace WebPages

/-- Dropping the session of a tab that has one makes the pool smaller. -/
theorem length_drop_lt (p : WebPages) {v : WebPage} (hv : v ∈ p.pages) :
    (p.drop v.tabId).pages.length < p.pages.length := by
  unfold drop
  dsimp only
  rw [List.length_filter_lt_length_iff_exists]
  exact ⟨v, hv, by simp⟩

/-- Dropping keeps the capacity and the active tab. -/
theorem drop_fields (p : WebPages) (tabId : Int) :
    (p.drop tabId).maxLivePages = p.maxLivePages ∧ (p.drop tabId).activeTabId = p.activeTabId ∧
      (p.drop tabId).initialized = p.initialized := ⟨rfl, rfl, rfl⟩

/-- The sessions left after a drop are sessions of the pool, in their order. -/
theorem drop_sublist (p : WebPages) (tabId : Int) : (p.drop tabId).pages.Sublist p.pages :=
  List.filter_sublist p.pages

/-- A session of another tab survives a drop. -/
theorem mem_drop (p : WebPages) {tabId : Int} {s : WebPage} (hs : s ∈ p.pages)
    (hne : s.tabId ≠ tabId) : s ∈ (p.drop tabId).pages := by
  unfold drop
  dsimp only
  rw [List.mem_filter]
  exact ⟨hs, by simpa using hne⟩

/-- An acquire keeps the capacity. -/
theorem page_maxLivePages (p : WebPages) (tab : Tab) (parentId : Int) :
    (p.page tab parentId).1.maxLivePages = p.maxLivePages := by
  unfold page
  split
  · rfl
  · split
    · rfl
    · split <;> rfl

/-- An acquire never takes the pool beyond the larger of its size and its capacity. -/
theorem page_length_le (p : WebPages) (tab : Tab) (parentId : Int) :
    ((p.page tab parentId).1.pages.length : Int) ≤ max (p.pages.length : Int) p.maxLivePages := by
  unfold page
  split
  · rename_i s hs
    have hmem : s ∈ p.pages := List.mem_of_find?_eq_some hs
    have hid : s.tabId = tab.tabId := by
      have := List.find?_some hs
      simpa using this
    have hlt := length_drop_lt p hmem
    rw [hid] at hlt
    dsimp only
    rw [List.length_append, List.length_singleton]
    have : ((p.drop tab.tabId).pages.length + 1 : Int) ≤ p.pages.length := by exact_mod_cast hlt
    push_cast
    exact le_trans this (le_max_left _ _)
  · split
    · rename_i hroom
      dsimp only
      rw [List.length_append, List.length_singleton]
      push_cast
      exact le_trans (by omega) (le_max_right _ _)
    · split
      · rename_i v hv
        have hmem : v ∈ p.pages := List.mem_of_find?_eq_some hv
        have hlt := length_drop_lt p hmem
        dsimp only
        rw [List.length_append, List.length_singleton]
        have : ((p.drop v.tabId).pages.length + 1 : Int) ≤ p.pages.length := by exact_mod_cast hlt
        push_cast
        exact le_trans this (le_max_left _ _)
      · exact le_max_left _ _

/-- The eviction pass keeps capacity and active tab, and only removes sessions. -/
theorem evictDown_fields (p : WebPages) (fuel : Nat) :
    (p.evictDown fuel).maxLivePages = p.maxLivePages ∧
    (p.evictDown fuel).activeTabId = p.activeTabId ∧
    (p.evictDown fuel).pages.Sublist p.pages := by
  induction fuel generalizing p with
  | zero => exact ⟨rfl, rfl, List.Sublist.refl _⟩
  | succ n ih =>
    unfold evictDown
    split
    · exact ⟨rfl, rfl, List.Sublist.refl _⟩
    · split
      · rename_i v hv
        obtain ⟨h1, h2, h3⟩ := ih (p.drop v.tabId)
        exact ⟨h1, h2, h3.trans (drop_sublist p v.tabId)⟩
      · exact ⟨rfl, rfl, List.Sublist.refl _⟩

/-- The eviction pass never evicts a session of the active tab. -/
theorem evictDown_keeps_active (p : WebPages) (fuel : Nat) {s : WebPage} (hs : s ∈ p.pages)
    (ha : s.tabId = p.activeTabId) : s ∈ (p.evictDown fuel).pages := by
  induction fuel generalizing p with
  | zero => exact hs
  | succ n ih =>
    unfold evictDown
    split
    · exact hs
    · split
      · rename_i v hv
        have hvne : v.tabId ≠ p.activeTabId := by
          have := List.find?_some hv
          simpa using this
        exact ih (p.drop v.tabId) (mem_drop p hs (fun h => hvne (h ▸ ha))) ha
      · exact hs

/-- With enough fuel the eviction pass ends within the capacity or with sessions of the
active tab only. -/
theorem evictDown_bound (p : WebPages) (fuel : Nat) (hfuel : p.pages.length ≤ fuel) :
    ((p.evictDown fuel).pages.length : Int) ≤ p.maxLivePages ∨
      ∀ s ∈ (p.evictDown fuel).pages, s.tabId = p.activeTabId := by
  induction fuel generalizing p with
  | zero =>
    right
    intro s hs
    have hnil : p.pages = [] := List.eq_nil_of_length_eq_zero (Nat.le_zero.1 hfuel)
    unfold evictDown at hs
    rw [hnil] at hs
    cases hs
  | succ n ih =>
    unfold evictDown
    split
    · rename_i hle
      exact Or.inl hle
    · split
      · rename_i v hv
        have hmem : v ∈ p.pages := List.mem_of_find?_eq_some hv
        have hlt := length_drop_lt p hmem
        exact ih (p.drop v.tabId) (by omega)
      · rename_i hnone
        right
        intro s hs
        have := (List.find?_eq_none.1 hnone) s hs
        simpa using this

/-- With unique tab ids at most one session belongs to a given tab. -/
theorem length_le_one_of_same_tab (pages : List WebPage) (tabId : Int)
    (hnodup : (pages.map (fun s => s.tabId)).Nodup) (hall : ∀ s ∈ pages, s.tabId = tabId) :
    pages.length ≤ 1 := by
  match pages, hnodup, hall with
  | [], _, _ => simp
  | [_], _, _ => simp
  | a :: b :: rest, hnodup, hall =>
    exfalso
    have ha := hall a (by simp)
    have hb := hall b (by simp)
    simp only [List.map_cons, List.nodup_cons, List.mem_cons] at hnodup
    exact hnodup.1 (Or.inl (ha.trans hb.symm))

/-- Appending the session of a tab that has none left keeps the tab ids unique. -/
theorem nodup_drop_append (p : WebPages) (tabId dropped : Int) (s : WebPage)
    (hs : s.tabId = tabId)
    (hnodup : (p.pages.map (fun x => x.tabId)).Nodup)
    (hfree : ∀ x ∈ (p.drop dropped).pages, x.tabId ≠ tabId) :
    (((p.drop dropped).pages ++ [s]).map (fun x => x.tabId)).Nodup := by
  rw [List.map_append, List.nodup_append]
  refine ⟨hnodup.sublist ((drop_sublist p dropped).map _), by simp, ?_⟩
  intro a ha hb
  simp only [List.map_cons, List.map_nil, List.mem_singleton] at hb
  obtain ⟨x, hx, hxa⟩ := List.mem_map.1 ha
  exact hfree x hx (by rw [hxa, hb, hs])

/-- An acquire keeps the tab ids of the sessions unique: the pool is a mapping from tab
ids to sessions. -/
theorem page_nodup (p : WebPages) (tab : Tab) (parentId : Int)
    (hnodup : (p.pages.map (fun x => x.tabId)).Nodup) :
    ((p.page tab parentId).1.pages.map (fun x => x.tabId)).Nodup := by
  unfold page
  split
  · rename_i s hs
    have hid : s.tabId = tab.tabId := by
      have := List.find?_some hs
      simpa using this
    apply nodup_drop_append p tab.tabId tab.tabId s hid hnodup
    intro x hx
    unfold drop at hx
    simpa using (List.mem_filter.1 hx).2
  · rename_i hnone
    have hfree : ∀ x ∈ p.pages, x.tabId ≠ tab.tabId := by
      intro x hx
      unfold find at hnone
      have := (List.find?_eq_none.1 hnone) x hx
      simpa using this
    split
    · dsimp only
      rw [List.map_append, List.nodup_append]
      refine ⟨hnodup, by simp, ?_⟩
      intro a ha hb
      simp only [List.map_cons, List.map_nil, List.mem_singleton] at hb
      obtain ⟨x, hx, hxa⟩ := List.mem_map.1 ha
      exact hfree x hx (by rw [hxa, hb]; rfl)
    · split
      · rename_i v hv
        apply nodup_drop_append p tab.tabId v.tabId _ rfl hnodup
        intro x hx
        exact hfree x ((drop_sublist p v.tabId).subset hx)
      · exact hnodup

/-- The pool after `setMaxLivePages(n)`: the new capacity, the same active tab, sessions
of the old pool only, none of the active tab missing, and a size within the larger of `n`
and the number of sessions the active tab may keep (one when it is live, none
otherwise). -/
theorem setMaxLivePages_evicts (p : WebPages) (n : Int)
    (hnodup : (p.pages.map (fun s => s.tabId)).Nodup) :
    (p.setMaxLivePages n).2.maxLivePages = n ∧
    (p.setMaxLivePages n).2.activeTabId = p.activeTabId ∧
    (p.setMaxLivePages n).2.pages.Sublist p.pages ∧
    (∀ s ∈ p.pages, s.tabId = p.activeTabId → s ∈ (p.setMaxLivePages n).2.pages) ∧
    ((p.setMaxLivePages n).2.pages.length : Int) ≤
      max n (if p.alive p.activeTabId then 1 else 0) := by
  unfold setMaxLivePages
  dsimp only
  obtain ⟨h1, h2, h3⟩ := evictDown_fields { p with maxLivePages := n } p.pages.length
  refine ⟨h1, h2, h3, ?_, ?_⟩
  · intro s hs ha
    exact evictDown_keeps_active { p with maxLivePages := n } p.pages.length hs ha
  · rcases evictDown_bound { p with maxLivePages := n } p.pages.length (Nat.le_refl _) with h | h
    · exact le_trans h (le_max_left _ _)
    · have hnd : ((evictDown { p with maxLivePages := n } p.pages.length).pages.map
          (fun s => s.tabId)).Nodup := hnodup.sublist (h3.map _)
      have hlen := length_le_one_of_same_tab _ p.activeTabId hnd h
      cases hal : p.alive p.activeTabId with
      | true =>
        simp only [if_true]
        exact le_trans (by exact_mod_cast hlen) (le_max_right _ _)
      | false =>
        have hnil : (evictDown { p with maxLivePages := n } p.pages.length).pages = [] := by
          rw [List.eq_nil_iff_forall_not_mem]
          intro s hs
          have hin : s ∈ p.pages := h3.subset hs
          have hid := h s hs
          unfold alive find at hal
          have hnone : p.pages.find? (fun x => x.tabId == p.activeTabId) = none := by
            cases hf : p.pages.find? (fun x => x.tabId == p.activeTabId) with
            | none => rfl
            | some x => rw [hf] at hal; cases hal
          have := (List.find?_eq_none.1 hnone) s hin
          simp only [beq_iff_eq] at this
          exact this hid
        rw [hnil]
        simp

end WebPages

namespace DeclarativeWebContainer

/-- The effect of `setMaxLiveTabCount` on a container that has its pool. -/
theorem setMaxLiveTabCount_log (c : DeclarativeWebContainer) (p : WebPages) (count : Int)
    (hp : c.m_webPages = some p) :
    ∃ c1, setMaxLiveTabCount c count = some c1 ∧
      c1.m_webPages = some (p.setMaxLivePages count).2 ∧
      c1.log = c.log ++ Event.pool (PoolCall.setMaxLivePages count) ::
        (if (p.setMaxLivePages count).1 then [Event.emitted Signal.maxLiveTabCountChanged]
         else []) := by
  unfold setMaxLiveTabCount
  rw [hp]
  dsimp only
  cases hr : (p.setMaxLivePages count).1 with
  | true => exact ⟨_, rfl, rfl, by simp [emitSignal, record, putWebPages]⟩
  | false => exact ⟨_, rfl, rfl, by simp [record, putWebPages]⟩

/-- C19 as stated fails for a bound below 1: the pool with capacity 1 holds the session of
the active tab 1; after `setMaxLivePages(0)`, a value below the one live page, that session
is still there, so the pool is above its capacity, and it still is after the next
acquire. -/
theorem setMaxLivePages_zero_counterexample :
    (0 : Int) < (WebPages.oneAcquired.pages.length : Int) ∧
    (WebPages.oneAcquired.setMaxLivePages 0).2.maxLivePages = 0 ∧
    (WebPages.oneAcquired.setMaxLivePages 0).2.pages.length = 1 ∧
    ¬ (((WebPages.oneAcquired.setMaxLivePages 0).2.pages.length : Int) ≤
        (WebPages.oneAcquired.setMaxLivePages 0).2.maxLivePages) ∧
    ¬ ((((WebPages.oneAcquired.setMaxLivePages 0).2.page
          ⟨1, "http://sailfishos.org", "", 1, 0, 0⟩ 0).1.pages.length : Int) ≤
        ((WebPages.oneAcquired.setMaxLivePages 0).2.page
          ⟨1, "http://sailfishos.org", "", 1, 0, 0⟩ 0).1.maxLivePages) := by
  decide

/-- C19, amended. An acquire never takes the pool beyond its capacity: a pool within its
capacity is within its capacity after `page(tab, parentId)`, which leaves the capacity as
it is. After `setMaxLivePages(n)` with `n` below the number of live pages of a pool with
unique tab ids (which acquires keep unique, `page_nodup`), the capacity is `n`, the sessions left are sessions of the old pool in
their order, no session of the active tab has been evicted, and the number of live pages is
at most `n` whenever `n` is at least 1 (in general at most the larger of `n` and the one
session the active tab keeps). The container, when it has its pool, returns from
`setMaxLiveTabCount(count)` with the pool updated, and emits `maxLiveTabCountChanged`
exactly when the pool reports that the value changed, which is exactly when `count`
differs from the old capacity. -/
theorem pool_bounded_by_capacity (p : WebPages) (tab : Tab) (parentId n count : Int)
    (c : DeclarativeWebContainer) :
    ((p.pages.length : Int) ≤ p.maxLivePages →
      ((p.page tab parentId).1.pages.length : Int) ≤ (p.page tab parentId).1.maxLivePages) ∧
    (n < (p.pages.length : Int) → (p.pages.map (fun s => s.tabId)).Nodup →
      (p.setMaxLivePages n).2.maxLivePages = n ∧
      (p.setMaxLivePages n).2.activeTabId = p.activeTabId ∧
      (p.setMaxLivePages n).2.pages.Sublist p.pages ∧
      (∀ s ∈ p.pages, s.tabId = p.activeTabId → s ∈ (p.setMaxLivePages n).2.pages) ∧
      ((p.setMaxLivePages n).2.pages.length : Int) ≤
        max n (if p.alive p.activeTabId then 1 else 0) ∧
      (1 ≤ n → ((p.setMaxLivePages n).2.pages.length : Int) ≤
        (p.setMaxLivePages n).2.maxLivePages)) ∧
    (c.m_webPages = some p →
      ∃ c1, setMaxLiveTabCount c count = some c1 ∧
        c1.m_webPages = some (p.setMaxLivePages count).2 ∧
        c1.log = c.log ++ Event.pool (PoolCall.setMaxLivePages count) ::
          (if (p.setMaxLivePages count).1 then [Event.emitted Signal.maxLiveTabCountChanged]
           else []) ∧
        (Event.emitted Signal.maxLiveTabCountChanged ∈ c1.log.drop c.log.length ↔
          (p.setMaxLivePages count).1 = true) ∧
        ((p.setMaxLivePages count).1 = true ↔ count ≠ p.maxLivePages)) := by
  refine ⟨?_, ?_, ?_⟩
  · intro hle
    rw [WebPages.page_maxLivePages]
    exact le_trans (WebPages.page_length_le p tab parentId) (max_le hle (le_refl _))
  · intro _ hnodup
    obtain ⟨h1, h2, h3, h4, h5⟩ := WebPages.setMaxLivePages_evicts p n hnodup
    refine ⟨h1, h2, h3, h4, h5, ?_⟩
    intro hn
    rw [h1]
    refine le_trans h5 (max_le (le_refl _) ?_)
    split
    · exact hn
    · omega
  · intro hp
    obtain ⟨c1, hc1, hpool, hlog⟩ := setMaxLiveTabCount_log c p count hp
    refine ⟨c1, hc1, hpool, hlog, ?_, ?_⟩
    · rw [hlog, List.drop_left]
      cases (p.setMaxLivePages count).1 <;> simp
    · simp [WebPages.setMaxLivePages]

/-- Witness of C19: the pool of capacity 2 that acquired tabs 1, 2 and 3 holds the sessions
of tabs 2 and 3; with the bound lowered to 1 only the session of the active tab 3 is left;
and the container emits the signal for the new value 3 after 5. -/
theorem pool_bounded_by_capacity_witness :
    ((WebPages.threeAcquired.page ⟨1, "http://sailfishos.org", "", 1, 0, 0⟩ 0).1.pages.length :
      Int) ≤ 2 ∧
    ((WebPages.threeAcquired.setMaxLivePages 1).2.pages.length : Int) ≤ 1 ∧
    (∃ c1, setMaxLiveTabCount browsingContainer 3 = some c1 ∧
      c1.log = browsingContainer.log ++
        [Event.pool (PoolCall.setMaxLivePages 3), Event.emitted Signal.maxLiveTabCountChanged]) :=
  have h := pool_bounded_by_capacity WebPages.threeAcquired
    ⟨1, "http://sailfishos.org", "", 1, 0, 0⟩ 0 1 3 browsingContainer
  ⟨h.1 (by decide), (h.2.1 (by decide) (by decide)).2.2.2.2.2 (by decide),
    Exists.elim
      ((pool_bounded_by_capacity
        { initialized := true, maxLivePages := 5, activeTabId := 1,
          pages := [⟨1, 0, true, true, false, false, 100, "http://sailfishos.org",
            "Sailfish OS", true⟩] }
        jollaTab 0 1 3 browsingContainer).2.2 rfl)
      (fun c1 hc => ⟨c1, hc.1, hc.2.2.1⟩)⟩

end DeclarativeWebContainer
end SailfishBrowser

/-! ## Reloading the active tab -/

namespace SailfishBrowser
namespace DeclarativeWebContainer

/-- The pool creates a session, and says so, for a tab without one while there is room. -/
theorem page_flag_of_virtualized {p : WebPages} {tab : Tab} (parentId : Int)
    (hv : p.alive tab.tabId = false) (hroom : (p.pages.length : Int) < p.maxLivePages) :
    (p.page tab parentId).2.2 = true := by
  have hf : p.find tab.tabId = none := by
    unfold WebPages.alive at hv
    cases h : p.find tab.tabId with
    | none => rfl
    | some s => rw [h] at hv; cases hv
  unfold WebPages.page
  rw [hf]
  simp only [hroom, if_true]

/-- Outside the direct reload of the live page, `reload` is the load of the model's active
tab. -/
theorem reload_eq_loadTab {c : DeclarativeWebContainer} {m : DeclarativeTabModel}
    (force : Bool) (h : 0 < c.m_tabId)
    (hnot : ¬ (force = true ∧ ∃ pg, completedPage c = some pg ∧ pg.tabId = c.m_tabId))
    (hm : tabModel c = some m) : reload c force = loadTab c m.activeTab force := by
  unfold reload
  rw [if_pos h]
  cases hc : completedPage c with
  | none => simp [hm]
  | some pg =>
    have hcond : (force && pg.tabId == c.m_tabId) = false := by
      cases hf : force with
      | false => rfl
      | true =>
        simp only [Bool.true_and, beq_eq_false_iff_ne, ne_eq]
        intro hid
        exact hnot ⟨hf, pg, hc, hid⟩
    simp [hcond, hm]

end DeclarativeWebContainer
end SailfishBrowser

/-! ## Load progress and tab switches -/

namespace SailfishBrowser
namespace DeclarativeWebContainer

/-- The stored progress and the trace after `setLoadProgress`. -/
theorem setLoadProgress_spec (c : DeclarativeWebContainer) (n : Int) :
    (setLoadProgress c n).m_loadProgress = n ∧
    (setLoadProgress c n).log =
      c.log ++ (if c.m_loadProgress = n then [] else [Event.emitted Signal.loadProgressChanged]) := by
  unfold setLoadProgress
  by_cases h : c.m_loadProgress = n
  · simp [h]
  · simp [h, emitSignal, record]

/-- The two outcomes of `updateLoadProgress()` with an active page. -/
theorem updateLoadProgress_eq (c : DeclarativeWebContainer) {pg : WebPage}
    (hw : webPage c = some pg) :
    updateLoadProgress c =
      (if (c.m_loadProgress = 0 ∧ pg.loadProgress = 50) ∨ pg.loadProgress ≤ c.m_loadProgress
       then c
       else emitSignal { c with m_loadProgress := pg.loadProgress } Signal.loadProgressChanged) := by
  unfold updateLoadProgress
  rw [hw]
  dsimp only
  by_cases h1 : c.m_loadProgress = 0 ∧ pg.loadProgress = 50
  · rw [if_pos (Or.inl h1)]
    simp [h1.1, h1.2]
  · have hb : (c.m_loadProgress == 0 && pg.loadProgress == 50) = false := by
      cases hx : (c.m_loadProgress == 0 && pg.loadProgress == 50) with
      | false => rfl
      | true =>
        simp only [Bool.and_eq_true, beq_iff_eq] at hx
        exact absurd hx h1
    rw [hb]
    simp only [Bool.false_eq_true, if_false]
    by_cases h2 : c.m_loadProgress < pg.loadProgress
    · have hne : c.m_loadProgress ≠ pg.loadProgress := by omega
      rw [if_pos h2, if_neg (by intro h; rcases h with h | h; exact h1 h; omega)]
      unfold setLoadProgress
      simp [hne]
    · rw [if_neg h2, if_pos (Or.inr (by omega))]

/-- C30. `updateLoadProgress()` never decreases the load progress of the container: with an
active page reporting progress `p` and the container at progress `q`, the new progress is
`q` when `q = 0` and `p = 50`, and `max q p` otherwise; without an active page it is `q`
(the state is returned as it is). Nothing but the progress and the trace is changed, and
`loadProgressChanged` is emitted, once, exactly when the stored value changes. -/
theorem updateLoadProgress_never_decreases (c : DeclarativeWebContainer) :
    c.m_loadProgress ≤ (updateLoadProgress c).m_loadProgress ∧
    (webPage c = none → updateLoadProgress c = c) ∧
    (∀ pg, webPage c = some pg →
      (updateLoadProgress c).m_loadProgress =
        (if c.m_loadProgress = 0 ∧ pg.loadProgress = 50 then c.m_loadProgress
         else max c.m_loadProgress pg.loadProgress)) ∧
    { updateLoadProgress c with m_loadProgress := c.m_loadProgress, log := c.log } = c ∧
    (updateLoadProgress c).log =
      c.log ++ (if (updateLoadProgress c).m_loadProgress = c.m_loadProgress then []
        else [Event.emitted Signal.loadProgressChanged]) := by
  have hcases : webPage c = none ∨ ∃ pg, webPage c = some pg := by
    cases webPage c with
    | none => exact Or.inl rfl
    | some pg => exact Or.inr ⟨pg, rfl⟩
  rcases hcases with hw | ⟨pg, hw⟩
  · have he : updateLoadProgress c = c := by
      unfold updateLoadProgress
      rw [hw]
    rw [he]
    refine ⟨le_refl _, fun _ => rfl, ?_, rfl, by simp⟩
    intro pg hpg
    rw [hw] at hpg
    cases hpg
  · rw [updateLoadProgress_eq c hw]
    have hinj : ∀ pg2, webPage c = some pg2 → pg2 = pg := by
      intro pg2 hpg
      rw [hw] at hpg
      exact (Option.some.inj hpg).symm
    have hnone : webPage c = none → False := by
      intro hc
      rw [hw] at hc
      cases hc
    by_cases h : (c.m_loadProgress = 0 ∧ pg.loadProgress = 50) ∨
        pg.loadProgress ≤ c.m_loadProgress
    · rw [if_pos h]
      refine ⟨le_refl _, fun hc => (hnone hc).elim, ?_, rfl, by simp⟩
      intro pg2 hpg
      rw [hinj pg2 hpg]
      split
      · rfl
      · rename_i h1
        have : pg.loadProgress ≤ c.m_loadProgress := by
          rcases h with h | h
          · exact absurd h h1
          · exact h
        omega
    · rw [if_neg h]
      have hlt : c.m_loadProgress < pg.loadProgress := by
        by_contra hc
        exact h (Or.inr (by omega))
      have h1 : ¬ (c.m_loadProgress = 0 ∧ pg.loadProgress = 50) := fun hc => h (Or.inl hc)
      have hne : ¬ pg.loadProgress = c.m_loadProgress := by omega
      refine ⟨le_of_lt hlt, fun hc => (hnone hc).elim, ?_, rfl, ?_⟩
      · intro pg2 hpg
        rw [hinj pg2 hpg, if_neg h1]
        show pg.loadProgress = max c.m_loadProgress pg.loadProgress
        omega
      · show c.log ++ [Event.emitted Signal.loadProgressChanged] =
          c.log ++ (if pg.loadProgress = c.m_loadProgress then [] else _)
        rw [if_neg hne]

/-- Witness of C30: the browsing container, at progress 0 with its page at 100, moves to
100 and says so. -/
theorem updateLoadProgress_never_decreases_witness :
    (updateLoadProgress browsingContainer).m_loadProgress =
      max browsingContainer.m_loadProgress 100 ∧
    (updateLoadProgress (create false 5)) = create false 5 :=
  ⟨((updateLoadProgress_never_decreases browsingContainer).2.2.1
      ⟨1, 0, true, true, false, false, 100, "http://sailfishos.org", "Sailfish OS", true⟩
      (by decide)).trans (by decide),
   (updateLoadProgress_never_decreases (create false 5)).2.1 (by decide)⟩

/-- The state after `setActiveTabData()` on a container with a model. -/
theorem setActiveTabData_eq (c : DeclarativeWebContainer) {m : DeclarativeTabModel}
    (hm : tabModel c = some m) :
    setActiveTabData c =
      some { c with m_tabId := m.activeTab.tabId,
                    log := c.log ++ (if c.m_tabId = m.activeTab.tabId then []
                      else [Event.emitted Signal.tabIdChanged]) } := by
  unfold setActiveTabData
  rw [hm]
  dsimp only
  by_cases h : c.m_tabId = m.activeTab.tabId
  · simp only [h, bne_self_eq_false, Bool.false_eq_true, if_false, if_true, List.append_nil]
    congr 1
    cases c
    simp_all
  · have hb : (c.m_tabId != m.activeTab.tabId) = true := by simpa using h
    simp only [hb, if_true, if_neg h]
    rfl

/-- C25. `onActiveTabChanged(oldTabId, activeTabId, loadActiveTab)` returns the state as it
is when `activeTabId <= 0`. Otherwise, with a model set, it first sets the container's
`tabId` to the id of the model's active tab, emitting `tabIdChanged` exactly when the value
differs from the old one and changing nothing else, and then runs `reload(false)` exactly
when `loadActiveTab` is true and `oldTabId` differs from `activeTabId`; in the other cases
nothing more is done. -/
theorem onActiveTabChanged_sets_tab_and_reloads (c : DeclarativeWebContainer)
    (oldTabId activeTabId : Int) (loadActiveTab : Bool) :
    (activeTabId ≤ 0 → onActiveTabChanged c oldTabId activeTabId loadActiveTab = some c) ∧
    (0 < activeTabId → ∀ m, tabModel c = some m →
      ∃ c1, setActiveTabData c = some c1 ∧
        c1 = { c with m_tabId := m.activeTab.tabId,
                      log := c.log ++ (if c.m_tabId = m.activeTab.tabId then []
                        else [Event.emitted Signal.tabIdChanged]) } ∧
        c1.m_tabId = m.activeTab.tabId ∧
        onActiveTabChanged c oldTabId activeTabId loadActiveTab =
          (if loadActiveTab = true ∧ oldTabId ≠ activeTabId then reload c1 false
           else some c1)) := by
  constructor
  · intro h
    unfold onActiveTabChanged
    rw [if_pos h]
  · intro h m hm
    have hs := setActiveTabData_eq c hm
    refine ⟨_, hs, rfl, rfl, ?_⟩
    unfold onActiveTabChanged
    rw [if_neg (by omega), hs]
    dsimp only
    cases loadActiveTab with
    | false => simp
    | true =>
      by_cases hne : oldTabId = activeTabId
      · simp [hne]
      · simp [hne]

/-- Witness of C25: with tab 2 active in the model and the page of tab 1 shown, the
switch from tab 1 to tab 2 sets `tabId` to 2 and reloads; a notification without an active
tab changes nothing. -/
theorem onActiveTabChanged_sets_tab_and_reloads_witness :
    onActiveTabChanged switchedContainer 2 0 true = some switchedContainer ∧
    (∃ c1, setActiveTabData switchedContainer = some c1 ∧ c1.m_tabId = 2 ∧
      onActiveTabChanged switchedContainer 1 2 true = reload c1 false) :=
  ⟨(onActiveTabChanged_sets_tab_and_reloads switchedContainer 2 0 true).1 (by decide),
   Exists.elim
     ((onActiveTabChanged_sets_tab_and_reloads switchedContainer 1 2 true).2 (by decide)
       (oneTabModel.addTab "http://sailfishos.org" "SailfishOS.org") (by decide))
     (fun c1 h => ⟨c1, h.1, h.2.2.1, h.2.2.2.trans (if_pos ⟨rfl, by decide⟩)⟩)⟩

/-- In a list with unique keys, erasing a position removes its key. -/
theorem key_not_mem_eraseIdx (tabs : List Tab)
    (hnodup : (tabs.map (fun t => t.tabId)).Nodup) {i : Nat} {a : Tab}
    (ha : tabs.get? i = some a) : ∀ x ∈ tabs.eraseIdx i, x.tabId ≠ a.tabId := by
  induction tabs generalizing i with
  | nil => cases ha
  | cons b rest ih =>
    rw [List.map_cons, List.nodup_cons] at hnodup
    cases i with
    | zero =>
      simp only [List.get?_cons_zero, Option.some.injEq] at ha
      subst ha
      intro x hx heq
      simp only [List.eraseIdx_cons_zero] at hx
      exact hnodup.1 (heq ▸ List.mem_map.2 ⟨x, hx, rfl⟩)
    | succ j =>
      simp only [List.get?_cons_succ] at ha
      intro x hx heq
      simp only [List.eraseIdx_cons_succ, List.mem_cons] at hx
      rcases hx with hx | hx
      · subst hx
        exact hnodup.1 (heq ▸ List.mem_map.2 ⟨a, List.get?_mem ha, rfl⟩)
      · exact ih hnodup.2 ha x hx heq

/-- The tabs after the removal of the tab at a valid position. -/
theorem removeAt_tabs (m : DeclarativeTabModel) (index : Nat) (wasActive : Bool) {t : Tab}
    (ht : m.tabs.get? index = some t) :
    (m.removeAt index wasActive).tabs = m.tabs.eraseIdx index := by
  unfold DeclarativeTabModel.removeAt
  rw [ht]
  dsimp only
  split
  · split <;> rfl
  · rfl

/-- With unique tab ids `removeTabById` leaves no tab with the id. -/
theorem removeTabById_not_contains (m : DeclarativeTabModel) (tabId : Int) (wasActive : Bool)
    (hnodup : (m.tabs.map (fun t => t.tabId)).Nodup) :
    (m.removeTabById tabId wasActive).contains tabId = false := by
  unfold DeclarativeTabModel.removeTabById
  cases hf : m.tabs.findIdx? (fun t => t.tabId == tabId) with
  | none =>
    dsimp only
    unfold DeclarativeTabModel.contains
    rw [List.any_eq_false]
    intro x hx
    have := List.findIdx?_eq_none_iff.1 hf x hx
    simpa using this
  | some i =>
    dsimp only
    obtain ⟨hlt, hp, _⟩ := List.findIdx?_eq_some_iff_getElem.1 hf
    have hget : m.tabs.get? i = some m.tabs[i] := by
      rw [List.get?_eq_getElem?, List.getElem?_eq_getElem hlt]
    have hid : m.tabs[i].tabId = tabId := by simpa using hp
    unfold DeclarativeTabModel.contains
    rw [removeAt_tabs m i wasActive hget, List.any_eq_false]
    intro x hx
    have := key_not_mem_eraseIdx m.tabs hnodup hget x hx
    rw [hid] at this
    simpa using this

/-- The tabs are not touched by `activateTabById`. -/
theorem activateTabById_tabs (m : DeclarativeTabModel) (tabId : Int) :
    (m.activateTabById tabId).tabs = m.tabs := by
  unfold DeclarativeTabModel.activateTabById
  split <;> rfl

/-- The active page is read from the page pointer and the pool only. -/
theorem webPage_putTabModel (c : DeclarativeWebContainer) (m : DeclarativeTabModel) :
    webPage (putTabModel c m) = webPage c := by
  rw [putTabModel_eq]
  rfl

end DeclarativeWebContainer
end SailfishBrowser

/-! ## Windows requested by a page -/

namespace SailfishBrowser
namespace DeclarativeWebContainer

theorem holdings_mk (a1 : Option Int) (a2 : Option Nat) (a3 : Bool) (a4 : Option ModelRef)
    (a5 : Bool) (a6 : Option WebPages) (a7 a8 : DeclarativeTabModel) (a9 a10 a11 : Bool)
    (a12 : Int) (a13 : String) (a14 : Bool) (a15 : Int) (a16 a17 a18 a19 a20 : Bool)
    (a21 a22 : Nat) (a23 : List Event) :
    holdings ⟨a1, a2, a3, a4, a5, a6, a7, a8, a9, a10, a11, a12, a13, a14, a15, a16, a17, a18,
      a19, a20, a21, a22, a23⟩ = (a6, a7, a8, a4) := rfl

theorem holdings_fields (c : DeclarativeWebContainer) :
    (c.m_webPages, c.m_persistentTabModel, c.m_privateTabModel, c.m_model) = holdings c := rfl

@[simp] theorem holdings_record (c : DeclarativeWebContainer) (e : Event) :
    holdings (record c e) = holdings c := rfl

@[simp] theorem holdings_emitSignal (c : DeclarativeWebContainer) (s : Signal) :
    holdings (emitSignal c s) = holdings c := rfl

@[simp] theorem holdings_setLoadProgress (c : DeclarativeWebContainer) (n : Int) :
    holdings (setLoadProgress c n) = holdings c := by
  unfold setLoadProgress
  split <;> rfl

@[simp] theorem holdings_updateContentOrientation (c : DeclarativeWebContainer) :
    holdings (updateContentOrientation c) = holdings c := by
  unfold updateContentOrientation
  split <;> rfl

/-- Setting the active page leaves the pool and the models alone. -/
@[simp] theorem holdings_setWebPage (c : DeclarativeWebContainer) (p : Option Int) :
    holdings (setWebPage c p) = holdings c := by
  unfold setWebPage
  split
  · simp only [holdings_setLoadProgress, holdings_emitSignal]
    cases h : webPage c <;> simp only [] <;> split <;> (try split) <;>
      simp [holdings_mk, holdings_fields]
  · rfl

@[simp] theorem poolCalls_record (c : DeclarativeWebContainer) (e : Event) :
    poolCalls (record c e) = poolCalls c ++ (if isPoolCall e then [e] else []) := by
  simp only [poolCalls, record, List.filter_append, List.filter]
  split <;> simp_all

@[simp] theorem poolCalls_emitSignal (c : DeclarativeWebContainer) (s : Signal) :
    poolCalls (emitSignal c s) = poolCalls c := by
  simp [emitSignal, isPoolCall]

@[simp] theorem poolCalls_setLoadProgress (c : DeclarativeWebContainer) (n : Int) :
    poolCalls (setLoadProgress c n) = poolCalls c := by
  unfold setLoadProgress
  split
  · simp; rfl
  · rfl

@[simp] theorem poolCalls_updateContentOrientation (c : DeclarativeWebContainer) :
    poolCalls (updateContentOrientation c) = poolCalls c := by
  unfold updateContentOrientation
  split <;> simp [isPoolCall]

@[simp] theorem poolCalls_setWebPage (c : DeclarativeWebContainer) (p : Option Int) :
    poolCalls (setWebPage c p) = poolCalls c := by
  unfold setWebPage
  split
  · simp only [poolCalls_setLoadProgress, poolCalls_emitSignal]
    cases h : webPage c <;> simp only [] <;> split <;> (try split) <;>
      simp [poolCalls, record, updateContentOrientation, isPoolCall] <;>
      (try split) <;> simp [isPoolCall]
  · rfl

@[simp] theorem poolCalls_putWebPages (c : DeclarativeWebContainer) (p : WebPages) :
    poolCalls (putWebPages c p) = poolCalls c := rfl

@[simp] theorem holdings_putWebPages (c : DeclarativeWebContainer) (p : WebPages) :
    holdings (putWebPages c p) = (some p, (holdings c).2) := rfl

/-- The models are not touched by `activatePage`. -/
theorem activatePage_models {c c1 : DeclarativeWebContainer} {tab : Tab} {force b : Bool}
    {parentId : Int} (h : activatePage c tab force parentId = some (b, c1)) :
    (holdings c1).2 = (holdings c).2 := by
  unfold activatePage at h
  split at h
  · cases h; rfl
  · split at h
    · cases h
    · dsimp only at h
      split at h
      · split at h
        · cases h
        · cases h; simp
      · cases h; simp

end DeclarativeWebContainer
end SailfishBrowser

/-! ## Windows closed by a page -/

namespace SailfishBrowser
namespace DeclarativeWebContainer

@[simp] theorem modelCalls_record (c : DeclarativeWebContainer) (e : Event) :
    modelCalls (record c e) = modelCalls c ++ (if isModelCall e then [e] else []) := by
  simp only [modelCalls, record, List.filter_append, List.filter]
  split <;> simp_all

@[simp] theorem modelCalls_emitSignal (c : DeclarativeWebContainer) (s : Signal) :
    modelCalls (emitSignal c s) = modelCalls c := by
  simp [emitSignal, isModelCall]

@[simp] theorem modelCalls_setLoadProgress (c : DeclarativeWebContainer) (n : Int) :
    modelCalls (setLoadProgress c n) = modelCalls c := by
  unfold setLoadProgress
  split
  · simp; rfl
  · rfl

@[simp] theorem modelCalls_updateContentOrientation (c : DeclarativeWebContainer) :
    modelCalls (updateContentOrientation c) = modelCalls c := by
  unfold updateContentOrientation
  split <;> simp [isModelCall]

@[simp] theorem modelCalls_setWebPage (c : DeclarativeWebContainer) (p : Option Int) :
    modelCalls (setWebPage c p) = modelCalls c := by
  unfold setWebPage
  split
  · simp only [modelCalls_setLoadProgress, modelCalls_emitSignal]
    cases h : webPage c <;> simp only [] <;> split <;> (try split) <;>
      simp [modelCalls, record, updateContentOrientation, isModelCall] <;>
      (try split) <;> simp [isModelCall]
  · rfl

@[simp] theorem modelCalls_putWebPages (c : DeclarativeWebContainer) (p : WebPages) :
    modelCalls (putWebPages c p) = modelCalls c := rfl

@[simp] theorem modelCalls_putTabModel (c : DeclarativeWebContainer) (m : DeclarativeTabModel) :
    modelCalls (putTabModel c m) = modelCalls c := by
  rw [putTabModel_eq]; rfl

theorem tabModel_of_holdings {c c' : DeclarativeWebContainer}
    (h : (holdings c').2 = (holdings c).2) : tabModel c' = tabModel c := by
  simp only [holdings, Prod.mk.injEq] at h
  unfold tabModel
  rw [h.1, h.2.1, h.2.2]

/-- No command goes to the model in `activatePage`. -/
theorem activatePage_modelCalls {c c1 : DeclarativeWebContainer} {tab : Tab} {force b : Bool}
    {parentId : Int} (h : activatePage c tab force parentId = some (b, c1)) :
    modelCalls c1 = modelCalls c := by
  unfold activatePage at h
  split at h
  · cases h; rfl
  · split at h
    · cases h
    · dsimp only at h
      split at h
      · split at h
        · cases h
        · cases h; simp [isModelCall]
      · cases h; simp [isModelCall]

/-- The models and the commands sent to them are not touched by `loadTab`. -/
theorem loadTab_models {c c' : DeclarativeWebContainer} {tab : Tab} {force : Bool}
    (h : loadTab c tab force = some c') :
    (holdings c').2 = (holdings c).2 ∧ modelCalls c' = modelCalls c := by
  unfold loadTab at h
  split at h
  · cases h
  · rename_i b c1 hact
    have h1 := activatePage_models hact
    have h2 := activatePage_modelCalls hact
    split at h
    · split at h
      · cases h
      · cases h
        exact ⟨by simp [h1], by simp [h2, isModelCall]⟩
    · cases h
      exact ⟨h1, h2⟩

/-- The models and the commands sent to them are not touched by `reload`. -/
theorem reload_models {c c' : DeclarativeWebContainer} {force : Bool}
    (h : reload c force = some c') :
    (holdings c').2 = (holdings c).2 ∧ modelCalls c' = modelCalls c := by
  unfold reload at h
  split at h
  · split at h
    · split at h
      · cases h
        exact ⟨rfl, by simp [isModelCall]⟩
      · split at h
        · exact loadTab_models h
        · cases h
    · split at h
      · exact loadTab_models h
      · cases h
  · cases h
    exact ⟨rfl, rfl⟩

/-- The models and the commands sent to them are not touched by `onActiveTabChanged`. -/
theorem onActiveTabChanged_models {c c' : DeclarativeWebContainer} {oldTabId activeTabId : Int}
    {loadActiveTab : Bool}
    (h : onActiveTabChanged c oldTabId activeTabId loadActiveTab = some c') :
    (holdings c').2 = (holdings c).2 ∧ modelCalls c' = modelCalls c := by
  unfold onActiveTabChanged at h
  split at h
  · cases h
    exact ⟨rfl, rfl⟩
  · split at h
    · cases h
    · rename_i c1 h1
      have hs : (holdings c1).2 = (holdings c).2 ∧ modelCalls c1 = modelCalls c := by
        unfold setActiveTabData at h1
        split at h1
        · cases h1
        · split at h1 <;> cases h1
          · exact ⟨rfl, by simp [emitSignal, isModelCall]; rfl⟩
          · exact ⟨rfl, rfl⟩
      split at h
      · cases h; exact hs
      · split at h
        · obtain ⟨k1, k2⟩ := reload_models h
          exact ⟨k1.trans hs.1, k2.trans hs.2⟩
        · cases h; exact hs

/-- The models and the commands sent to them are not touched by the slots the model's
notifications run inside a model call. -/
theorem deliverActiveTabChanged_models {c c' : DeclarativeWebContainer}
    (signals : List ModelSignal) (h : deliverActiveTabChanged c signals = some c') :
    (holdings c').2 = (holdings c).2 ∧ modelCalls c' = modelCalls c := by
  induction signals generalizing c with
  | nil =>
    simp only [deliverActiveTabChanged, Option.some.injEq] at h
    rw [← h]
    exact ⟨rfl, rfl⟩
  | cons s rest ih =>
    cases s <;> simp only [deliverActiveTabChanged] at h
    case activeTabChanged o n l =>
      split at h
      · rename_i c1 h1
        obtain ⟨k1, k2⟩ := onActiveTabChanged_models h1
        obtain ⟨j1, j2⟩ := ih h
        exact ⟨j1.trans k1, j2.trans k2⟩
      · cases h
    all_goals exact ih h

/-- What `activateTabById` fires: one `activeTabChanged`, asking for a load, when the tab
is in the store and not active yet. -/
theorem firedBy_activateTabById (m : DeclarativeTabModel) (tabId : Int) :
    m.firedBy (m.activateTabById tabId) =
      if m.contains tabId = true ∧ tabId ≠ m.activeTabId then
        [ModelSignal.activeTabChanged m.activeTabId tabId true]
      else [] := by
  unfold DeclarativeTabModel.activateTabById DeclarativeTabModel.firedBy
  by_cases h1 : m.contains tabId = true <;> by_cases h2 : tabId = m.activeTabId <;>
    simp [h1, h2, DeclarativeTabModel.fire]

/-- The active tab after `activateTabById` of a tab of the store. -/
theorem activeTab_activateTabById (m : DeclarativeTabModel) (tabId : Int)
    (h : m.contains tabId = true) : (m.activateTabById tabId).activeTab.tabId = tabId := by
  have hfind : ∃ t, m.tabs.find? (fun t => t.tabId == tabId) = some t ∧ t.tabId = tabId := by
    unfold DeclarativeTabModel.contains at h
    rw [List.any_eq_true] at h
    obtain ⟨x, hx, hp⟩ := h
    cases hf : m.tabs.find? (fun t => t.tabId == tabId) with
    | none =>
      have := List.find?_eq_none.1 hf x hx
      exact absurd hp this
    | some t =>
      have := List.find?_some hf
      exact ⟨t, rfl, by simpa using this⟩
  obtain ⟨t, hf, ht⟩ := hfind
  unfold DeclarativeTabModel.activateTabById
  by_cases h2 : tabId = m.activeTabId
  · simp only [h, h2, bne_self_eq_false, Bool.and_false, Bool.false_eq_true, if_false]
    unfold DeclarativeTabModel.activeTab
    rw [← h2, hf]
    exact ht
  · have hne : (tabId != m.activeTabId) = true := by simpa using h2
    simp only [h, hne, Bool.and_self, if_true]
    unfold DeclarativeTabModel.activeTab DeclarativeTabModel.fire
    simp only [hf, Option.getD_some]
    exact ht

/-- Shape of `closeWindow()` for a script-opened page: the activation of the parent, the
slots it runs, then the removal with the flag read on the state the slots leave. -/
theorem closeWindow_eq (c : DeclarativeWebContainer) (sender : Option Int) {pg : WebPage}
    {m : DeclarativeTabModel} (hpg : pageOf c sender = some pg) (hm : tabModel c = some m)
    (hparent : 0 < parentTabId c pg.tabId) :
    closeWindow c sender =
      (deliverActiveTabChanged
        (record (putTabModel c (m.activateTabById (parentTabId c pg.tabId)))
          (Event.model (ModelCall.activateTabById (parentTabId c pg.tabId))))
        (m.firedBy (m.activateTabById (parentTabId c pg.tabId)))).map
        (fun c2 =>
          record (putTabModel c2
              ((m.activateTabById (parentTabId c pg.tabId)).removeTabById pg.tabId
                (isActiveTab c2 pg.tabId)))
            (Event.model (ModelCall.removeTabById pg.tabId (isActiveTab c2 pg.tabId)))) := by
  have hm1 : tabModel (record (putTabModel c (m.activateTabById (parentTabId c pg.tabId)))
      (Event.model (ModelCall.activateTabById (parentTabId c pg.tabId)))) =
      some (m.activateTabById (parentTabId c pg.tabId)) := tabModel_putTabModel hm _
  unfold closeWindow
  rw [hpg, hm]
  dsimp only
  rw [if_pos hparent]
  cases hd : deliverActiveTabChanged
      (record (putTabModel c (m.activateTabById (parentTabId c pg.tabId)))
        (Event.model (ModelCall.activateTabById (parentTabId c pg.tabId))))
      (m.firedBy (m.activateTabById (parentTabId c pg.tabId))) with
  | none => rfl
  | some c2 =>
    have hm2 : tabModel c2 = some (m.activateTabById (parentTabId c pg.tabId)) := by
      rw [tabModel_of_holdings (deliverActiveTabChanged_models _ hd).1]
      exact hm1
    simp only [hm2, Option.map_some']

/-- The guard of a forced activation reads the pool, the page component and the tab id. -/
theorem activationGuard_forced_eq {c c1 : DeclarativeWebContainer} {m m1 : DeclarativeTabModel}
    (tab : Tab) (hm : tabModel c = some m) (hm1 : tabModel c1 = some m1)
    (hp : c1.m_webPages = c.m_webPages) (hc : c1.m_webPageComponent = c.m_webPageComponent) :
    activationGuard c1 tab true = activationGuard c tab true := by
  unfold activationGuard
  rw [hm, hm1, hp, hc]
  cases c.m_webPages <;> simp

/-- What `setActiveTabData()` leaves alone. -/
theorem setActiveTabData_frame (c : DeclarativeWebContainer) {m : DeclarativeTabModel}
    (hm : tabModel c = some m) :
    ∃ c1, setActiveTabData c = some c1 ∧ tabModel c1 = some m ∧
      c1.m_webPages = c.m_webPages ∧ c1.m_webPageComponent = c.m_webPageComponent ∧
      c1.m_tabId = m.activeTab.tabId ∧ webPage c1 = webPage c :=
  ⟨_, setActiveTabData_eq c hm, hm, rfl, rfl, rfl, rfl⟩

/-- The page shown after the slot `onActiveTabChanged` asked for the load of another tab:
under the guard of the forced activation it is the page of the model's active tab. -/
theorem onActiveTabChanged_page {c c2 : DeclarativeWebContainer} {m : DeclarativeTabModel}
    {oldTabId activeTabId : Int} (hm : tabModel c = some m) (hpos : 0 < activeTabId)
    (hne : oldTabId ≠ activeTabId)
    (hg : activationGuard c m.activeTab true = true)
    (h : onActiveTabChanged c oldTabId activeTabId true = some c2) :
    ∃ pg, webPage c2 = some pg ∧ pg.tabId = m.activeTab.tabId := by
  have htab : 0 < m.activeTab.tabId := by
    unfold activationGuard at hg
    rw [hm] at hg
    cases hp : c.m_webPages with
    | none => simp [hp] at hg
    | some p =>
      simp only [hp, Bool.and_eq_true, decide_eq_true_eq] at hg
      exact hg.1.2
  obtain ⟨c1, hs, hm1, hp1, hc1, ht1, _⟩ := setActiveTabData_frame c hm
  unfold onActiveTabChanged at h
  rw [if_neg (by omega), hs] at h
  have hne2 : (oldTabId != activeTabId) = true := by simpa using hne
  simp only [Bool.not_true, Bool.false_eq_true, if_false, hne2, if_true] at h
  rw [reload_eq_loadTab false (by rw [ht1]; exact htab) (by intro hc; cases hc.1) hm1] at h
  have hg1 : activationGuard c1 m.activeTab true = true := by
    rw [activationGuard_forced_eq m.activeTab hm hm1 hp1 hc1]
    exact hg
  unfold loadTab at h
  split at h
  · cases h
  · rename_i b c3 hact
    obtain ⟨pg, hpg, hid⟩ := activatePage_page hact hg1
    split at h
    · split at h
      · cases h
      · cases h
        exact ⟨pg, by rw [webPage_record]; exact hpg, hid⟩
    · cases h
      exact ⟨pg, hpg, hid⟩

/-- The page shown after the slot `onActiveTabChanged` asked for the load of another tab
whose forced activation fails its guard: the page shown before. -/
theorem onActiveTabChanged_page_unguarded {c c2 : DeclarativeWebContainer}
    {m : DeclarativeTabModel} {oldTabId activeTabId : Int} (hm : tabModel c = some m)
    (hpos : 0 < activeTabId) (hne : oldTabId ≠ activeTabId) (htab : 0 < m.activeTab.tabId)
    (hg : activationGuard c m.activeTab true = false)
    (h : onActiveTabChanged c oldTabId activeTabId true = some c2) :
    webPage c2 = webPage c := by
  obtain ⟨c1, hs, hm1, hp1, hc1, ht1, hw1⟩ := setActiveTabData_frame c hm
  unfold onActiveTabChanged at h
  rw [if_neg (by omega), hs] at h
  have hne2 : (oldTabId != activeTabId) = true := by simpa using hne
  simp only [Bool.not_true, Bool.false_eq_true, if_false, hne2, if_true] at h
  rw [reload_eq_loadTab false (by rw [ht1]; exact htab) (by intro hc; cases hc.1) hm1] at h
  have hg1 : activationGuard c1 m.activeTab true = false := by
    rw [activationGuard_forced_eq m.activeTab hm hm1 hp1 hc1]
    exact hg
  rw [(loadTab_unguarded h hg1).1, hw1]

/-- The slot `onActiveTabChanged` returns when the page of the model's active tab is
available. -/
theorem onActiveTabChanged_returns {c : DeclarativeWebContainer} {m : DeclarativeTabModel}
    (oldTabId activeTabId : Int) (loadActiveTab : Bool) (hm : tabModel c = some m)
    (ha : pageAvailable c m.activeTab = true) :
    ∃ c2, onActiveTabChanged c oldTabId activeTabId loadActiveTab = some c2 := by
  have htab : 0 < m.activeTab.tabId := by
    unfold pageAvailable at ha
    cases hp : c.m_webPages with
    | none => simp [hp] at ha
    | some p =>
      simp only [hp, Bool.and_eq_true, decide_eq_true_eq] at ha
      exact ha.1.2
  obtain ⟨c1, hs, hm1, hp1, hc1, ht1, _⟩ := setActiveTabData_frame c hm
  have ha1 : pageAvailable c1 m.activeTab = true := by
    unfold pageAvailable at ha ⊢
    rw [hp1, hc1]
    exact ha
  unfold onActiveTabChanged
  by_cases h0 : activeTabId ≤ 0
  · exact ⟨c, by rw [if_pos h0]⟩
  · rw [if_neg h0, hs]
    dsimp only
    by_cases hl : loadActiveTab = true
    · by_cases hne : oldTabId = activeTabId
      · exact ⟨c1, by simp [hl, hne]⟩
      · have hne2 : (oldTabId != activeTabId) = true := by simpa using hne
        simp only [hl, Bool.not_true, Bool.false_eq_true, if_false, hne2, if_true]
        rw [reload_eq_loadTab false (by rw [ht1]; exact htab) (by intro hc; cases hc.1) hm1]
        obtain ⟨b, c3, pg, hact, hpg⟩ := activatePage_returns hm1 0 ha1
        unfold loadTab
        rw [hact]
        cases b <;> simp [hpg]
    · exact ⟨c1, by simp [hl]⟩

/-- One `activeTabChanged` is delivered by running the slot once. -/
theorem deliverActiveTabChanged_one (c : DeclarativeWebContainer) (o n : Int) (l : Bool) :
    deliverActiveTabChanged c [ModelSignal.activeTabChanged o n l] =
      onActiveTabChanged c o n l := by
  simp only [deliverActiveTabChanged]
  cases onActiveTabChanged c o n l <;> rfl

/-- C21. Closing a window from page script is allowed only for script-opened tabs. For a
page that sends `closeWindow()` while a model is set: when the pool records a parent tab id
greater than 0 for the tab of the page, every call that returns has sent the model
`activateTabById(parent)` and then `removeTabById(tabId, isActiveTab(tabId))` and nothing
else, so that with unique tab ids the model no longer contains the tab. The flag is read
after the activation: when the activation changes nothing (the parent is not in the model
or is active already) it is the flag of the state before; when it changes the active tab,
the slot `onActiveTabChanged` has run inside it and, under the guard of its forced
activation, shows the page of the parent, so the flag is false for a page that is not its
own parent; when that guard fails the page shown is still the one of the state before.
The call returns when the
activation changes nothing or the page of the parent is available. When the recorded
parent is 0 (or less) the state, the model included, is returned as it is. Without a pool
no parent is recorded (`parentTabId` is 0) and the state is returned as it is, as it is
without a sending page or without a model. -/
theorem closeWindow_only_for_script_windows (c : DeclarativeWebContainer)
    (sender : Option Int) :
    (∀ pg m, pageOf c sender = some pg → tabModel c = some m →
      0 < parentTabId c pg.tabId →
      (∀ c', closeWindow c sender = some c' →
        ∃ c2,
          deliverActiveTabChanged
            (record (putTabModel c (m.activateTabById (parentTabId c pg.tabId)))
              (Event.model (ModelCall.activateTabById (parentTabId c pg.tabId))))
            (m.firedBy (m.activateTabById (parentTabId c pg.tabId))) = some c2 ∧
          tabModel c' =
            some ((m.activateTabById (parentTabId c pg.tabId)).removeTabById pg.tabId
              (isActiveTab c2 pg.tabId)) ∧
          modelCalls c' = modelCalls c ++
            [Event.model (ModelCall.activateTabById (parentTabId c pg.tabId)),
             Event.model (ModelCall.removeTabById pg.tabId (isActiveTab c2 pg.tabId))] ∧
          ((m.tabs.map (fun t => t.tabId)).Nodup →
            ∃ m2, tabModel c' = some m2 ∧ m2.contains pg.tabId = false) ∧
          ((m.contains (parentTabId c pg.tabId) = false ∨
              parentTabId c pg.tabId = m.activeTabId) →
            isActiveTab c2 pg.tabId = isActiveTab c pg.tabId) ∧
          (m.contains (parentTabId c pg.tabId) = true →
            parentTabId c pg.tabId ≠ m.activeTabId →
            activationGuard c (m.activateTabById (parentTabId c pg.tabId)).activeTab true =
              true →
            isActiveTab c2 pg.tabId = (parentTabId c pg.tabId == pg.tabId)) ∧
          (m.contains (parentTabId c pg.tabId) = true →
            parentTabId c pg.tabId ≠ m.activeTabId →
            activationGuard c (m.activateTabById (parentTabId c pg.tabId)).activeTab true =
              false →
            isActiveTab c2 pg.tabId = isActiveTab c pg.tabId)) ∧
      ((m.contains (parentTabId c pg.tabId) = false ∨
          parentTabId c pg.tabId = m.activeTabId ∨
          pageAvailable c (m.activateTabById (parentTabId c pg.tabId)).activeTab = true) →
        ∃ c', closeWindow c sender = some c')) ∧
    (∀ pg, pageOf c sender = some pg → parentTabId c pg.tabId ≤ 0 →
      closeWindow c sender = some c) ∧
    (c.m_webPages = none →
      (∀ tabId, parentTabId c tabId = 0) ∧ closeWindow c sender = some c) ∧
    (pageOf c sender = none ∨ tabModel c = none → closeWindow c sender = some c) := by
  refine ⟨?_, ?_, ?_, ?_⟩
  · intro pg m hpg hm hparent
    have he := closeWindow_eq c sender hpg hm hparent
    have hfired := firedBy_activateTabById m (parentTabId c pg.tabId)
    have hactive := activeTab_activateTabById m (parentTabId c pg.tabId)
    generalize parentTabId c pg.tabId = P at he hparent hfired hactive ⊢
    have hm1 : tabModel (record (putTabModel c (m.activateTabById P))
        (Event.model (ModelCall.activateTabById P))) = some (m.activateTabById P) :=
      tabModel_putTabModel hm _
    have hw1 : webPage (record (putTabModel c (m.activateTabById P))
        (Event.model (ModelCall.activateTabById P))) = webPage c := by
      rw [webPage_record, webPage_putTabModel]
    have hcalls1 : modelCalls (record (putTabModel c (m.activateTabById P))
        (Event.model (ModelCall.activateTabById P))) =
        modelCalls c ++ [Event.model (ModelCall.activateTabById P)] := by
      simp [isModelCall]
    have hpool1 : (record (putTabModel c (m.activateTabById P))
        (Event.model (ModelCall.activateTabById P))).m_webPages = c.m_webPages := by
      rw [putTabModel_eq]; rfl
    have hcomp1 : (record (putTabModel c (m.activateTabById P))
        (Event.model (ModelCall.activateTabById P))).m_webPageComponent =
        c.m_webPageComponent := by
      rw [putTabModel_eq]; rfl
    generalize record (putTabModel c (m.activateTabById P))
      (Event.model (ModelCall.activateTabById P)) = c1 at he hm1 hw1 hcalls1 hpool1 hcomp1 ⊢
    constructor
    · intro c' hc'
      rw [he] at hc'
      cases hd : deliverActiveTabChanged c1 (m.firedBy (m.activateTabById P)) with
      | none => simp [hd] at hc'
      | some c2 =>
        simp only [hd, Option.map_some', Option.some.injEq] at hc'
        have hfr := deliverActiveTabChanged_models _ hd
        have hm2 : tabModel c2 = some (m.activateTabById P) := by
          rw [tabModel_of_holdings hfr.1]
          exact hm1
        have hres : tabModel c' = some ((m.activateTabById P).removeTabById pg.tabId
            (isActiveTab c2 pg.tabId)) := by
          rw [← hc']
          exact tabModel_putTabModel hm2 _
        refine ⟨c2, rfl, hres, ?_, ?_, ?_, ?_, ?_⟩
        · rw [← hc']
          simp [isModelCall, hfr.2, hcalls1]
        · intro hnodup
          refine ⟨_, hres, ?_⟩
          apply removeTabById_not_contains
          rw [activateTabById_tabs]
          exact hnodup
        · intro hno
          have hnil : m.firedBy (m.activateTabById P) = [] := by
            rw [hfired, if_neg]
            rintro ⟨k1, k2⟩
            rcases hno with hno | hno
            · rw [hno] at k1; cases k1
            · exact k2 hno
          rw [hnil] at hd
          simp only [deliverActiveTabChanged, Option.some.injEq] at hd
          unfold isActiveTab
          rw [← hd, hw1]
        · intro hin hne hg
          rw [hfired, if_pos ⟨hin, hne⟩, deliverActiveTabChanged_one] at hd
          have hg1 : activationGuard c1 (m.activateTabById P).activeTab true = true := by
            rw [activationGuard_forced_eq _ hm hm1 hpool1 hcomp1]
            exact hg
          obtain ⟨pg2, hpg2, hid⟩ :=
            onActiveTabChanged_page hm1 hparent (fun k => hne k.symm) hg1 hd
          unfold isActiveTab
          rw [hpg2]
          dsimp only
          rw [hid, hactive hin]
        · intro hin hne hg
          rw [hfired, if_pos ⟨hin, hne⟩, deliverActiveTabChanged_one] at hd
          have hg1 : activationGuard c1 (m.activateTabById P).activeTab true = false := by
            rw [activationGuard_forced_eq _ hm hm1 hpool1 hcomp1]
            exact hg
          have hw2 := onActiveTabChanged_page_unguarded hm1 hparent (fun k => hne k.symm)
            (by rw [hactive hin]; exact hparent) hg1 hd
          unfold isActiveTab
          rw [hw2, hw1]
    · intro hret
      rw [he]
      by_cases hsig : m.contains P = true ∧ P ≠ m.activeTabId
      · have hav : pageAvailable c (m.activateTabById P).activeTab = true := by
          rcases hret with h | h | h
          · rw [h] at hsig; cases hsig.1
          · exact absurd h hsig.2
          · exact h
        have hav1 : pageAvailable c1 (m.activateTabById P).activeTab = true := by
          unfold pageAvailable at hav ⊢
          rw [hpool1, hcomp1]
          exact hav
        obtain ⟨c2, hc2⟩ := onActiveTabChanged_returns m.activeTabId P true hm1 hav1
        rw [hfired, if_pos hsig, deliverActiveTabChanged_one, hc2]
        exact ⟨_, rfl⟩
      · rw [hfired, if_neg hsig]
        exact ⟨_, rfl⟩
  · intro pg hpg hparent
    unfold closeWindow
    rw [hpg]
    cases tabModel c with
    | none => rfl
    | some m =>
      dsimp only
      rw [if_neg (by omega)]
  · intro hp
    have h0 : ∀ tabId, parentTabId c tabId = 0 := by
      intro tabId
      unfold parentTabId
      rw [hp]
    refine ⟨h0, ?_⟩
    have hnone : pageOf c sender = none := by
      unfold pageOf
      rw [hp]
      cases sender <;> rfl
    unfold closeWindow
    rw [hnone]
  · intro h
    unfold closeWindow
    rcases h with h | h
    · rw [h]
    · rw [h]
      cases pageOf c sender <;> rfl

/-- Witness of C21: the page of tab 2 was opened by a script of tab 1 and is the page
shown. Its `closeWindow()` activates tab 1, whose page is shown by the slot that runs
inside the activation, and then removes tab 2 as a tab that is not the active one; the
page of tab 1 has no parent and its `closeWindow()` changes nothing. -/
theorem closeWindow_only_for_script_windows_witness :
    (∃ c', closeWindow scriptWindowContainer (some 2) = some c' ∧
      modelCalls c' = modelCalls scriptWindowContainer ++
        [Event.model (ModelCall.activateTabById 1),
         Event.model (ModelCall.removeTabById 2 false)]) ∧
    closeWindow scriptWindowContainer (some 1) = some scriptWindowContainer := by
  have h := (closeWindow_only_for_script_windows scriptWindowContainer (some 2)).1
    ⟨2, 1, true, false, false, false, 100, "http://sailfishos.org/popup", "", true⟩
    (oneTabModel.addTab "http://sailfishos.org/popup" "") (by decide) (by decide)
    (by decide)
  obtain ⟨c', hc'⟩ := h.2 (Or.inr (Or.inr (by decide)))
  obtain ⟨c2, _, _, hcalls, _, _, hflag, _⟩ := h.1 c' hc'
  have hf := hflag (by decide) (by decide) (by decide)
  rw [hf] at hcalls
  exact ⟨⟨c', hc', hcalls⟩,
    (closeWindow_only_for_script_windows scriptWindowContainer (some 1)).2.1
      ⟨1, 0, true, true, false, false, 100, "http://sailfishos.org", "Sailfish OS", true⟩
      (by decide) (by decide)⟩

end DeclarativeWebContainer
end SailfishBrowser

/-! ## URL changes of a page -/

namespace SailfishBrowser
namespace DeclarativeWebContainer

end DeclarativeWebContainer
end SailfishBrowser

/-! ## Releasing pages -/

namespace SailfishBrowser
namespace DeclarativeWebContainer

/-- Looking up a session of another tab after a release. -/
theorem find_release (p : WebPages) (tabId h : Int) (virtualize : Bool) :
    (p.release tabId virtualize).find h = if h = tabId then none else p.find h := by
  unfold WebPages.release WebPages.drop WebPages.find
  dsimp only
  induction p.pages with
  | nil => simp
  | cons a rest ih =>
    by_cases ha : a.tabId = tabId
    · have hb : (a.tabId != tabId) = false := by simp [ha]
      rw [List.filter_cons, hb]
      simp only [Bool.false_eq_true, if_false]
      rw [ih]
      by_cases hh : h = tabId
      · simp [hh]
      · have : (a.tabId == h) = false := by
          simp only [beq_eq_false_iff_ne, ne_eq]
          intro he
          exact hh (he ▸ ha)
        simp [hh, List.find?_cons, this]
    · have hb : (a.tabId != tabId) = true := by simp [ha]
      rw [List.filter_cons, hb]
      simp only [if_true, List.find?_cons]
      by_cases hh : h = tabId
      · have : (a.tabId == h) = false := by
          simp only [beq_eq_false_iff_ne, ne_eq]
          intro he
          exact ha (he.trans hh)
        rw [this]
        simp only [hh, if_true] at ih ⊢
        exact ih
      · cases hx : a.tabId == h with
        | true => simp [hh]
        | false =>
          simp only [hh, if_false] at ih ⊢
          exact ih

/-- The active page after the pool released a tab: gone when it was the page of that tab,
otherwise the page it was. -/
theorem webPage_release (c : DeclarativeWebContainer) {p : WebPages} (tabId : Int)
    (virtualize : Bool) (hp : c.m_webPages = some p) :
    webPage (record (putWebPages c (p.release tabId virtualize))
        (Event.pool (PoolCall.release tabId virtualize))) =
      if c.m_webPage = some tabId then none else webPage c := by
  rw [webPage_record]
  unfold webPage pageOf putWebPages
  dsimp only
  cases hw : c.m_webPage with
  | none => simp
  | some h =>
    simp only [hp, WebPages.alive, find_release]
    by_cases hh : h = tabId
    · simp [hh]
    · simp only [hh, if_false, Option.some.injEq]
      cases hf : p.find h with
      | none => simp
      | some pg => simp [find_release, hh, hf]

/-- The property changes of `releasePage` after the last page went away. -/
theorem clearActivePageData_spec (c : DeclarativeWebContainer) :
    (clearActivePageData c).m_tabId = 0 ∧ (clearActivePageData c).m_loadProgress = 0 ∧
    (clearActivePageData c).log = c.log ++
      ((if c.m_tabId = 0 then [] else [Event.emitted Signal.tabIdChanged]) ++
       [Event.emitted Signal.contentItemChanged, Event.emitted Signal.loadingChanged] ++
       (if c.m_loadProgress = 0 then [] else [Event.emitted Signal.loadProgressChanged])) := by
  unfold clearActivePageData
  dsimp only
  by_cases ht : c.m_tabId = 0 <;> by_cases hl : c.m_loadProgress = 0 <;>
    simp [ht, hl, setLoadProgress, emitSignal, record]

/-- C24. Releasing the last page empties the container. With a page pool present,
`releasePage(tabId, virtualize)` has the pool release the tab; the active page is then
gone when it was the page of that tab and is the page it was otherwise. If after that there
is no active page, or the tab model has no tabs, the call returns with the container's
`tabId` 0 and `loadProgress` 0, having emitted `tabIdChanged` exactly when `tabId` was not
0 before (then `contentItemChanged` and `loadingChanged`, and `loadProgressChanged` when
the progress was not 0). Otherwise, with a page left and a model that has tabs, `tabId` and
`loadProgress` are as before and nothing is emitted. -/
theorem releasePage_empties_container (c : DeclarativeWebContainer) (tabId : Int)
    (virtualize : Bool) (p : WebPages) (hp : c.m_webPages = some p)
    (c1 : DeclarativeWebContainer)
    (hc1 : c1 = record (putWebPages c (p.release tabId virtualize))
      (Event.pool (PoolCall.release tabId virtualize))) :
    webPage c1 = (if c.m_webPage = some tabId then none else webPage c) ∧
    ((webPage c1 = none ∨ ∃ m, tabModel c = some m ∧ m.count = 0) →
      ∃ c2, releasePage c tabId virtualize = some c2 ∧
        c2.m_tabId = 0 ∧ c2.m_loadProgress = 0 ∧
        c2.log = c.log ++ [Event.pool (PoolCall.release tabId virtualize)] ++
          ((if c.m_tabId = 0 then [] else [Event.emitted Signal.tabIdChanged]) ++
           [Event.emitted Signal.contentItemChanged, Event.emitted Signal.loadingChanged] ++
           (if c.m_loadProgress = 0 then [] else [Event.emitted Signal.loadProgressChanged])) ∧
        (Event.emitted Signal.tabIdChanged ∈ c2.log.drop c.log.length ↔ c.m_tabId ≠ 0)) ∧
    (∀ pg m, webPage c1 = some pg → tabModel c = some m → m.count ≠ 0 →
      releasePage c tabId virtualize = some c1 ∧ c1.m_tabId = c.m_tabId ∧
      c1.m_loadProgress = c.m_loadProgress ∧
      c1.log = c.log ++ [Event.pool (PoolCall.release tabId virtualize)]) := by
  have hweb : webPage c1 = (if c.m_webPage = some tabId then none else webPage c) := by
    rw [hc1]
    exact webPage_release c tabId virtualize hp
  have hmodel : tabModel c1 = tabModel c := by
    rw [hc1]
    rfl
  have hrel : releasePage c tabId virtualize =
      (releasedLast c1).map (fun b => if b = true then clearActivePageData c1 else c1) := by
    unfold releasePage
    rw [hp, hc1]
    dsimp only
    generalize releasedLast _ = x
    cases x with
    | none => rfl
    | some b => cases b <;> rfl
  refine ⟨hweb, ?_, ?_⟩
  · intro hlast
    have hl : releasedLast c1 = some true := by
      unfold releasedLast
      rcases hlast with hw | ⟨m, hm, hcount⟩
      · rw [hw]
      · cases webPage c1 with
        | none => rfl
        | some pg =>
          dsimp only
          rw [hmodel, hm]
          simp [hcount]
    obtain ⟨k1, k2, k3⟩ := clearActivePageData_spec c1
    have hlog1 : c1.log = c.log ++ [Event.pool (PoolCall.release tabId virtualize)] := by
      rw [hc1]; rfl
    have ht1 : c1.m_tabId = c.m_tabId := by rw [hc1]; rfl
    have hp1 : c1.m_loadProgress = c.m_loadProgress := by rw [hc1]; rfl
    refine ⟨clearActivePageData c1, by simp [hrel, hl], k1, k2, ?_, ?_⟩
    · rw [k3, hlog1, ht1, hp1]
    · rw [k3, hlog1, ht1, hp1, List.append_assoc, List.drop_left]
      by_cases ht : c.m_tabId = 0 <;> by_cases hq : c.m_loadProgress = 0 <;> simp [ht, hq]
  · intro pg m hw hm hcount
    have hl : releasedLast c1 = some false := by
      unfold releasedLast
      rw [hw]
      dsimp only
      rw [hmodel, hm]
      simp [hcount]
    refine ⟨by simp [hrel, hl], ?_, ?_, ?_⟩ <;> rw [hc1] <;> rfl

/-- Witness of C24: the browsing container shows the page of tab 1; releasing that tab
leaves no active page, so `tabId` goes to 0 and `tabIdChanged` is emitted. -/
theorem releasePage_empties_container_witness :
    ∃ c2, releasePage browsingContainer 1 true = some c2 ∧ c2.m_tabId = 0 ∧
      c2.m_loadProgress = 0 ∧
      (Event.emitted Signal.tabIdChanged ∈ c2.log.drop browsingContainer.log.length ↔
        browsingContainer.m_tabId ≠ 0) :=
  Exists.elim
    ((releasePage_empties_container browsingContainer 1 true
      { initialized := true, maxLivePages := 5, activeTabId := 1,
        pages := [⟨1, 0, true, true, false, false, 100, "http://sailfishos.org",
          "Sailfish OS", true⟩] }
      rfl _ rfl).2.1 (Or.inl (by decide)))
    (fun c2 h => ⟨c2, h.1, h.2.1, h.2.2.1, h.2.2.2.2⟩)

end DeclarativeWebContainer
end SailfishBrowser

/-! ## Null pointers taken by the container -/

namespace SailfishBrowser
namespace DeclarativeWebContainer

theorem setTabModel_fault_iff (c : DeclarativeWebContainer) (model : Option ModelRef) :
    setTabModel c model = none ↔
      (model = none ∧ ∃ m, tabModel c = some m ∧ m.count ≠ 0) := by
  cases c with
  | mk a1 a2 a3 a4 a5 a6 a7 a8 a9 a10 a11 a12 a13 a14 a15 a16 a17 a18 a19 a20 a21 a22 a23 =>
    cases a4 with
    | none =>
      cases model with
      | none => simp [setTabModel, tabModel]
      | some r =>
        cases r <;> simp [setTabModel, tabModel, record, emitSignal, putTabModel] <;>
          split <;> simp
    | some r0 =>
      cases model with
      | none =>
        cases r0 <;> simp [setTabModel, tabModel, record, emitSignal, putTabModel]
      | some r =>
        cases r0 <;> cases r <;>
          simp [setTabModel, tabModel, record, emitSignal, putTabModel] <;>
          split <;> simp

/-- C27. The forced `loadTab` takes the active page without one being there. The
container is constructed and never given a page component; its model is loaded with one
tab, so `initialize()` passes its guards. The forced activation of the active tab returns
false, because the pool cannot be initialized, and sets no page; `loadTab(tab, true)` goes
on to the page load and takes the null page pointer (`none`), and so does `initialize()`,
which calls it. The same happens to `reload(true)` once `onActiveTabChanged` has set the
tab id, and to a forced `loadTab` of the invalid tab (id 0) on a container that has its
page component. -/
theorem loadTab_forced_without_page_faults :
    run (create false 5)
      [(startupEnv, Op.collaborators oneTabModel DeclarativeTabModel.empty
        (WebPages.empty 5))] = some loadedContainer ∧
    canInitialize startupEnv loadedContainer = true ∧
    loadedContainer.m_initialized = false ∧
    webPage loadedContainer = none ∧
    tabModel loadedContainer = some oneTabModel ∧
    (∃ c1, activatePage loadedContainer oneTabModel.activeTab true 0 = some (false, c1) ∧
      webPage c1 = none) ∧
    loadTab loadedContainer oneTabModel.activeTab true = none ∧
    initializeContainer startupEnv loadedContainer = none ∧
    (∃ c1, onActiveTabChanged loadedContainer 0 1 false = some c1 ∧ c1.m_tabId = 1 ∧
      reload c1 true = none) ∧
    (∃ c1, activatePage unloadedContainer Tab.invalid true 0 = some (false, c1) ∧
      webPage c1 = none) ∧
    loadTab unloadedContainer Tab.invalid true = none :=
  ⟨rfl, rfl, rfl, rfl, rfl, ⟨_, rfl, rfl⟩, rfl, rfl, ⟨_, rfl, rfl, rfl⟩, ⟨_, rfl, rfl⟩, rfl⟩

/-- C28. With a null model `setTabModel` takes the null pointer when the tab counts
differ. The container is constructed and its model is loaded with one tab;
`setTabModel(nullptr)` then finds the old count 1 and the new count 0 and emits
`countChanged` on the new model, which is null (`none`). In general the call takes a null
pointer exactly when the new model is null and the current model holds at least one
tab. -/
theorem setTabModel_null_with_tabs_faults :
    run (create false 5)
      [(startupEnv, Op.collaborators oneTabModel DeclarativeTabModel.empty
        (WebPages.empty 5))] = some loadedContainer ∧
    tabModel loadedContainer = some oneTabModel ∧ oneTabModel.count = 1 ∧
    setTabModel loadedContainer none = none ∧
    run (create false 5)
      [(startupEnv, Op.collaborators oneTabModel DeclarativeTabModel.empty
        (WebPages.empty 5)), (startupEnv, Op.setTabModel none)] = none ∧
    ∀ (c : DeclarativeWebContainer) (model : Option ModelRef),
      setTabModel c model = none ↔
        (model = none ∧ ∃ m, tabModel c = some m ∧ m.count ≠ 0) :=
  ⟨rfl, rfl, rfl, rfl, rfl, setTabModel_fault_iff⟩

end DeclarativeWebContainer
end SailfishBrowser

/-! ## The start-up flags -/

namespace SailfishBrowser
namespace DeclarativeWebContainer

theorem flags_mk (a1 : Option Int) (a2 : Option Nat) (a3 : Bool) (a4 : Option ModelRef)
    (a5 : Bool) (a6 : Option WebPages) (a7 a8 : DeclarativeTabModel) (a9 a10 a11 : Bool)
    (a12 : Int) (a13 : String) (a14 : Bool) (a15 : Int) (a16 a17 a18 a19 a20 : Bool)
    (a21 a22 : Nat) (a23 : List Event) :
    startupFlags ⟨a1, a2, a3, a4, a5, a6, a7, a8, a9, a10, a11, a12, a13, a14, a15, a16, a17, a18,
      a19, a20, a21, a22, a23⟩ = (a17, a16, a23.filter isCompletedChanged) := rfl

theorem flags_fields (c : DeclarativeWebContainer) :
    (c.m_initialized, c.m_completed, c.log.filter isCompletedChanged) = startupFlags c := rfl

theorem flags_record (c : DeclarativeWebContainer) (e : Event) (h : isCompletedChanged e = false) :
    startupFlags (record c e) = startupFlags c := by
  simp [startupFlags, completedSignals, record, List.filter_append, h]

@[simp] theorem flags_emitSignal (c : DeclarativeWebContainer) (s : Signal)
    (h : s ≠ Signal.completedChanged) : startupFlags (emitSignal c s) = startupFlags c := by
  apply flags_record
  cases s <;> first | rfl | exact absurd rfl h

@[simp] theorem flags_record_gl (c : DeclarativeWebContainer) (call : GLCall) :
    startupFlags (record c (Event.gl call)) = startupFlags c := flags_record c _ rfl

@[simp] theorem flags_record_model (c : DeclarativeWebContainer) (call : ModelCall) :
    startupFlags (record c (Event.model call)) = startupFlags c := flags_record c _ rfl

@[simp] theorem flags_record_pool (c : DeclarativeWebContainer) (call : PoolCall) :
    startupFlags (record c (Event.pool call)) = startupFlags c := flags_record c _ rfl

@[simp] theorem flags_record_page (c : DeclarativeWebContainer) (t : Int) (call : PageCall) :
    startupFlags (record c (Event.page t call)) = startupFlags c := flags_record c _ rfl

@[simp] theorem flags_record_dbGoBack (c : DeclarativeWebContainer) (t : Int) :
    startupFlags (record c (Event.dbGoBack t)) = startupFlags c := flags_record c _ rfl

@[simp] theorem flags_record_dbGoForward (c : DeclarativeWebContainer) (t : Int) :
    startupFlags (record c (Event.dbGoForward t)) = startupFlags c := flags_record c _ rfl

@[simp] theorem flags_record_settingsInitialized (c : DeclarativeWebContainer) :
    startupFlags (record c Event.settingsInitialized) = startupFlags c := flags_record c _ rfl

@[simp] theorem flags_record_settingsAutostart (c : DeclarativeWebContainer) (b : Bool) :
    startupFlags (record c (Event.settingsSetAutostartPrivateBrowsing b)) = startupFlags c :=
  flags_record c _ rfl

@[simp] theorem flags_record_orientation (c : DeclarativeWebContainer) :
    startupFlags (record c Event.reportContentOrientationChange) = startupFlags c := flags_record c _ rfl

@[simp] theorem flags_record_windowFlags (c : DeclarativeWebContainer) (b : Bool) :
    startupFlags (record c (Event.setWindowFlags b)) = startupFlags c := flags_record c _ rfl

@[simp] theorem flags_record_chromeSetup (c : DeclarativeWebContainer) :
    startupFlags (record c Event.chromeWindowSetup) = startupFlags c := flags_record c _ rfl

@[simp] theorem flags_record_chromeDisconnect (c : DeclarativeWebContainer) :
    startupFlags (record c Event.chromeDisconnectOrientation) = startupFlags c := flags_record c _ rfl

@[simp] theorem flags_putTabModel (c : DeclarativeWebContainer) (m : DeclarativeTabModel) :
    startupFlags (putTabModel c m) = startupFlags c := by
  rw [putTabModel_eq]; rfl

@[simp] theorem flags_putWebPages (c : DeclarativeWebContainer) (p : WebPages) :
    startupFlags (putWebPages c p) = startupFlags c := rfl

@[simp] theorem flags_setLoadProgress (c : DeclarativeWebContainer) (n : Int) :
    startupFlags (setLoadProgress c n) = startupFlags c := by
  unfold setLoadProgress
  split <;> simp [flags_mk, flags_fields]

@[simp] theorem flags_updateContentOrientation (c : DeclarativeWebContainer) :
    startupFlags (updateContentOrientation c) = startupFlags c := by
  unfold updateContentOrientation
  split <;> simp

@[simp] theorem flags_resetHeight (c : DeclarativeWebContainer) (b : Bool) :
    startupFlags (resetHeight c b) = startupFlags c := by
  unfold resetHeight
  split <;> simp

@[simp] theorem flags_setWebPage (c : DeclarativeWebContainer) (p : Option Int) :
    startupFlags (setWebPage c p) = startupFlags c := by
  unfold setWebPage
  split
  · simp only [flags_setLoadProgress, flags_emitSignal]
    cases h : webPage c <;> simp only [] <;> split <;> (try split) <;>
      simp [flags_mk, flags_fields]
  · rfl

theorem flags_exposeChrome (env : Env) (c : DeclarativeWebContainer) (event : QEventType) :
    (startupFlags (exposeChrome env c event)) = startupFlags c := by
  unfold exposeChrome
  split <;> simp [flags_mk, flags_fields]


theorem flags_setForeground (c : DeclarativeWebContainer) (active : Bool) :
    startupFlags (setForeground c active) = startupFlags c := by
  unfold setForeground
  split
  · dsimp only
    split <;> simp [flags_mk, flags_fields]
  · rfl

theorem flags_setChromeWindow (c : DeclarativeWebContainer) (w : Option Nat) :
    startupFlags (setChromeWindow c w) = startupFlags c := by
  unfold setChromeWindow
  split <;> simp [flags_mk, flags_fields]

theorem flags_load (env : Env) (c : DeclarativeWebContainer) (url title : String)
    (force : Bool) : startupFlags (load env c url title force) = startupFlags c := by
  unfold load
  dsimp only
  split
  · simp
  · split
    · rfl
    · split
      · split <;> simp
      · rfl

theorem flags_goForward (c : DeclarativeWebContainer) : startupFlags (goForward c) = startupFlags c := by
  unfold goForward
  split
  · split <;> simp
  · rfl

theorem flags_goBack (c : DeclarativeWebContainer) : startupFlags (goBack c) = startupFlags c := by
  unfold goBack
  split
  · split <;> simp
  · rfl

theorem flags_updatePageFocus (c : DeclarativeWebContainer) (focus : Bool) :
    startupFlags (updatePageFocus c focus) = startupFlags c := by
  unfold updatePageFocus
  split <;> simp

theorem flags_forwardEvent (c : DeclarativeWebContainer) : startupFlags (forwardEvent c) = startupFlags c := by
  unfold forwardEvent
  split
  · split <;> simp
  · rfl

theorem flags_componentComplete (c : DeclarativeWebContainer) :
    startupFlags (componentComplete c) =
      if c.m_initialized = true ∧ c.m_completed = false then
        (true, true, completedSignals c ++ [Event.emitted Signal.completedChanged])
      else startupFlags c := by
  unfold componentComplete
  by_cases hi : c.m_initialized = true <;> by_cases hc : c.m_completed = true <;>
    simp [hi, hc, startupFlags, completedSignals, emitSignal, record, List.filter_append,
      isCompletedChanged]

theorem flags_updateWindowState (c : DeclarativeWebContainer) (maximized : Bool) :
    startupFlags (updateWindowState c maximized) = startupFlags c := by
  unfold updateWindowState
  split
  · split <;> simp
  · rfl

theorem flags_imeNotificationChanged (c : DeclarativeWebContainer) (state cause : Int) :
    startupFlags (imeNotificationChanged c state cause) = startupFlags c := by
  unfold imeNotificationChanged
  split <;> simp

theorem flags_onPageUrlChanged (c : DeclarativeWebContainer) (sender : Option Int) :
    startupFlags (onPageUrlChanged c sender) = startupFlags c := by
  unfold onPageUrlChanged
  split
  · dsimp only
    split <;> simp
  · rfl

theorem flags_onPageTitleChanged (c : DeclarativeWebContainer) (sender : Option Int) :
    startupFlags (onPageTitleChanged c sender) = startupFlags c := by
  unfold onPageTitleChanged
  split <;> simp

theorem flags_updateLoadProgress (c : DeclarativeWebContainer) :
    startupFlags (updateLoadProgress c) = startupFlags c := by
  unfold updateLoadProgress
  split
  · rfl
  · split
    · rfl
    · split <;> simp

theorem flags_updateLoading (c : DeclarativeWebContainer) :
    startupFlags (updateLoading c) = startupFlags c := by
  unfold updateLoading
  dsimp only
  split
  · split <;> simp
  · simp

theorem flags_updateWindowFlags (c : DeclarativeWebContainer) :
    startupFlags (updateWindowFlags c) = startupFlags c := by
  unfold updateWindowFlags
  split <;> simp

theorem flags_sendVkbOpenCompositionMetrics (c : DeclarativeWebContainer) :
    startupFlags (sendVkbOpenCompositionMetrics c) = startupFlags c := by
  unfold sendVkbOpenCompositionMetrics
  split <;> simp

theorem flags_clearActivePageData (c : DeclarativeWebContainer) :
    startupFlags (clearActivePageData c) = startupFlags c := by
  unfold clearActivePageData
  dsimp only
  split <;> simp [flags_mk, flags_fields]

theorem flags_finishInitialize (c : DeclarativeWebContainer) :
    startupFlags (finishInitialize c) =
      (true, true, completedSignals c ++
        (if c.m_completed = true then [] else [Event.emitted Signal.completedChanged])) := by
  unfold finishInitialize
  by_cases hc : c.m_completed = true <;>
    simp [hc, startupFlags, completedSignals, emitSignal, record, List.filter_append,
      isCompletedChanged]

theorem flags_setTabModel {c c' : DeclarativeWebContainer} {model : Option ModelRef}
    (h : setTabModel c model = some c') : startupFlags c' = startupFlags c := by
  unfold setTabModel at h
  split at h
  · cases hm : tabModel c <;> simp only [hm] at h <;> split at h
    · split at h
      · cases h
        simp only [flags_record_model, flags_putTabModel,
          flags_emitSignal _ Signal.tabModelChanged (by decide)]
        split <;> simp [flags_mk, flags_fields]
      · cases h
    · cases h
      simp only [flags_emitSignal _ Signal.tabModelChanged (by decide)]
      split <;> simp [flags_mk, flags_fields]
    · split at h
      · cases h
        simp only [flags_record_model, flags_putTabModel,
          flags_emitSignal _ Signal.tabModelChanged (by decide)]
        split <;>
          simp [flags_mk, flags_fields, record, List.filter_append, isCompletedChanged]
      · cases h
    · cases h
      simp only [flags_emitSignal _ Signal.tabModelChanged (by decide)]
      split <;> simp [flags_mk, flags_fields, record, List.filter_append, isCompletedChanged]
  · cases h; rfl

theorem flags_setMaxLiveTabCount {c c' : DeclarativeWebContainer} {count : Int}
    (h : setMaxLiveTabCount c count = some c') : startupFlags c' = startupFlags c := by
  unfold setMaxLiveTabCount at h
  split at h
  · cases h
  · dsimp only at h
    split at h <;> cases h <;> simp

theorem flags_dumpPages {c c' : DeclarativeWebContainer}
    (h : dumpPages c = some c') : startupFlags c' = startupFlags c := by
  unfold dumpPages at h
  split at h
  · cases h; simp
  · cases h

theorem flags_activatePage {c c' : DeclarativeWebContainer} {tab : Tab} {force b : Bool}
    {parentId : Int} (h : activatePage c tab force parentId = some (b, c')) :
    startupFlags c' = startupFlags c := by
  unfold activatePage at h
  split at h
  · cases h; rfl
  · split at h
    · cases h
    · dsimp only at h
      split at h
      · split at h
        · cases h
        · cases h; simp
      · cases h; simp

theorem flags_loadTab {c c' : DeclarativeWebContainer} {tab : Tab} {force : Bool}
    (h : loadTab c tab force = some c') : startupFlags c' = startupFlags c := by
  unfold loadTab at h
  split at h
  · cases h
  · rename_i b c1 hact
    have h1 := flags_activatePage hact
    split at h
    · split at h
      · cases h
      · cases h; simp [h1]
    · cases h; exact h1

theorem flags_reload {c c' : DeclarativeWebContainer} {force : Bool}
    (h : reload c force = some c') : startupFlags c' = startupFlags c := by
  unfold reload at h
  split at h
  · split at h
    · split at h
      · cases h; simp
      · split at h
        · exact flags_loadTab h
        · cases h
    · split at h
      · exact flags_loadTab h
      · cases h
  · cases h; rfl

theorem flags_setActiveTabData {c c' : DeclarativeWebContainer}
    (h : setActiveTabData c = some c') : startupFlags c' = startupFlags c := by
  unfold setActiveTabData at h
  split at h
  · cases h
  · split at h <;> cases h <;> simp [flags_mk, flags_fields]

theorem flags_onActiveTabChanged {c c' : DeclarativeWebContainer} {oldTabId activeTabId : Int}
    {loadActiveTab : Bool} (h : onActiveTabChanged c oldTabId activeTabId loadActiveTab = some c') :
    startupFlags c' = startupFlags c := by
  unfold onActiveTabChanged at h
  split at h
  · cases h; rfl
  · split at h
    · cases h
    · rename_i c1 h1
      have hg := flags_setActiveTabData h1
      split at h
      · cases h; exact hg
      · split at h
        · rw [flags_reload h, hg]
        · cases h; exact hg

theorem flags_deliverActiveTabChanged {c c' : DeclarativeWebContainer}
    (signals : List ModelSignal) (h : deliverActiveTabChanged c signals = some c') :
    startupFlags c' = startupFlags c := by
  induction signals generalizing c with
  | nil =>
    simp only [deliverActiveTabChanged, Option.some.injEq] at h
    rw [← h]
  | cons s rest ih =>
    cases s <;> simp only [deliverActiveTabChanged] at h
    case activeTabChanged o n l =>
      split at h
      · rename_i c1 h1
        rw [ih h, flags_onActiveTabChanged h1]
      · cases h
    all_goals exact ih h

theorem flags_closeWindow {c c' : DeclarativeWebContainer} {sender : Option Int}
    (h : closeWindow c sender = some c') : startupFlags c' = startupFlags c := by
  unfold closeWindow at h
  split at h
  · dsimp only at h
    split at h
    · split at h
      · cases h
      · rename_i c2 h2
        have hg := flags_deliverActiveTabChanged _ h2
        split at h
        · cases h
        · cases h
          simp [hg]
    · cases h; rfl
  · cases h; rfl

theorem flags_updateMode {c c' : DeclarativeWebContainer}
    (h : updateMode c = some c') : startupFlags c' = startupFlags c := by
  unfold updateMode at h
  split at h
  · cases h
  · rename_i c1 h1
    have hg1 := flags_setTabModel h1
    split at h
    · cases h
    · rename_i c2 h2
      have hg2 := flags_setActiveTabData h2
      split at h
      · cases h
      · split at h
        · rw [flags_reload h, hg2, hg1]
        · cases h
          simp [hg2, hg1]

theorem flags_setPrivateMode {c c' : DeclarativeWebContainer} {privateMode : Bool}
    (h : setPrivateMode c privateMode = some c') : startupFlags c' = startupFlags c := by
  unfold setPrivateMode at h
  split at h
  · dsimp only at h
    split at h
    · cases h
    · rename_i c2 h2
      cases h
      rw [flags_emitSignal _ Signal.privateModeChanged (by decide), flags_updateMode h2]
      simp [flags_mk, flags_fields]
  · cases h; rfl

theorem flags_initialLoad {env : Env} {c c' : DeclarativeWebContainer}
    {m : DeclarativeTabModel} (h : initialLoad env c m = some c') : startupFlags c' = startupFlags c := by
  unfold initialLoad at h
  dsimp only at h
  split at h
  · cases h; simp
  · split at h
    · exact flags_loadTab h
    · cases h; rfl

theorem flags_initializeContainer {env : Env} {c c' : DeclarativeWebContainer}
    (h : initializeContainer env c = some c') :
    startupFlags c' = startupFlags c ∨
      (c.m_initialized = false ∧
        startupFlags c' = (true, true, completedSignals c ++
          (if c.m_completed = true then [] else [Event.emitted Signal.completedChanged]))) := by
  unfold initializeContainer at h
  split at h
  · cases h; exact Or.inl rfl
  · rename_i hguard
    split at h
    · cases h
    · rename_i m hm
      dsimp only at h
      have h1 : startupFlags (if env.clearHistoryRequested = true then
          record (putTabModel c m.clear) (Event.model ModelCall.clear)
          else c) = startupFlags c := by
        split <;> simp
      split at h
      · cases h
        left
        simp [h1]
      · split at h
        · cases h
        · rename_i c3 h3
          cases h
          right
          have hg := flags_initialLoad h3
          rw [flags_record_settingsInitialized, h1] at hg
          simp only [startupFlags, Prod.mk.injEq] at hg
          refine ⟨?_, ?_⟩
          · have hg2 : canInitialize env c = true ∧ c.m_initialized = false := by
              simpa using hguard
            exact hg2.2
          · rw [flags_finishInitialize, hg.2.1, hg.2.2]

theorem flags_downloadStartedFirst {c c' : DeclarativeWebContainer} {m : DeclarativeTabModel}
    (h : downloadStartedFirst c m = some c') : startupFlags c' = startupFlags c := by
  unfold downloadStartedFirst at h
  split at h
  · cases h; simp
  · split at h
    · cases h; simp
    · cases h

theorem flags_onDownloadStarted {c c' : DeclarativeWebContainer}
    (h : onDownloadStarted c = some c') : startupFlags c' = startupFlags c := by
  unfold onDownloadStarted at h
  split at h
  · cases h
  · split at h
    · cases h
    · rename_i c2 h2
      have hg := flags_downloadStartedFirst h2
      split at h
      · cases h
      · split at h <;> cases h <;> simp [hg]

theorem flags_onNewTabRequested {c c' : DeclarativeWebContainer} {url title : String}
    {parentId : Int} (h : onNewTabRequested c url title parentId = some c') :
    startupFlags c' = startupFlags c := by
  unfold onNewTabRequested at h
  split at h
  · cases h
  · dsimp only at h
    split at h
    · cases h
    · rename_i b c1 hact
      have hg := flags_activatePage hact
      split at h
      · split at h
        · cases h; simp [hg]
        · cases h
      · cases h; exact hg

theorem flags_releasePage {c c' : DeclarativeWebContainer} {tabId : Int} {virtualize : Bool}
    (h : releasePage c tabId virtualize = some c') : startupFlags c' = startupFlags c := by
  unfold releasePage at h
  split at h
  · cases h; rfl
  · dsimp only at h
    split at h
    · cases h
    · cases h; simp [flags_clearActivePageData]
    · cases h; simp



theorem flags_exposeWindow (env : Env) (c : DeclarativeWebContainer) :
    startupFlags (exposeWindow env c) = startupFlags c := by
  unfold exposeWindow
  dsimp only
  split <;>
    simp [startupFlags, completedSignals, record, List.filter_append, isCompletedChanged]

theorem flags_eventFilter (env : Env) (c : DeclarativeWebContainer) (event : QEventType) :
    startupFlags (eventFilter env c event).2 = startupFlags c := by
  unfold eventFilter
  split
  · split
    · simp [flags_exposeChrome, flags_exposeWindow]
    · split <;> simp [flags_exposeChrome]
  · split
    · split <;> simp [flags_exposeChrome]
    · simp [flags_exposeChrome]

theorem flags_createGLContextBody (c : DeclarativeWebContainer) :
    startupFlags (createGLContextBody c) = startupFlags c := by
  unfold createGLContextBody
  cases hc : c.m_context <;>
    simp [startupFlags, completedSignals, record, List.filter_append, isCompletedChanged, hc]

theorem flags_createGLContext (c : DeclarativeWebContainer) :
    startupFlags (createGLContext c) = startupFlags c := by
  unfold createGLContext
  split
  · rfl
  · exact flags_createGLContextBody c

theorem flags_createGLContextResume (c : DeclarativeWebContainer) :
    startupFlags (createGLContextResume c) = startupFlags c := by
  unfold createGLContextResume
  split
  · rw [flags_createGLContextBody]; rfl
  · rfl

/-- What a step does to the start-up flags: nothing, or it is `componentComplete()` on an
initialized and not completed container, or it is `initialize()` on a container that was
not initialized and reaches its end. -/
theorem step_flags {env : Env} {c c' : DeclarativeWebContainer} {op : Op}
    (h : step env c op = some c') :
    startupFlags c' = startupFlags c ∨
    (c.m_initialized = true ∧ c.m_completed = false ∧
      startupFlags c' =
        (true, true, completedSignals c ++ [Event.emitted Signal.completedChanged])) ∨
    (c.m_initialized = false ∧
      startupFlags c' = (true, true, completedSignals c ++
        (if c.m_completed = true then [] else [Event.emitted Signal.completedChanged]))) := by
  cases op <;> simp only [step] at h
  case setTabModel model => exact Or.inl (flags_setTabModel h)
  case setForeground active => cases h; exact Or.inl (flags_setForeground c active)
  case setMaxLiveTabCount count => exact Or.inl (flags_setMaxLiveTabCount h)
  case setPrivateMode privateMode => exact Or.inl (flags_setPrivateMode h)
  case setLoadProgress n => cases h; exact Or.inl (flags_setLoadProgress c n)
  case setChromeWindow w => cases h; exact Or.inl (flags_setChromeWindow c w)
  case setWebPageComponent b => cases h; exact Or.inl rfl
  case setAllowHiding b => cases h; exact Or.inl rfl
  case setEnabled b => cases h; exact Or.inl rfl
  case load url title force => cases h; exact Or.inl (flags_load env c url title force)
  case reload force => exact Or.inl (flags_reload h)
  case goForward => cases h; exact Or.inl (flags_goForward c)
  case goBack => cases h; exact Or.inl (flags_goBack c)
  case activatePage tab force parentId =>
    split at h
    · rename_i r hr
      cases h
      exact Or.inl (flags_activatePage (b := r.1)
        (show activatePage c tab force parentId = some (r.1, r.2) from hr))
    · cases h
  case updatePageFocus focus => cases h; exact Or.inl (flags_updatePageFocus c focus)
  case dumpPages => exact Or.inl (flags_dumpPages h)
  case eventFilter event => cases h; exact Or.inl (flags_eventFilter env c event)
  case forwardEvent => cases h; exact Or.inl (flags_forwardEvent c)
  case componentComplete =>
    cases h
    have hc := flags_componentComplete c
    split at hc
    · rename_i hcond
      exact Or.inr (Or.inl ⟨hcond.1, hcond.2, hc⟩)
    · exact Or.inl hc
  case resetHeight b => cases h; exact Or.inl (flags_resetHeight c b)
  case updateContentOrientation => cases h; exact Or.inl (flags_updateContentOrientation c)
  case updateWindowState b => cases h; exact Or.inl (flags_updateWindowState c b)
  case imeNotificationChanged state cause =>
    cases h; exact Or.inl (flags_imeNotificationChanged c state cause)
  case initializeContainer =>
    rcases flags_initializeContainer h with hi | hi
    · exact Or.inl hi
    · exact Or.inr (Or.inr hi)
  case onActiveTabChanged o a l => exact Or.inl (flags_onActiveTabChanged h)
  case onDownloadStarted => exact Or.inl (flags_onDownloadStarted h)
  case onNewTabRequested url title parentId => exact Or.inl (flags_onNewTabRequested h)
  case releasePage tabId virtualize => exact Or.inl (flags_releasePage h)
  case closeWindow sender => exact Or.inl (flags_closeWindow h)
  case onPageUrlChanged sender => cases h; exact Or.inl (flags_onPageUrlChanged c sender)
  case onPageTitleChanged sender => cases h; exact Or.inl (flags_onPageTitleChanged c sender)
  case updateLoadProgress => cases h; exact Or.inl (flags_updateLoadProgress c)
  case updateLoading => cases h; exact Or.inl (flags_updateLoading c)
  case setActiveTabData => exact Or.inl (flags_setActiveTabData h)
  case updateWindowFlags => cases h; exact Or.inl (flags_updateWindowFlags c)
  case sendVkbOpenCompositionMetrics =>
    cases h; exact Or.inl (flags_sendVkbOpenCompositionMetrics c)
  case createGLContext => cases h; exact Or.inl (flags_createGLContext c)
  case createGLContextResume => cases h; exact Or.inl (flags_createGLContextResume c)
  case collaborators persistent privateBrowsing pool =>
    left
    split at h <;> cases h <;> simp [flags_mk, flags_fields]

theorem completedWithInitialized_of_flags {c c' : DeclarativeWebContainer}
    (h : startupFlags c' = startupFlags c) (hinv : CompletedWithInitialized c) :
    CompletedWithInitialized c' := by
  simp only [startupFlags, Prod.mk.injEq] at h
  obtain ⟨h1, h2, h3⟩ := h
  unfold CompletedWithInitialized at *
  rw [h1, h2, h3]
  exact hinv

theorem completedWithInitialized_step {env : Env} {c c' : DeclarativeWebContainer} {op : Op}
    (h : step env c op = some c') (hinv : CompletedWithInitialized c) :
    CompletedWithInitialized c' := by
  rcases step_flags h with hf | ⟨hi, hc, _⟩ | ⟨hi, hf⟩
  · exact completedWithInitialized_of_flags hf hinv
  · rw [hinv.1, hc] at hi
    cases hi
  · have hc : c.m_completed = false := by rw [← hinv.1]; exact hi
    have hlen := hinv.2
    simp only [startupFlags, Prod.mk.injEq] at hf
    obtain ⟨h1, h2, h3⟩ := hf
    unfold CompletedWithInitialized
    rw [h1, h2, h3]
    simp [hc] at hlen ⊢
    simp [hlen]

theorem completedWithInitialized_run {c c' : DeclarativeWebContainer}
    (ops : List (Env × Op)) (h : run c ops = some c') (hinv : CompletedWithInitialized c) :
    CompletedWithInitialized c' := by
  induction ops generalizing c with
  | nil => simp only [run, Option.some.injEq] at h; rw [← h]; exact hinv
  | cons x rest ih =>
    obtain ⟨env, op⟩ := x
    simp only [run] at h
    split at h
    · rename_i c1 h1
      exact ih h (completedWithInitialized_step h1 hinv)
    · cases h

theorem create_flags (autostartPrivateBrowsing : Bool) (capacity : Int) :
    startupFlags (create autostartPrivateBrowsing capacity) = (false, false, []) := by
  cases autostartPrivateBrowsing <;> rfl

/-- In every state reached from construction the two start-up flags agree and
`completedChanged` has been emitted once when they are set, never when they are not. -/
theorem completedWithInitialized_reachable {c : DeclarativeWebContainer} (h : Reachable c) :
    CompletedWithInitialized c := by
  obtain ⟨a, cap, ops, hrun⟩ := h
  refine completedWithInitialized_run ops hrun ?_
  have hg := create_flags a cap
  simp only [startupFlags, Prod.mk.injEq] at hg
  unfold CompletedWithInitialized
  rw [hg.1, hg.2.1, hg.2.2]
  simp

/-- C29. In every state reached from construction by operations of the container,
`initialized` implies `completed` (the two flags are equal). Therefore the trace of such a
state holds at most one emission of `completedChanged`, a further step adds one only when
there was none, and `componentComplete()` returns the state as it is. -/
theorem initialized_implies_completed (env : Env) (c c' : DeclarativeWebContainer) (op : Op)
    (hr : Reachable c) :
    (c.m_initialized = true → c.m_completed = true) ∧
    c.m_initialized = c.m_completed ∧
    (completedSignals c).length ≤ 1 ∧
    (step env c op = some c' →
      completedSignals c' = completedSignals c ∨
        (completedSignals c = [] ∧
          completedSignals c' = [Event.emitted Signal.completedChanged])) ∧
    componentComplete c = c := by
  have hinv := completedWithInitialized_reachable hr
  refine ⟨?_, hinv.1, ?_, ?_, ?_⟩
  · intro hi
    rw [← hinv.1]; exact hi
  · rw [hinv.2]
    split <;> simp
  · intro h
    rcases step_flags h with hf | ⟨hi, hc, _⟩ | ⟨hi, hf⟩
    · simp only [startupFlags, Prod.mk.injEq] at hf
      exact Or.inl hf.2.2
    · rw [hinv.1, hc] at hi
      cases hi
    · have hc : c.m_completed = false := by rw [← hinv.1]; exact hi
      have hlen := hinv.2
      simp only [hc, Bool.false_eq_true, if_false, List.length_eq_zero] at hlen
      simp only [startupFlags, Prod.mk.injEq] at hf
      right
      refine ⟨hlen, ?_⟩
      rw [hf.2.2, hlen, hc]
      simp
  · unfold componentComplete
    rw [hinv.1]
    cases c.m_completed <;> simp

/-- Witness of C29: the container started with one tab and a pending URL is reached by a
run from construction; it is initialized and completed, `completedChanged` was emitted
once, and `componentComplete()` leaves it as it is. -/
theorem initialized_implies_completed_witness :
    pendingContainerStarted.m_initialized = true ∧
    (pendingContainerStarted.m_initialized = true →
      pendingContainerStarted.m_completed = true) ∧
    completedSignals pendingContainerStarted = [Event.emitted Signal.completedChanged] ∧
    componentComplete pendingContainerStarted = pendingContainerStarted :=
  ⟨rfl,
    (initialized_implies_completed startupEnv pendingContainerStarted
      pendingContainerStarted Op.componentComplete
      ⟨false, 5,
        [(coldEnv, Op.collaborators oneTabModel DeclarativeTabModel.empty (WebPages.empty 5)),
         (coldEnv, Op.setWebPageComponent true),
         (coldEnv, Op.load "http://sailfishos.org" "" false),
         (startupEnv, Op.initializeContainer)], rfl⟩).1,
    rfl,
    (initialized_implies_completed startupEnv pendingContainerStarted
      pendingContainerStarted Op.componentComplete
      ⟨false, 5,
        [(coldEnv, Op.collaborators oneTabModel DeclarativeTabModel.empty (WebPages.empty 5)),
         (coldEnv, Op.setWebPageComponent true),
         (coldEnv, Op.load "http://sailfishos.org" "" false),
         (startupEnv, Op.initializeContainer)], rfl⟩).2.2.2.2⟩

end DeclarativeWebContainer
end SailfishBrowser

/-! ## Start-up with clearing of the history -/

namespace SailfishBrowser
namespace DeclarativeWebContainer

theorem initializeContainer_clear_eq {env : Env} {c : DeclarativeWebContainer}
    {m : DeclarativeTabModel} (hm : tabModel c = some m)
    (hcan : canInitialize env c = true) (hinit : c.m_initialized = false)
    (hclear : env.clearHistoryRequested = true) :
    initializeContainer env c =
      if env.settingManagerInitialize = true ∧ 0 < m.count then
        some (record (putTabModel
          (record (record (putTabModel c m.clear) (Event.model ModelCall.clear))
            Event.settingsInitialized) m.clear.setUnloaded)
          (Event.model ModelCall.setUnloaded))
      else
        (initialLoad env
          (record (record (putTabModel c m.clear) (Event.model ModelCall.clear))
            Event.settingsInitialized) m.clear).map finishInitialize := by
  unfold initializeContainer
  simp only [hcan, hinit, hm, hclear, Bool.not_true, Bool.or_false, Bool.false_eq_true,
    if_false, if_true, Bool.and_true, Bool.and_eq_true, decide_eq_true_eq]
  by_cases hcond : env.settingManagerInitialize = true ∧ 0 < m.count
  · rw [if_pos hcond, if_pos hcond]
  · rw [if_neg hcond, if_neg hcond]
    generalize initialLoad env _ _ = x
    cases x <;> rfl

theorem finishInitialize_flags (c : DeclarativeWebContainer) :
    (finishInitialize c).m_initialized = true ∧ (finishInitialize c).m_completed = true := by
  have h := flags_finishInitialize c
  simp only [startupFlags, Prod.mk.injEq] at h
  exact ⟨h.1, h.2.1⟩

theorem clear_count (m : DeclarativeTabModel) : m.clear.count = 0 := rfl

/-- C26. A start-up with clearing of the history requested defers the initialization.
When `initialize()` passes its guards and clearing was requested, it clears the model and
asks the setting manager to initialize; the rest of the slot works on the cleared model,
which has no tabs. If in addition the model held a tab before and the setting manager
returns true, the slot sets the model unloaded and returns: the trace gained the three
calls `clear`, the setting manager's `initialize` and `setUnloaded` and no load,
`initialized` is still false and `completed` is as before (false in every state reached
from construction). While the model stays unloaded a further `initialize()` does nothing.
Once the model is loaded again, with no tabs, the next `initialize()` returns with the
container initialized and completed, having asked for the new tab of the load test (the
pending URL or the home page) when first use is done or a URL is pending. -/
theorem initialize_clear_history_defers (env env2 : Env) (c : DeclarativeWebContainer)
    (m m2 : DeclarativeTabModel) (hm : tabModel c = some m)
    (hcan : canInitialize env c = true) (hinit : c.m_initialized = false)
    (hclear : env.clearHistoryRequested = true) :
    (∃ c2, tabModel c2 = some m.clear ∧ m.clear.count = 0 ∧
      c2.log = c.log ++ [Event.model ModelCall.clear, Event.settingsInitialized] ∧
      initializeContainer env c =
        if env.settingManagerInitialize = true ∧ 0 < m.count then
          some (record (putTabModel c2 m.clear.setUnloaded) (Event.model ModelCall.setUnloaded))
        else (initialLoad env c2 m.clear).map finishInitialize) ∧
    (0 < m.count → env.settingManagerInitialize = true →
      ∃ c', initializeContainer env c = some c' ∧
        tabModel c' = some m.clear.setUnloaded ∧
        m.clear.setUnloaded.count = 0 ∧ m.clear.setUnloaded.loaded = false ∧
        c'.log = c.log ++ [Event.model ModelCall.clear, Event.settingsInitialized,
          Event.model ModelCall.setUnloaded] ∧
        c'.m_initialized = false ∧ c'.m_completed = c.m_completed ∧
        (Reachable c → c'.m_completed = false) ∧
        initialLoads c' = initialLoads c ∧
        initializeContainer env2 c' = some c' ∧
        (m2.loaded = true → m2.count = 0 → env2.mozContextInitialized = true →
          env2.downloadManagerInitialized = true →
          ∃ c3, initializeContainer env2 (putTabModel c' m2) = some c3 ∧
            c3.m_initialized = true ∧ c3.m_completed = true ∧
            initialLoads c3 = initialLoads c ++
              (if env2.firstUseDone || !c.m_initialUrl.isEmpty then
                [Event.model (ModelCall.newTab
                  (if c.m_initialUrl.isEmpty then env2.homePage else c.m_initialUrl) "")]
               else []))) := by
  have heq := initializeContainer_clear_eq hm hcan hinit hclear
  have hm1 : tabModel (record (record (putTabModel c m.clear) (Event.model ModelCall.clear))
      Event.settingsInitialized) = some m.clear := tabModel_putTabModel hm _
  refine ⟨⟨_, hm1, rfl, ?_, heq⟩, ?_⟩
  · rw [putTabModel_eq]
    simp [record]
  · intro hcount hsm
    rw [if_pos ⟨hsm, hcount⟩] at heq
    have hm' : tabModel (record (putTabModel
        (record (record (putTabModel c m.clear) (Event.model ModelCall.clear))
          Event.settingsInitialized) m.clear.setUnloaded)
        (Event.model ModelCall.setUnloaded)) = some m.clear.setUnloaded :=
      tabModel_putTabModel hm1 _
    have hcomp : (record (putTabModel
        (record (record (putTabModel c m.clear) (Event.model ModelCall.clear))
          Event.settingsInitialized) m.clear.setUnloaded)
        (Event.model ModelCall.setUnloaded)).m_completed = c.m_completed := by
      rw [putTabModel_eq, putTabModel_eq]; rfl
    have hini : (record (putTabModel
        (record (record (putTabModel c m.clear) (Event.model ModelCall.clear))
          Event.settingsInitialized) m.clear.setUnloaded)
        (Event.model ModelCall.setUnloaded)).m_initialized = false := by
      rw [putTabModel_eq, putTabModel_eq]; exact hinit
    have hurl : (record (putTabModel
        (record (record (putTabModel c m.clear) (Event.model ModelCall.clear))
          Event.settingsInitialized) m.clear.setUnloaded)
        (Event.model ModelCall.setUnloaded)).m_initialUrl = c.m_initialUrl := by
      rw [putTabModel_eq, putTabModel_eq]; rfl
    have hloads : initialLoads (record (putTabModel
        (record (record (putTabModel c m.clear) (Event.model ModelCall.clear))
          Event.settingsInitialized) m.clear.setUnloaded)
        (Event.model ModelCall.setUnloaded)) = initialLoads c := by
      simp [isInitialLoad]
    refine ⟨_, heq, hm', rfl, rfl, ?_, hini, hcomp, ?_, hloads, ?_, ?_⟩
    · rw [putTabModel_eq, putTabModel_eq]
      simp [record]
    · intro hr
      rw [hcomp, ← (completedWithInitialized_reachable hr).1]
      exact hinit
    · apply initializeContainer_of_not_can
      unfold canInitialize
      rw [hm']
      simp [DeclarativeTabModel.setUnloaded]
    · intro hl h0 hmoz hdl
      generalize hc' : record (putTabModel
        (record (record (putTabModel c m.clear) (Event.model ModelCall.clear))
          Event.settingsInitialized) m.clear.setUnloaded)
        (Event.model ModelCall.setUnloaded) = c' at hm' hini hurl hloads
      have hm2 : tabModel (putTabModel c' m2) = some m2 := tabModel_putTabModel hm' _
      have hcan2 : canInitialize env2 (putTabModel c' m2) = true := by
        unfold canInitialize
        rw [hm2]
        simp [hmoz, hdl, hl]
      have hini2 : (putTabModel c' m2).m_initialized = false := by
        rw [putTabModel_eq]; exact hini
      have hclr2 : clearHistoryReload env2 (putTabModel c' m2) = false := by
        unfold clearHistoryReload
        rw [hm2]
        simp [h0]
      obtain ⟨c2, heq2, hl2, hu2, _, _, _⟩ := initializeContainer_eq hm2 hcan2 hini2 hclr2
      have h00 : (modelAtLoadTest env2 m2).count = 0 := by
        unfold modelAtLoadTest
        split
        · rfl
        · exact h0
      obtain ⟨c3, h3, hl3⟩ := initialLoad_no_tabs env2 c2 h00
      refine ⟨finishInitialize c3, by rw [heq2, h3], (finishInitialize_flags c3).1,
        (finishInitialize_flags c3).2, ?_⟩
      rw [initialLoads_finishInitialize, hl3, hl2, initialLoads_putTabModel, hloads, hu2]
      have hu : (putTabModel c' m2).m_initialUrl = c.m_initialUrl := by
        rw [putTabModel_eq]; exact hurl
      rw [hu]

/-- Witness of C26: the constructed container with a page component and one tab of the
previous session, started with clearing requested: `initialize()` returns with the
container not initialized and not completed and nothing loaded; with the model loaded
again and empty, the next `initialize()` initializes and completes the container. -/
theorem initialize_clear_history_defers_witness :
    ∃ c', initializeContainer clearHistoryEnv restoredContainer = some c' ∧
      c'.m_initialized = false ∧ c'.m_completed = false ∧
      initialLoads c' = initialLoads restoredContainer ∧
      ∃ c3, initializeContainer startupEnv
          (putTabModel c' { DeclarativeTabModel.empty with loaded := true }) = some c3 ∧
        c3.m_initialized = true ∧ c3.m_completed = true := by
  obtain ⟨c', h1, _, _, _, _, h6, _, h8, h9, _, h11⟩ :=
    (initialize_clear_history_defers clearHistoryEnv startupEnv restoredContainer oneTabModel
      { DeclarativeTabModel.empty with loaded := true } rfl rfl rfl rfl).2 (by decide) rfl
  obtain ⟨c3, k1, k2, k3, _⟩ := h11 rfl rfl rfl rfl
  exact ⟨c', h1, h6,
    h8 ⟨false, 5,
      [(coldEnv, Op.collaborators oneTabModel DeclarativeTabModel.empty (WebPages.empty 5)),
       (coldEnv, Op.setWebPageComponent true)], rfl⟩,
    h9, c3, k1, k2, k3⟩

end DeclarativeWebContainer
end SailfishBrowser
